import Mathlib

/-!
# Machine lifecycle and provisioning engine: a verification development

The Go sources are embedded shallowly.  Go code that talks to the outside world
(driver calls, remote commands, file copies, sleeps) is embedded as a function
from the history of external calls made so far to a result and the extended
history.  The behaviour of every collaborator is a function of that history, so
a theorem quantified over the collaborators covers every deterministic
environment, including one that answers differently on each call.

Go's `(value, error)` results are pairs whose second component is `none` for a
nil error.  Logging calls (`glog`, `log.Info`, `log.Warnf`) have no effect on
results and are left out.
-/

namespace Minikube

/-! ## Errors -/

/-- Go error values: one built from a message (`fmt.Errorf`, `errors.Errorf`),
one wrapped with a message (`errors.Wrap`), and the provisioner's
daemon-not-available error around a cause. -/
inductive GoError where
  | errorf (msg : String)
  | wrap (cause : GoError) (msg : String)
  | daemonAvailable (wrapped : GoError)
  deriving DecidableEq, Repr

/-- Go's `error` interface value: `none` is nil. -/
abbrev error := Option GoError

/-- The `Error()` method, used where the source formats an error with `%s`. -/
def GoError.Error : GoError → String
  | .errorf msg => msg
  | .wrap cause msg => msg ++ ": " ++ cause.Error
  | .daemonAvailable wrapped =>
      "daemon did not become available: " ++ wrapped.Error

/-- An error value formatted with `%s`: the text of its `Error()` method, and
Go's rendering of a nil interface value for nil. -/
def errorString (err : error) : String :=
  match err with
  | some e => e.Error
  | none => "%!s(<nil>)"

/-- Embeds `errors.Wrap(err, msg)`: nil stays nil, anything else is wrapped. -/
def errorsWrap (err : error) (msg : String) : error :=
  match err with
  | none => none
  | some e => some (GoError.wrap e msg)

/-- Modelled from the spec: `provision.NewErrDaemonAvailable` (errors.go of the
provision package), the distinct "daemon did not become available" error
carrying the underlying error. -/
def NewErrDaemonAvailable (err : GoError) : GoError :=
  GoError.daemonAvailable err

/-! ## Driver lifecycle states (`libmachine/state`) -/

/-- The driver-reported state is a Go `int`; every integer is a possible value. -/
abbrev State := Int

/-!
The named states of the package, numbered from 0 in the order in which the
package declares them.
-/

namespace state
def None : State := 0
def Running : State := 1
def Paused : State := 2
def Saved : State := 3
def Stopped : State := 4
def Stopping : State := 5
def Starting : State := 6
def Error : State := 7
def Timeout : State := 8

end state

/-- The `String()` method of a state: its name, empty for `None` and for values
outside the table. -/
def State.String (s : State) : String :=
  if s = state.Running then "Running"
  else if s = state.Paused then "Paused"
  else if s = state.Saved then "Saved"
  else if s = state.Stopped then "Stopped"
  else if s = state.Stopping then "Stopping"
  else if s = state.Starting then "Starting"
  else if s = state.Error then "Error"
  else if s = state.Timeout then "Timeout"
  else ""

/-! ## Configuration records -/

/-- The `Downloader` field of a machine configuration: unset, or the default
downloader that `machineConfig` installs. -/
inductive Downloader where
  | unset
  | DefaultDownloader
  deriving DecidableEq, Repr

/-- Modelled from the spec: `config.MachineConfig` (package `pkg/minikube/config`),
the template describing the desired shape of a machine: name, driver kind,
resources.  Only `MachineName` and `Downloader` are written by the code embedded
here; the other fields are carried along unchanged. -/
structure MachineConfig where
  MachineName : String
  VMDriver : String
  Memory : Int
  CPUs : Int
  DiskSize : Int
  Downloader : Downloader
  deriving DecidableEq, Repr

/-- The node configuration `config.NodeConfig`: the logical node name. -/
structure NodeConfig where
  Name : String
  deriving DecidableEq, Repr

/-- The cluster configuration `config.Config`, of which `startNodes` reads the
machine template. -/
structure Config where
  MachineConfig : MachineConfig
  deriving DecidableEq, Repr

/-- The options `ConfigureAuth` hands to `cert.GenerateCert`. -/
structure CertOptions where
  Hosts : List String
  CertFile : String
  KeyFile : String
  CAFile : String
  CAKeyFile : String
  Org : String
  Bits : Int
  SwarmMaster : Bool
  deriving DecidableEq, Repr

/-- The two service actions `ConfigureAuth` requests (`serviceaction`). -/
inductive ServiceAction where
  | Start
  | Stop
  deriving DecidableEq, Repr

/-! ## External calls and their history -/

/-- The calls that leave the embedded code, with the arguments they are given. -/
inductive Call where
  | apiExists (name : String)
  | apiLoad (name : String)
  | checkIfApiExistsAndLoadByName (name : String)
  | startHost (config : MachineConfig)
  | newSSHClient
  | driverGetState
  | driverGetIP
  | driverGetURL
  | copyFile (src dst : String)
  | generateCert (opts : CertOptions)
  | service (name : String) (action : ServiceAction)
  | sshCommand (cmd : String)
  | readFile (path : String)
  | urlParse (rawurl : String)
  | atoi (s : String)
  | generateDockerOptions (dockerPort : Int)
  | sleep (seconds : Nat)
  | nodeIP
  | nodeRunner
  | fprintln (text : String)
  | updateNode (machineName ip : String)
  | setupCerts (machineName ip : String)
  | joinNode (machineName ip : String)
  | osStat (name : String)
  | writeFile (filename : String) (data : List UInt8)
  | tempFile (dir pattern : String)
  | fileClose (name : String)
  | osRemove (name : String)
  | osRename (oldpath newpath : String)
  deriving DecidableEq, Repr

/-- One completed external call and the error it returned (`none`: nil). -/
structure Event where
  call : Call
  err : error
  deriving DecidableEq, Repr

/-- The history of external calls, oldest first. -/
abbrev Trace := List Event

/-- A Go computation: from the history so far to a result and the new history. -/
def Go (α : Type) : Type := Trace → α × Trace

instance : Monad Go where
  pure a := fun t => (a, t)
  bind m f := fun t => f (m t).1 (m t).2

/-- One external call: the collaborator answers from the history, and the call
is appended to the history with the error it returned. -/
def perform {α : Type} (c : Call) (errOf : α → error) (answer : Trace → α) : Go α :=
  fun t => (answer t, t ++ [{ call := c, err := errOf (answer t) }])

/-! ## Drivers, hosts and the machine API -/

/-- The `drivers.Driver` interface as far as the embedded code calls it.  The
name getters cannot fail; for each of the other methods the field `on...` is the
answer (value and error) the driver gives after a given history. -/
structure DriverIface where
  GetMachineName : String
  DriverName : String
  onGetIP : Trace → String × error
  onGetURL : Trace → String × error
  onGetState : Trace → State × error

/-- The call `driver.GetIP()`. -/
def DriverIface.GetIP (d : DriverIface) : Go (String × error) :=
  perform Call.driverGetIP Prod.snd d.onGetIP

/-- The call `driver.GetURL()`. -/
def DriverIface.GetURL (d : DriverIface) : Go (String × error) :=
  perform Call.driverGetURL Prod.snd d.onGetURL

/-- The call `driver.GetState()`. -/
def DriverIface.GetState (d : DriverIface) : Go (State × error) :=
  perform Call.driverGetState Prod.snd d.onGetState

/-- The loaded host record `host.Host`: the embedded code reads its driver. -/
structure Host where
  Driver : DriverIface

/-- The `libmachine.API` interface: the answers of `Exists` and `Load` by machine
name after a given history.  `Load` answers with a host that is meaningful when
its error is nil. -/
structure API where
  onExists : Trace → String → Bool × error
  onLoad : Trace → String → Host × error

/-- The call `api.Exists(name)`. -/
def API.Exists (api : API) (name : String) : Go (Bool × error) :=
  perform (Call.apiExists name) Prod.snd (fun t => api.onExists t name)

/-- The call `api.Load(name)`. -/
def API.Load (api : API) (name : String) : Go (Host × error) :=
  perform (Call.apiLoad name) Prod.snd (fun t => api.onLoad t name)

/-- A handle for an established SSH client. -/
structure SSHClient where
  handle : Nat
  deriving DecidableEq, Repr

/-- The command runner obtained for a node: direct local execution, or
execution over an SSH client. -/
inductive CommandRunner where
  | ExecRunner
  | SSHRunner (client : SSHClient)
  deriving DecidableEq, Repr

/-- Package-level collaborators of the node manager that are not part of the
embedded sources: the answers of `cluster.CheckIfApiExistsAndLoadByName`,
`cluster.StartHost` and `sshutil.NewSSHClient` after a given history, and the
constant `constants.DriverNone`. -/
structure Cluster where
  onCheckIfApiExistsAndLoadByName : Trace → String → API → Host × error
  onStartHost : Trace → API → MachineConfig → Host × error
  onNewSSHClient : Trace → DriverIface → SSHClient × error
  DriverNone : String

/-- The call `cluster.CheckIfApiExistsAndLoadByName(name, api)`. -/
def Cluster.CheckIfApiExistsAndLoadByName (cl : Cluster) (name : String) (api : API) :
    Go (Host × error) :=
  perform (Call.checkIfApiExistsAndLoadByName name) Prod.snd
    (fun t => cl.onCheckIfApiExistsAndLoadByName t name api)

/-- The call `cluster.StartHost(api, config)`. -/
def Cluster.StartHost (cl : Cluster) (api : API) (config : MachineConfig) : Go (Host × error) :=
  perform (Call.startHost config) Prod.snd (fun t => cl.onStartHost t api config)

/-- The call `sshutil.NewSSHClient(driver)`. -/
def Cluster.NewSSHClient (cl : Cluster) (d : DriverIface) : Go (SSHClient × error) :=
  perform Call.newSSHClient Prod.snd (fun t => cl.onNewSSHClient t d)

/-! ## Node manager (`pkg/minikube/node/node.go`) -/

/-- Modelled from the spec: `minikube.NodeStatus` (package `pkg/minikube`), a
string-typed status whose named values are NotCreated, Running and Stopped;
`NodeStatus("")` is the empty status value. -/
structure NodeStatus where
  val : String
  deriving DecidableEq, Repr

/-- Modelled from the spec: the status of a node whose machine record does not exist. -/
def StatusNotCreated : NodeStatus := ⟨"NotCreated"⟩

/-- Modelled from the spec: the status of a running node. -/
def StatusRunning : NodeStatus := ⟨"Running"⟩

/-- Modelled from the spec: the status of a stopped node. -/
def StatusStopped : NodeStatus := ⟨"Stopped"⟩

/-- The `node` struct. -/
structure node where
  api : API
  config : NodeConfig
  baseConfig : MachineConfig
  clusterName : String

/-- Embeds `node.MachineName`: `fmt.Sprintf("%s-%s", n.clusterName, n.config.Name)`. -/
def node.MachineName (n : node) : String :=
  n.clusterName ++ "-" ++ n.config.Name

/-- Embeds `node.Name`. -/
def node.Name (n : node) : String :=
  n.config.Name

/-- Embeds `node.machineConfig`: the base configuration with the default downloader
and the derived machine name. -/
def node.machineConfig (n : node) : MachineConfig :=
  let cfg := n.baseConfig
  let cfg := { cfg with Downloader := Downloader.DefaultDownloader }
  let cfg := { cfg with MachineName := n.MachineName }
  cfg

/-- Embeds `node.IP`. -/
def node.IP (cl : Cluster) (n : node) : Go (String × error) := do
  let (host, err) ← cl.CheckIfApiExistsAndLoadByName n.MachineName n.api
  if err ≠ none then
    return ("", err)
  let (ip, err) ← host.Driver.GetIP
  return (ip, errorsWrap err "Error getting IP")

/-- Embeds `node.Start`. -/
def node.Start (cl : Cluster) (n : node) : Go error := do
  let (_, err) ← cl.StartHost n.api n.machineConfig
  if err ≠ none then
    return err
  return none

/-- Embeds `node.Stop`. -/
def node.Stop (_n : node) : Go error :=
  pure (some (GoError.errorf "Not implemented yet"))

/-- Embeds `node.Runner`: the result is `none` where the source returns a nil runner. -/
def node.Runner (cl : Cluster) (n : node) : Go (Option CommandRunner × error) := do
  let (h, err) ← n.api.Load n.MachineName
  if err ≠ none then
    return (none, errorsWrap err "loading host")
  if h.Driver.DriverName = cl.DriverNone then
    return (some CommandRunner.ExecRunner, none)
  let (client, err) ← cl.NewSSHClient h.Driver
  if err ≠ none then
    return (none, errorsWrap err "getting ssh client")
  return (some (CommandRunner.SSHRunner client), none)

/-- Embeds `node.status`. -/
def node.status (n : node) : Go (NodeStatus × error) := do
  let (exists_, err) ← n.api.Exists n.MachineName
  if err = none ∧ exists_ = false then
    return (StatusNotCreated, none)
  else if err ≠ none then
    return (⟨""⟩, err)
  let (host, err) ← n.api.Load n.MachineName
  if err ≠ none then
    return (⟨""⟩, err)
  let (s, err) ← host.Driver.GetState
  if err ≠ none then
    return (⟨""⟩, err)
  if s = state.Running then
    return (StatusRunning, none)
  else if s = state.Starting then
    return (StatusRunning, none)
  else if s = state.Stopping then
    return (StatusRunning, none)
  else if s = state.Stopped then
    return (StatusStopped, none)
  else if s = state.Paused then
    return (StatusStopped, none)
  else if s = state.Saved then
    return (StatusStopped, none)
  else if s = state.Error then
    return (⟨""⟩, some (GoError.errorf ("Error state " ++ State.String s ++ " from libmachine")))
  else if s = state.Timeout then
    return (⟨""⟩, some (GoError.errorf ("Error state " ++ State.String s ++ " from libmachine")))
  else
    return (⟨""⟩, some (GoError.errorf ("Unknown state " ++ State.String s ++ " from libmachine")))

/-- Embeds `node.Status`: the status, with the error wrapped. -/
def node.Status (n : node) : Go (NodeStatus × error) := do
  let (s, err) ← node.status n
  return (s, errorsWrap err "getting node status")


/-- The machine name a call carries, if it carries one. -/
def Call.machineName : Call → Option String
  | .apiExists name => some name
  | .apiLoad name => some name
  | .checkIfApiExistsAndLoadByName name => some name
  | .startHost config => some config.MachineName
  | _ => none

/-- The events a computation started at history `t` has added in `t'`. -/
def eventsSince (t t' : Trace) : Trace :=
  t'.drop t.length

/-! ## Bulk node start (`cmd/minikube/cmd/start_node.go`) -/

/-- Embeds `newConfig`: the base machine configuration under another machine name. -/
def newConfig (baseConfig : MachineConfig) (machineName : String) : MachineConfig :=
  { baseConfig with MachineName := machineName }

/-- The loop `for i := 0; i < count; i++` of `startNodes`, entered with index `i`
and `remaining = count - i` iterations to go. -/
def startNodesLoop (cl : Cluster) (api : API) (baseConfig : Config) :
    (remaining : Nat) → (i : Int) → Go error
  | 0, _ => pure none
  | remaining + 1, i => do
      let name := baseConfig.MachineConfig.MachineName ++ "-" ++ toString (i + 1)
      let newCfg := newConfig baseConfig.MachineConfig name
      let (_, err) ← cl.StartHost api newCfg
      if err ≠ none then
        return err
      startNodesLoop cl api baseConfig remaining (i + 1)

/-- Embeds `startNodes`: a non-positive `count` runs the loop body zero times. -/
def startNodes (cl : Cluster) (api : API) (_masterIP : String) (baseConfig : Config)
    (count : Int) : Go error :=
  startNodesLoop cl api baseConfig count.toNat 0

/-- The machine configuration `startNodes` builds in iteration `i` (counted from 0). -/
def nodeConfigAt (baseConfig : Config) (i : Nat) : MachineConfig :=
  newConfig baseConfig.MachineConfig
    (baseConfig.MachineConfig.MachineName ++ "-" ++ toString ((i : Int) + 1))

/-- The history `t` extended by `k` successful `StartHost` calls for the
iterations `i0`, `i0 + 1`, ..., `i0 + k - 1`. -/
def startedTrace (baseConfig : Config) (t : Trace) (i0 k : Nat) : Trace :=
  t ++ (List.range k).map
    (fun i => { call := Call.startHost (nodeConfigAt baseConfig (i0 + i)), err := none })

/-! ## Sample collaborators -/

/-- A driver that reports the state `s` and the address 192.168.99.100. -/
def sampleDriver (s : State) : DriverIface where
  GetMachineName := "demo-node-2"
  DriverName := "virtualbox"
  onGetIP := fun _ => ("192.168.99.100", none)
  onGetURL := fun _ => ("tcp://192.168.99.100:2376", none)
  onGetState := fun _ => (s, none)

/-- An API in which every machine exists and loads, its driver reporting `s`. -/
def sampleAPI (s : State) : API where
  onExists := fun _ _ => (true, none)
  onLoad := fun _ _ => ({ Driver := sampleDriver s }, none)

/-- An API without any machine record. -/
def emptyAPI : API where
  onExists := fun _ _ => (false, none)
  onLoad := fun _ _ => ({ Driver := sampleDriver state.None }, some (GoError.errorf "no such machine"))

/-- An API whose existence check fails. -/
def brokenAPI : API where
  onExists := fun _ _ => (false, some (GoError.errorf "store unreadable"))
  onLoad := fun _ _ => ({ Driver := sampleDriver state.None }, some (GoError.errorf "store unreadable"))

/-- A base machine configuration named demo. -/
def sampleMachineConfig : MachineConfig where
  MachineName := "demo"
  VMDriver := "virtualbox"
  Memory := 2048
  CPUs := 2
  DiskSize := 20000
  Downloader := Downloader.unset

/-- The node node-2 of cluster demo over the API `api`. -/
def sampleNode (api : API) : node where
  api := api
  config := { Name := "node-2" }
  baseConfig := sampleMachineConfig
  clusterName := "demo"

/-- Collaborators in which starting the machine named demo-2 fails and every
other start succeeds. -/
def sampleCluster : Cluster where
  onCheckIfApiExistsAndLoadByName := fun _ _ _ => ({ Driver := sampleDriver state.Running }, none)
  onStartHost := fun _ _ config =>
    if config.MachineName = "demo-2" then
      ({ Driver := sampleDriver state.Error }, some (GoError.errorf "start of demo-2 failed"))
    else ({ Driver := sampleDriver state.Running }, none)
  onNewSSHClient := fun _ _ => ({ handle := 1 }, none)
  DriverNone := "none"

/-! ## Provisioning (`pkg/libmachine/provision/utils.go`) -/

/-- The `auth.Options` record: certificate paths, remote install paths, extra
subject alternative names and the local store directory. -/
structure AuthOptions where
  CertDir : String
  CaCertPath : String
  CaPrivateKeyPath : String
  CaCertRemotePath : String
  ServerCertPath : String
  ServerKeyPath : String
  ClientKeyPath : String
  ServerCertRemotePath : String
  ServerKeyRemotePath : String
  ClientCertPath : String
  ServerCertSANs : List String
  StorePath : String
  deriving DecidableEq, Repr

/-- The `swarm.Options` record, of which `ConfigureAuth` reads `Master`. -/
structure SwarmOptions where
  Master : Bool
  deriving DecidableEq, Repr

/-- Embeds `DockerOptions`. -/
structure DockerOptions where
  EngineOptions : String
  EngineOptionsPath : String
  deriving DecidableEq, Repr

/-- The parsed URL `url.URL`, of which `ConfigureAuth` reads `Host`. -/
structure URL where
  Host : String
  deriving DecidableEq, Repr

/-- The `Provisioner` interface as far as the embedded code calls it: three
getters that cannot fail, and the answers of `Service`, `SSHCommand` and
`GenerateDockerOptions` after a given history. -/
structure Provisioner where
  GetDriver : DriverIface
  GetAuthOptions : AuthOptions
  GetSwarmOptions : SwarmOptions
  onService : Trace → String → ServiceAction → error
  onSSHCommand : Trace → String → String × error
  onGenerateDockerOptions : Trace → Int → DockerOptions × error

/-- The call `p.Service(name, action)`. -/
def Provisioner.Service (p : Provisioner) (name : String) (action : ServiceAction) : Go error :=
  perform (Call.service name action) id (fun t => p.onService t name action)

/-- The call `p.SSHCommand(cmd)`. -/
def Provisioner.SSHCommand (p : Provisioner) (cmd : String) : Go (String × error) :=
  perform (Call.sshCommand cmd) Prod.snd (fun t => p.onSSHCommand t cmd)

/-- The call `p.GenerateDockerOptions(dockerPort)`. -/
def Provisioner.GenerateDockerOptions (p : Provisioner) (dockerPort : Int) :
    Go (DockerOptions × error) :=
  perform (Call.generateDockerOptions dockerPort) Prod.snd
    (fun t => p.onGenerateDockerOptions t dockerPort)

/-- What `ConfigureAuth` and `WaitForDocker` use from outside the embedded
sources.  Pure functions of the Go standard library (`filepath.Join`,
`path.Dir`, `url.Parse`, `strconv.Atoi`, `regexp.MatchString`) and the constant
`engine.DefaultPort` are taken as they are, the calls of the two that can fail
where `ConfigureAuth` checks the error being recorded in the history; `mcnutils.GetUsername` is the local
user name; for `mcnutils.CopyFile`, `cert.GenerateCert` and `ioutil.ReadFile`
the field `on...` is the answer after a given history; `ErrMaxRetries` is the
error `mcnutils.WaitForSpecific` returns when its attempts are used up. -/
structure Lib where
  GetUsername : String
  filepathJoin : String → String → String
  pathDir : String → String
  urlParse : String → URL × error
  Atoi : String → Int × error
  MatchString : String → String → Bool × error
  DefaultPort : Int
  ErrMaxRetries : Nat → GoError
  onCopyFile : Trace → String → String → error
  onGenerateCert : Trace → CertOptions → error
  onReadFile : Trace → String → String × error

/-- The call `mcnutils.CopyFile(src, dst)`. -/
def Lib.CopyFile (lib : Lib) (src dst : String) : Go error :=
  perform (Call.copyFile src dst) id (fun t => lib.onCopyFile t src dst)

/-- The call `cert.GenerateCert(opts)`. -/
def Lib.GenerateCert (lib : Lib) (opts : CertOptions) : Go error :=
  perform (Call.generateCert opts) id (fun t => lib.onGenerateCert t opts)

/-- The call `ioutil.ReadFile(path)`; the content is kept as text, which is how
the source uses it (`string(caCert)`). -/
def Lib.ReadFile (lib : Lib) (path : String) : Go (String × error) :=
  perform (Call.readFile path) Prod.snd (fun t => lib.onReadFile t path)

/-- The call `url.Parse(rawurl)`. -/
def Lib.Parse (lib : Lib) (rawurl : String) : Go (URL × error) :=
  perform (Call.urlParse rawurl) Prod.snd (fun _ => lib.urlParse rawurl)

/-- The call `strconv.Atoi(s)`. -/
def Lib.AtoiCall (lib : Lib) (s : String) : Go (Int × error) :=
  perform (Call.atoi s) Prod.snd (fun _ => lib.Atoi s)

/-- The call `time.Sleep` for a number of seconds. -/
def Sleep (seconds : Nat) : Go Unit :=
  perform (Call.sleep seconds) (fun _ => none) (fun _ => ())

/-- Splitting a character list at every occurrence of `sep`. -/
def splitChars (sep : Char) : List Char → List (List Char)
  | [] => [[]]
  | c :: cs =>
    if c = sep then [] :: splitChars sep cs
    else
      match splitChars sep cs with
      | [] => [[c]]
      | piece :: pieces => (c :: piece) :: pieces

/-- Embeds `strings.Split(s, sep)` for a separator of one character, which is what both
call sites pass (":" and the newline). -/
def stringsSplit (s : String) (sep : Char) : List String :=
  (splitChars sep s.toList).map String.mk

/-- Modelled from the spec: the loop of `mcnutils.WaitForSpecific` (package
`pkg/libmachine/mcnutils`), a bounded retry: each attempt that fails is followed
by the fixed delay and retried until the attempt budget is used up, which gives
the retry error. -/
def WaitForSpecificLoop (lib : Lib) (f : Go Bool) (maxAttempts waitInterval : Nat) :
    (remaining : Nat) → Go error
  | 0 => pure (some (lib.ErrMaxRetries maxAttempts))
  | remaining + 1 => do
      let stop ← f
      if stop then
        return none
      Sleep waitInterval
      WaitForSpecificLoop lib f maxAttempts waitInterval remaining

/-- Modelled from the spec: `mcnutils.WaitForSpecific(f, maxAttempts, waitInterval)`,
with the interval in seconds. -/
def WaitForSpecific (lib : Lib) (f : Go Bool) (maxAttempts waitInterval : Nat) : Go error :=
  WaitForSpecificLoop lib f maxAttempts waitInterval maxAttempts

/-- The loop of `matchNetstatOut` over the lines of the output. -/
def matchNetstatLines (lib : Lib) (reDaemonListening : String) : List String → Bool
  | [] => false
  | line :: rest =>
    if (lib.MatchString reDaemonListening line).1 = true ∧ line ≠ "" then true
    else matchNetstatLines lib reDaemonListening rest

/-- Embeds `matchNetstatOut`. -/
def matchNetstatOut (lib : Lib) (reDaemonListening netstatOut : String) : Bool :=
  matchNetstatLines lib reDaemonListening (stringsSplit netstatOut '\n')

/-- The command `checkDaemonUp` runs to list the listening sockets. -/
def netstatCommand : String :=
  "if ! type netstat 1>/dev/null; then ss -tln; else netstat -tln; fi"

/-- Embeds `checkDaemonUp`: one readiness attempt. -/
def checkDaemonUp (lib : Lib) (p : Provisioner) (dockerPort : Int) : Go Bool :=
  let reDaemonListening := ":" ++ toString dockerPort ++ "\\s+.*:.*"
  do
    let (netstatOut, err) ← p.SSHCommand netstatCommand
    if err ≠ none then
      return false
    return matchNetstatOut lib reDaemonListening netstatOut

/-- Embeds `WaitForDocker`: ten attempts, three seconds apart. -/
def WaitForDocker (lib : Lib) (p : Provisioner) (dockerPort : Int) : Go error := do
  let err ← WaitForSpecific lib (checkDaemonUp lib p dockerPort) 10 3
  match err with
  | some e => return some (NewErrDaemonAvailable e)
  | none => return none

/-- The command that removes a left-over docker0 bridge. -/
def bridgeRemovalCommand : String :=
  "if [ ! -z \"$(ip link show docker0)\" ]; then sudo ip link delete docker0; fi"

/-- The certificate transfer command,
`fmt.Sprintf("printf '%%s' '%s' | sudo tee %s", content, remotePath)`. -/
def certTransferCmd (content remotePath : String) : String :=
  "printf \x27%s\x27 \x27" ++ content ++ "\x27 | sudo tee " ++ remotePath

/-- The command that writes the engine options file,
`fmt.Sprintf("sudo mkdir -p %s && printf %%s \"%s\" | sudo tee %s", dir, options, path)`. -/
def engineOptionsCmd (dir options path : String) : String :=
  "sudo mkdir -p " ++ dir ++ " && printf %s \"" ++ options ++ "\" | sudo tee " ++ path

/-- Embeds `ConfigureAuth`. -/
def ConfigureAuth (lib : Lib) (p : Provisioner) : Go error := do
  let driver := p.GetDriver
  let machineName := driver.GetMachineName
  let authOptions := p.GetAuthOptions
  let swarmOptions := p.GetSwarmOptions
  let org := lib.GetUsername ++ "." ++ machineName
  let bits : Int := 2048
  let (ip, err) ← driver.GetIP
  if err ≠ none then
    return err
  let err ← lib.CopyFile authOptions.CaCertPath (lib.filepathJoin authOptions.StorePath "ca.pem")
  if err ≠ none then
    return some (GoError.errorf ("Copying ca.pem to machine dir failed: " ++ errorString err))
  let err ← lib.CopyFile authOptions.ClientCertPath
    (lib.filepathJoin authOptions.StorePath "cert.pem")
  if err ≠ none then
    return some (GoError.errorf ("Copying cert.pem to machine dir failed: " ++ errorString err))
  let err ← lib.CopyFile authOptions.ClientKeyPath
    (lib.filepathJoin authOptions.StorePath "key.pem")
  if err ≠ none then
    return some (GoError.errorf ("Copying key.pem to machine dir failed: " ++ errorString err))
  let hosts := authOptions.ServerCertSANs ++ [ip, "localhost", "127.0.0.1"]
  let err ← lib.GenerateCert {
    Hosts := hosts
    CertFile := authOptions.ServerCertPath
    KeyFile := authOptions.ServerKeyPath
    CAFile := authOptions.CaCertPath
    CAKeyFile := authOptions.CaPrivateKeyPath
    Org := org
    Bits := bits
    SwarmMaster := swarmOptions.Master }
  if err ≠ none then
    return some (GoError.errorf ("error generating server cert: " ++ errorString err))
  let err ← p.Service "docker" ServiceAction.Stop
  if err ≠ none then
    return err
  let (_, err) ← p.SSHCommand bridgeRemovalCommand
  if err ≠ none then
    return err
  let (caCert, err) ← lib.ReadFile authOptions.CaCertPath
  if err ≠ none then
    return err
  let (serverCert, err) ← lib.ReadFile authOptions.ServerCertPath
  if err ≠ none then
    return err
  let (serverKey, err) ← lib.ReadFile authOptions.ServerKeyPath
  if err ≠ none then
    return err
  let (_, err) ← p.SSHCommand (certTransferCmd caCert authOptions.CaCertRemotePath)
  if err ≠ none then
    return err
  let (_, err) ← p.SSHCommand (certTransferCmd serverCert authOptions.ServerCertRemotePath)
  if err ≠ none then
    return err
  let (_, err) ← p.SSHCommand (certTransferCmd serverKey authOptions.ServerKeyRemotePath)
  if err ≠ none then
    return err
  let (dockerURL, err) ← driver.GetURL
  if err ≠ none then
    return err
  let (u, err) ← lib.Parse dockerURL
  if err ≠ none then
    return err
  let mut dockerPort := lib.DefaultPort
  let parts := stringsSplit u.Host ':'
  if parts.length = 2 then
    let (dPort, err) ← lib.AtoiCall (parts.getD 1 "")
    if err ≠ none then
      return err
    dockerPort := dPort
  let (dkrcfg, err) ← p.GenerateDockerOptions dockerPort
  if err ≠ none then
    return err
  let (_, err) ← p.SSHCommand (engineOptionsCmd (lib.pathDir dkrcfg.EngineOptionsPath)
    dkrcfg.EngineOptions dkrcfg.EngineOptionsPath)
  if err ≠ none then
    return err
  let err ← p.Service "docker" ServiceAction.Start
  if err ≠ none then
    return err
  WaitForDocker lib p dockerPort

/-! ## The driver used when no driver is selected (`pkg/libmachine/host/driver.go`) -/

namespace host

/-- The driver name constant `driverName`. -/
def driverName : String := "none"

/-- Modelled from the spec: `drivers.BaseDriver` (package `pkg/libmachine/drivers`),
the attributes every driver carries: address, machine name, SSH connection
parameters and store path. -/
structure BaseDriver where
  IPAddress : String
  MachineName : String
  SSHUser : String
  SSHPort : Int
  SSHKeyPath : String
  StorePath : String
  deriving DecidableEq, Repr

/-- The `Driver` struct: it embeds the base driver. -/
structure Driver where
  BaseDriver : BaseDriver
  deriving DecidableEq, Repr

/-- Embeds `NewDriver`: the fields not named are zero values. -/
def NewDriver (hostName storePath : String) : Driver :=
  { BaseDriver := {
      IPAddress := ""
      MachineName := hostName
      SSHUser := ""
      SSHPort := 0
      SSHKeyPath := ""
      StorePath := storePath } }

/-!
The methods have a pointer receiver.  A method that returns only values is a
function of the driver; a method through which the driver could be written
(`Create`, `Start`, `Stop`, `Restart`, `Kill`, `Remove`) returns its error
together with the driver as it is after the call.
-/

/-- Embeds `Driver.Create`. -/
def Driver.Create (d : Driver) : error × Driver :=
  (none, d)

/-- Embeds `Driver.DriverName`. -/
def Driver.DriverName (_d : Driver) : String :=
  driverName

/-- Embeds `Driver.GetIP`. -/
def Driver.GetIP (d : Driver) : String × error :=
  (d.BaseDriver.IPAddress, none)

/-- Embeds `Driver.GetSSHHostname`. -/
def Driver.GetSSHHostname (_d : Driver) : String × error :=
  ("", none)

/-- Embeds `Driver.GetSSHKeyPath`. -/
def Driver.GetSSHKeyPath (_d : Driver) : String :=
  ""

/-- Embeds `Driver.GetSSHPort`. -/
def Driver.GetSSHPort (_d : Driver) : Int × error :=
  (0, none)

/-- Embeds `Driver.GetSSHUsername`. -/
def Driver.GetSSHUsername (_d : Driver) : String :=
  ""

/-- Embeds `Driver.GetURL`. -/
def Driver.GetURL (_d : Driver) : String × error :=
  ("", none)

/-- Embeds `Driver.GetState`. -/
def Driver.GetState (_d : Driver) : State × error :=
  (state.Running, none)

/-- Embeds `Driver.Kill`. -/
def Driver.Kill (d : Driver) : error × Driver :=
  (some (GoError.errorf "hosts without a driver cannot be killed"), d)

/-- Embeds `Driver.Restart`. -/
def Driver.Restart (d : Driver) : error × Driver :=
  (some (GoError.errorf "hosts without a driver cannot be restarted"), d)

/-- Embeds `Driver.Start`. -/
def Driver.Start (d : Driver) : error × Driver :=
  (some (GoError.errorf "hosts without a driver cannot be started"), d)

/-- Embeds `Driver.Stop`. -/
def Driver.Stop (d : Driver) : error × Driver :=
  (some (GoError.errorf "hosts without a driver cannot be stopped"), d)

end host

/-! ## Host migration (`pkg/libmachine/host/migrate.go`) -/

/-- A byte string (`[]byte`); a nil slice is the empty byte string. -/
abbrev Bytes := List UInt8

namespace host

/-- The capture type `RawDataDriver`: the driver used when no driver is selected,
and the bytes handed back when the value is marshalled. -/
structure RawDataDriver where
  Driver : Driver
  Data : Bytes
  deriving DecidableEq, Repr

/-- Embeds `RawDataDriver.UnmarshalJSON`: the error, and the receiver as it is after
the call. -/
def RawDataDriver.UnmarshalJSON (r : RawDataDriver) (data : Bytes) : error × RawDataDriver :=
  (none, { r with Data := data })

/-- Modelled from the spec: `host.Options` (package `pkg/libmachine/host`), the
options of a host, of which the migration reads the auth options.  The auth
options are reached through a pointer; `none` is the nil pointer. -/
structure Options where
  AuthOptions : Option AuthOptions
  deriving DecidableEq, Repr

/-- Modelled from the spec: `host.MetadataV0`, the minimal version-0 shape a
persisted record is first decoded into, holding enough (the store path) to
build a placeholder driver. -/
structure MetadataV0 where
  ConfigVersion : Int
  DriverName : String
  StorePath : String
  deriving DecidableEq, Repr

/-- Modelled from the spec: `host.Metadata`, the current metadata shape. -/
structure Metadata where
  ConfigVersion : Int
  DriverName : String
  HostOptions : Options
  deriving DecidableEq, Repr

/-- The zero value of the auth options. -/
def zeroAuthOptions : AuthOptions where
  CertDir := ""
  CaCertPath := ""
  CaPrivateKeyPath := ""
  CaCertRemotePath := ""
  ServerCertPath := ""
  ServerKeyPath := ""
  ClientKeyPath := ""
  ServerCertRemotePath := ""
  ServerKeyRemotePath := ""
  ClientCertPath := ""
  ServerCertSANs := []
  StorePath := ""

/-- The zero value `Metadata{}`; its auth options pointer is nil. -/
def zeroMetadata : Metadata where
  ConfigVersion := 0
  DriverName := ""
  HostOptions := { AuthOptions := none }

/-- Modelled from the spec: `host.Host`, the persisted record: schema version,
the bound driver, driver name, options, name and the raw driver payload.  The
`Driver` field holds the capture type once `MigrateHost` has bound it, and
`none` when it is nil. -/
structure Host where
  ConfigVersion : Int
  Driver : Option RawDataDriver
  DriverName : String
  HostOptions : Option Options
  Name : String
  RawDriver : Bytes
  deriving DecidableEq, Repr

/-- What a document holds for the key `Driver`: nothing, the value `null`, or a
value given by its bytes. -/
inductive DriverValue where
  | absent
  | null
  | value (raw : Bytes)
  deriving DecidableEq, Repr

/-- What `json.Unmarshal(data, &h)` does for a pointer `h` to a host: it fails
with an error; or the document is `null`, and it sets the pointer `h` to nil
and returns no error; or it decodes the exported fields of the document into
the host and finds the `Driver` value as given. -/
inductive HostDecode where
  | failed (err : GoError)
  | null
  | decoded (h : Host) (driver : DriverValue)
  deriving DecidableEq, Repr

/-- What the migration uses from outside the embedded sources.

* `unmarshalMetadataV0` is `json.Unmarshal(data, &hostMetadata)` for a nil
  pointer `hostMetadata`: the pointer after the call, which is still nil (`none`)
  for the document `null`, and the error.
* `MigrateHostMetadataV0ToHostMetadataV1` is the upgrade of version-0 metadata,
  a function from a pointer to a pointer: the outer `none` is a panic of the
  function, the inner `none` a nil result.
* `filepathDir` is `filepath.Dir`.
* `unmarshalHost data h` is what `json.Unmarshal(data, &h)` reads from the
  document for a host `h`.  What the library then does with the `Driver` value
  is part of `jsonUnmarshalHost` below. -/
structure JSONLib where
  unmarshalMetadataV0 : Bytes → Option MetadataV0 × error
  MigrateHostMetadataV0ToHostMetadataV1 : Option MetadataV0 → Option (Option Metadata)
  filepathDir : String → String
  unmarshalHost : Bytes → Host → HostDecode

/-- The call `json.Unmarshal(data, &h)` for a host whose `Driver` field is bound
to `driver`.  The result is the error, the pointer `h` after the call (`none`
when the library has set it to nil) and the driver after the call.  When the
document has no `Driver` key the field is left as it is; for the value `null`
the library sets the field to nil and does not call the driver; any other value
goes through `driver.UnmarshalJSON`, and the field keeps pointing to the
driver.  `RawDriver` is never written by the library.  After an error the
caller does not use the host again. -/
def jsonUnmarshalHost (lib : JSONLib) (data : Bytes) (h : Host) (driver : RawDataDriver) :
    error × Option Host × RawDataDriver :=
  match lib.unmarshalHost data h with
  | .failed err => (some err, some h, driver)
  | .null => (none, none, driver)
  | .decoded decoded .absent =>
    (none, some { decoded with Driver := h.Driver, RawDriver := h.RawDriver }, driver)
  | .decoded decoded .null =>
    (none, some { decoded with Driver := none, RawDriver := h.RawDriver }, driver)
  | .decoded decoded (.value raw) =>
    let (err, driver) := driver.UnmarshalJSON raw
    (err, some { decoded with Driver := some driver, RawDriver := h.RawDriver }, driver)

/-- Embeds `getMigratedHostMetadata`: the pointer to the migrated metadata and
the error, or `none` when the upgrade function panics. -/
def getMigratedHostMetadata (lib : JSONLib) (data : Bytes) :
    Option (Option Metadata × error) :=
  let (hostMetadata, err) := lib.unmarshalMetadataV0 data
  if err ≠ none then
    some (some zeroMetadata, err)
  else
    match lib.MigrateHostMetadataV0ToHostMetadataV1 hostMetadata with
    | none => none
    | some migratedHostMetadata => some (migratedHostMetadata, none)

/-- Embeds `MigrateHost`, for a non-nil pointer to the host `h`.  The result is
`none` when the function panics: the upgrade function panics, the migrated
metadata or its auth options are nil where the store path is read, or the full
decode has set `h` to nil where `h.RawDriver` is assigned.  Otherwise it is the
returned host (`none` for a nil pointer), the migration flag and the error; the
host returned on success is the host passed in, as it is after the call. -/
def MigrateHost (lib : JSONLib) (h : Host) (data : Bytes) :
    Option (Option Host × Bool × error) :=
  let migrationPerformed := false
  match getMigratedHostMetadata lib data with
  | none => none
  | some (migratedHostMetadata, err) =>
    if err ≠ none then
      some (none, false, err)
    else
      match migratedHostMetadata with
      | none => none
      | some migratedHostMetadata =>
        match migratedHostMetadata.HostOptions.AuthOptions with
        | none => none
        | some authOptions =>
          let globalStorePath := lib.filepathDir (lib.filepathDir authOptions.StorePath)
          let driver : RawDataDriver := { Driver := NewDriver h.Name globalStorePath, Data := [] }
          let h := { h with Driver := some driver }
          let (err, h, driver) := jsonUnmarshalHost lib data h driver
          if err ≠ none then
            some (none, migrationPerformed,
              some (GoError.errorf
                ("Error unmarshalling most recent host version: " ++ errorString err)))
          else
            match h with
            | none => none
            | some h =>
              let h := { h with RawDriver := driver.Data }
              some (some h, migrationPerformed, none)

/-- The placeholder driver `MigrateHost` binds to the host before the full
decode, for the auth-options store path `p` of the migrated metadata: no
driver, named after the host, stored two directories above `p`. -/
def placeholderDriver (lib : JSONLib) (h : Host) (p : String) : RawDataDriver :=
  { Driver := NewDriver h.Name (lib.filepathDir (lib.filepathDir p)), Data := [] }

/-- The host as `MigrateHost` hands it to the full decode: bound to the
placeholder driver. -/
def boundHost (lib : JSONLib) (h : Host) (p : String) : Host :=
  { h with Driver := some (placeholderDriver lib h p) }

/-- The auth-options store path of the migrated metadata, when the first decode
succeeds and the upgrade gives metadata with auth options. -/
def migratedStorePath (lib : JSONLib) (data : Bytes) : Option String :=
  match getMigratedHostMetadata lib data with
  | some (some m, none) =>
    match m.HostOptions.AuthOptions with
    | some authOptions => some authOptions.StorePath
    | none => none
  | _ => none

end host

/-! ## Path names on a Unix system (`path/filepath`) -/

/-- The elements of a path that remain when it is cleaned: empty elements and
"." are dropped, ".." removes the element before it, or is kept when there is
none to remove and the path is not rooted.  `out` holds the elements kept so
far, last first. -/
def cleanElements (rooted : Bool) : List (List Char) → List (List Char) → List (List Char)
  | [], out => out.reverse
  | e :: es, out =>
    if e = [] ∨ e = ['.'] then cleanElements rooted es out
    else if e = ['.', '.'] then
      match out with
      | top :: below =>
        if top = ['.', '.'] then cleanElements rooted es (e :: out)
        else cleanElements rooted es below
      | [] => if rooted then cleanElements rooted es [] else cleanElements rooted es [e]
    else cleanElements rooted es (e :: out)

/-- Joining path elements with "/". -/
def joinElements : List (List Char) → List Char
  | [] => []
  | [e] => e
  | e :: es => e ++ '/' :: joinElements es

/-- The function `filepath.Clean` where the separator is "/". -/
def filepathClean (path : String) : String :=
  if path = "" then "."
  else
    let rooted := decide (path.toList.head? = some '/')
    let body := joinElements (cleanElements rooted (splitChars '/' path.toList) [])
    if rooted then String.mk ('/' :: body)
    else if body = [] then "."
    else String.mk body

/-- The function `filepath.Dir` where the separator is "/": the path up to and
including its last separator, cleaned. -/
def filepathDirUnix (path : String) : String :=
  let upToSeparator := (path.toList.reverse.dropWhile (fun c => c ≠ '/')).reverse
  filepathClean (String.mk upToSeparator)

/-! ## Worker bootstrap (`pkg/minikube/bootstrapper/kubeadm/worker.go`) -/

/-- The `minikube.Node` interface as far as `Bootstrap` calls it: the machine
name, and the answers of `IP()` and `Runner()` after a given history. -/
structure Node where
  MachineName : String
  onIP : Trace → String × error
  onRunner : Trace → Option CommandRunner × error

/-- The call `n.IP()`. -/
def Node.IP (n : Node) : Go (String × error) :=
  perform Call.nodeIP Prod.snd n.onIP

/-- The call `n.Runner()`. -/
def Node.Runner (n : Node) : Go (Option CommandRunner × error) :=
  perform Call.nodeRunner Prod.snd n.onRunner

/-- An `io.Writer`: the error a write of a text gives after a given history. -/
structure Writer where
  onWrite : Trace → String → error

/-- The call `fmt.Fprintln(w, text)`; no caller in the embedded code looks at
its result. -/
def Writer.Fprintln (w : Writer) (text : String) : Go error :=
  perform (Call.fprintln text) id (fun t => w.onWrite t text)

/-- The kubeadm bootstrapper `NewKubeadmBootstrapperForRunner` returns, for a
configuration type `κ`: the machine name, address and runner it was built for,
and the answers of its three steps after a given history. -/
structure KubeadmBootstrapper (κ : Type) where
  machineName : String
  ip : String
  runner : Option CommandRunner
  onUpdateNode : Trace → κ → error
  onSetupCerts : Trace → κ → error
  onJoinNode : Trace → κ → error

/-- The call `b.UpdateNode(config)`. -/
def KubeadmBootstrapper.UpdateNode {κ : Type} (b : KubeadmBootstrapper κ) (config : κ) :
    Go error :=
  perform (Call.updateNode b.machineName b.ip) id (fun t => b.onUpdateNode t config)

/-- The call `b.SetupCerts(config)`. -/
def KubeadmBootstrapper.SetupCerts {κ : Type} (b : KubeadmBootstrapper κ) (config : κ) :
    Go error :=
  perform (Call.setupCerts b.machineName b.ip) id (fun t => b.onSetupCerts t config)

/-- The call `b.JoinNode(config)`. -/
def KubeadmBootstrapper.JoinNode {κ : Type} (b : KubeadmBootstrapper κ) (config : κ) :
    Go error :=
  perform (Call.joinNode b.machineName b.ip) id (fun t => b.onJoinNode t config)

/-- The behaviour of the kubeadm bootstrappers, which are not part of the
embedded sources: what each step of the bootstrapper built for a machine name,
an address and a runner answers after a given history. -/
structure Kubeadm (κ : Type) where
  onUpdateNode : String → String → Option CommandRunner → Trace → κ → error
  onSetupCerts : String → String → Option CommandRunner → Trace → κ → error
  onJoinNode : String → String → Option CommandRunner → Trace → κ → error

/-- The constructor `NewKubeadmBootstrapperForRunner(machineName, ip, runner)`. -/
def Kubeadm.NewKubeadmBootstrapperForRunner {κ : Type} (k : Kubeadm κ)
    (machineName ip : String) (runner : Option CommandRunner) : KubeadmBootstrapper κ where
  machineName := machineName
  ip := ip
  runner := runner
  onUpdateNode := k.onUpdateNode machineName ip runner
  onSetupCerts := k.onSetupCerts machineName ip runner
  onJoinNode := k.onJoinNode machineName ip runner

/-- Embeds `WorkerBootstrapper`: the cluster configuration and the writer for
progress lines. -/
structure WorkerBootstrapper (κ : Type) where
  config : κ
  ui : Writer

/-- Embeds `WorkerBootstrapper.Bootstrap`. -/
def WorkerBootstrapper.Bootstrap {κ : Type} (k : Kubeadm κ) (nb : WorkerBootstrapper κ)
    (n : Node) : Go error := do
  let (ip, err) ← n.IP
  if err ≠ none then
    return errorsWrap err "Error getting node\x27s IP"
  let (runner, err) ← n.Runner
  if err ≠ none then
    return errorsWrap err "Error getting node\x27s runner"
  let b := k.NewKubeadmBootstrapperForRunner n.MachineName ip runner
  let _ ← nb.ui.Fprintln "Moving assets into node..."
  let err ← b.UpdateNode nb.config
  if err ≠ none then
    return errorsWrap err "Error updating node"
  let _ ← nb.ui.Fprintln "Setting up certs..."
  let err ← b.SetupCerts nb.config
  if err ≠ none then
    return errorsWrap err "Error configuring authentication"
  let _ ← nb.ui.Fprintln "Joining node to cluster..."
  let err ← b.JoinNode nb.config
  if err ≠ none then
    return errorsWrap err "Error joining node to cluster"
  return none

/-! ### The calls of a run, one by one

For a run of `Bootstrap` started at the history `t`, each definition below is
one call as it is made when every earlier call has succeeded: the answer the
collaborator gives and the history after the call. -/

/-- The call `n.IP()`, the first call of a run. -/
def ipStage (n : Node) (t : Trace) : (String × error) × Trace :=
  n.IP t

/-- The call `n.Runner()`, made after `n.IP()`. -/
def runnerStage (n : Node) (t : Trace) : (Option CommandRunner × error) × Trace :=
  n.Runner (ipStage n t).2

/-- The bootstrapper of a run: built for the node's machine name, the address
`n.IP()` gave and the runner `n.Runner()` gave. -/
def bootstrapperFor {κ : Type} (k : Kubeadm κ) (n : Node) (t : Trace) : KubeadmBootstrapper κ :=
  k.NewKubeadmBootstrapperForRunner n.MachineName (ipStage n t).1.1 (runnerStage n t).1.1

/-- The call `b.UpdateNode(nb.config)`, made after the first progress line. -/
def updateStage {κ : Type} (k : Kubeadm κ) (nb : WorkerBootstrapper κ) (n : Node) (t : Trace) :
    error × Trace :=
  (bootstrapperFor k n t).UpdateNode nb.config
    (nb.ui.Fprintln "Moving assets into node..." (runnerStage n t).2).2

/-- The call `b.SetupCerts(nb.config)`, made after the second progress line. -/
def certsStage {κ : Type} (k : Kubeadm κ) (nb : WorkerBootstrapper κ) (n : Node) (t : Trace) :
    error × Trace :=
  (bootstrapperFor k n t).SetupCerts nb.config
    (nb.ui.Fprintln "Setting up certs..." (updateStage k nb n t).2).2

/-- The call `b.JoinNode(nb.config)`, made after the third progress line. -/
def joinStage {κ : Type} (k : Kubeadm κ) (nb : WorkerBootstrapper κ) (n : Node) (t : Trace) :
    error × Trace :=
  (bootstrapperFor k n t).JoinNode nb.config
    (nb.ui.Fprintln "Joining node to cluster..." (certsStage k nb n t).2).2

/-! ## Saving a profile (`cmd/minikube/profile/profile.go`) -/

/-- The function `unicode.IsSpace`: the white space characters of Unicode. -/
def unicodeIsSpace (c : Char) : Bool :=
  c = '\t' || c = '\n' || c = '\x0b' || c = '\x0c' || c = '\r' || c = ' ' ||
  c = '\u0085' || c = '\u00a0' || c = '\u1680' ||
  (0x2000 ≤ c.toNat && c.toNat ≤ 0x200a) ||
  c = '\u2028' || c = '\u2029' || c = '\u202f' || c = '\u205f' || c = '\u3000'

/-- The fields of a character list: the maximal runs of characters that are not
white space.  `cur` holds the run being read, last character first. -/
def fieldsChars : List Char → List Char → List (List Char)
  | [], cur => if cur = [] then [] else [cur.reverse]
  | c :: cs, cur =>
    if unicodeIsSpace c then
      if cur = [] then fieldsChars cs [] else cur.reverse :: fieldsChars cs []
    else fieldsChars cs (c :: cur)

/-- The function `strings.Fields`. -/
def stringsFields (s : String) : List String :=
  (fieldsChars s.toList []).map String.mk

/-- The function `strings.TrimRight(s, cutset)`: `s` without its trailing
characters that occur in `cutset`. -/
def stringsTrimRight (s cutset : String) : String :=
  String.mk (s.toList.reverse.dropWhile (fun c => cutset.toList.contains c)).reverse

/-- The `SSHCommander` interface: the output and error of a command after a
given history. -/
structure SSHCommander where
  onSSHCommand : Trace → String → String × error

/-- The call `ssh.SSHCommand(cmd)`. -/
def SSHCommander.SSHCommand (ssh : SSHCommander) (cmd : String) : Go (String × error) :=
  perform (Call.sshCommand cmd) Prod.snd (fun t => ssh.onSSHCommand t cmd)

/-- Embeds `DockerClientVersion`; `quote` is the `%q` verb of `fmt`, the text as
a quoted Go string literal. -/
def DockerClientVersion (quote : String → String) (ssh : SSHCommander) :
    Go (String × error) := do
  let (output, err) ← ssh.SSHCommand "docker --version"
  if err ≠ none then
    return ("", err)
  let words := stringsFields output
  if words.length < 3 ∨ words[0]? ≠ some "Docker" ∨ words[1]? ≠ some "version" then
    return ("", some (GoError.errorf
      ("DockerClientVersion: cannot parse version string from " ++ quote output)))
  return (stringsTrimRight (words.getD 2 "") ",", none)

/-! ## Parsers of command output (`pkg/util/utils.go`)

A run-time panic (a slice or an index out of range) is the result `none`; a
function that returns normally gives `some` of its results. -/

/-- The slice expression `xs[lo:hi]`: it panics unless `0 ≤ lo ≤ hi ≤ len(xs)`.
(The upper limit of a Go slice expression is the capacity; the embedded code
only uses `hi = len(xs) - 1`.) -/
def goSlice {α : Type} (xs : List α) (lo hi : Int) : Option (List α) :=
  if 0 ≤ lo ∧ lo ≤ hi ∧ hi ≤ (xs.length : Int) then
    some ((xs.take hi.toNat).drop lo.toNat)
  else none

/-- The index expression `xs[i]`: it panics unless `i < len(xs)`. -/
def goIndex {α : Type} (xs : List α) (i : Nat) : Option α :=
  xs[i]?

/-- The value of an `int` (64 bits, twos complement) for a mathematical integer. -/
def wrapInt64 (x : Int) : Int :=
  (x + 2 ^ 63) % 2 ^ 64 - 2 ^ 63

/-- The package `strconv` as far as the parsers call it: `Atoi`, and `ParseUint`
with base 10 and 64 bits. -/
structure Strconv where
  Atoi : String → Int × error
  ParseUint : String → Nat × error

/-- The function `strings.Trim(s, cutset)`: `s` without its leading and trailing
characters that occur in `cutset`. -/
def stringsTrim (s cutset : String) : String :=
  String.mk ((s.toList.dropWhile (fun c => cutset.toList.contains c)).reverse.dropWhile
    (fun c => cutset.toList.contains c)).reverse

/-- The loop of `ParseVMStat` over the lines of the slice, and the return after it. -/
def ParseVMStatLines (sc : Strconv) : List String → Option (Int × Int × error)
  | [] => some (0, 0, some (GoError.errorf "No matching data found"))
  | line :: lines =>
    let parsedLine := stringsFields line
    if parsedLine.length < 17 then ParseVMStatLines sc lines
    else do
      let (us, err) := sc.Atoi (← goIndex parsedLine 12)
      if err ≠ none then
        return (0, 0, err)
      let (sy, err) := sc.Atoi (← goIndex parsedLine 13)
      if err ≠ none then
        return (0, 0, err)
      let (id, err) := sc.Atoi (← goIndex parsedLine 14)
      if err ≠ none then
        return (0, 0, err)
      let (wa, err) := sc.Atoi (← goIndex parsedLine 15)
      if err ≠ none then
        return (0, 0, err)
      let (st, err) := sc.Atoi (← goIndex parsedLine 16)
      if err ≠ none then
        return (0, 0, err)
      return (wrapInt64 (wrapInt64 (wrapInt64 (us + sy) + wa) + st), id, none)

/-- Embeds `ParseVMStat`: busy and idle percentages and the error. -/
def ParseVMStat (sc : Strconv) (out : String) : Option (Int × Int × error) := do
  let outlines := stringsSplit out '\n'
  let l : Int := outlines.length
  let lines ← goSlice outlines (l - 2) (l - 1)
  ParseVMStatLines sc lines

/-- The loop of `ParseMemFree` over the lines of the slice, and the return after it. -/
def ParseMemFreeLines (sc : Strconv) : List String → Option (Nat × Nat × error)
  | [] => some (0, 0, some (GoError.errorf "No matching data found"))
  | line :: lines =>
    let parsedLine := stringsFields line
    if parsedLine.length < 7 then ParseMemFreeLines sc lines
    else do
      let (t, err) := sc.ParseUint (← goIndex parsedLine 1)
      if err ≠ none then
        return (0, 0, err)
      let (a, err) := sc.ParseUint (← goIndex parsedLine 6)
      if err ≠ none then
        return (0, 0, err)
      let m := stringsTrim (← goIndex parsedLine 0) ":"
      if m = "Mem" then
        return (t, a, none)
      ParseMemFreeLines sc lines

/-- Embeds `ParseMemFree`: total and available memory and the error. -/
def ParseMemFree (sc : Strconv) (out : String) : Option (Nat × Nat × error) := do
  let outlines := stringsSplit out '\n'
  let l : Int := outlines.length
  let lines ← goSlice outlines 1 (l - 1)
  ParseMemFreeLines sc lines

/-- The loop of `ParseDiskFree` over the lines of the slice, and the return after it. -/
def ParseDiskFreeLines (sc : Strconv) (mountpoint : String) :
    List String → Option (Nat × Nat × error)
  | [] => some (0, 0, some (GoError.errorf "No matching data found"))
  | line :: lines =>
    let parsedLine := stringsFields line
    if parsedLine.length < 6 then ParseDiskFreeLines sc mountpoint lines
    else do
      let (t, err) := sc.ParseUint (← goIndex parsedLine 1)
      if err ≠ none then
        return (0, 0, err)
      let (a, err) := sc.ParseUint (← goIndex parsedLine 3)
      if err ≠ none then
        return (0, 0, err)
      let m ← goIndex parsedLine 5
      if m = mountpoint then
        return (t, a, none)
      ParseDiskFreeLines sc mountpoint lines

/-- Embeds `ParseDiskFree`: total and available space of a mount point and the error. -/
def ParseDiskFree (sc : Strconv) (out mountpoint : String) : Option (Nat × Nat × error) := do
  let outlines := stringsSplit out '\n'
  let l : Int := outlines.length
  let lines ← goSlice outlines 1 (l - 1)
  ParseDiskFreeLines sc mountpoint lines

/-! ## Regular expressions (`regexp`), the part `checkDaemonUp` uses

The pattern `checkDaemonUp` builds is a sequence of single-character items,
each a literal character, the class `\s` or the dot, alone or followed by `+`
or `*`.  The definitions below read such a pattern and decide whether a text
contains a match, as `regexp.MatchString` does; any other syntax is rejected. -/

/-- What one item of a pattern matches: a literal character, the class `\s`, or
the dot. -/
inductive CharClass where
  | lit (c : Char)
  | space
  | anyNotNL
  deriving DecidableEq, Repr

/-- Whether a character belongs to a class: `\s` is tab, newline, form feed,
carriage return and the blank; the dot is every character but the newline. -/
def CharClass.test : CharClass → Char → Bool
  | .lit a, c => c = a
  | .space, c => c = '\t' || c = '\n' || c = '\x0c' || c = '\r' || c = ' '
  | .anyNotNL, c => c ≠ '\n'

/-- How often an item repeats: once, once or more (`+`), any number of times (`*`). -/
inductive Quant where
  | one
  | plus
  | star
  deriving DecidableEq, Repr

/-- One item of a pattern. -/
structure Item where
  cls : CharClass
  quant : Quant
  deriving DecidableEq, Repr

/-- The characters with a special meaning in a pattern. -/
def isMeta (c : Char) : Bool :=
  "\\.+*?()|[]{}^$".toList.contains c

/-- Reads the single-character part of an item. -/
def parseAtom : List Char → Option (CharClass × List Char)
  | [] => none
  | '\\' :: 's' :: rest => some (.space, rest)
  | '.' :: rest => some (.anyNotNL, rest)
  | c :: rest => if isMeta c then none else some (.lit c, rest)

/-- Reads the repetition mark after an item, when there is one. -/
def parseQuant : List Char → Quant × List Char
  | '+' :: rest => (.plus, rest)
  | '*' :: rest => (.star, rest)
  | rest => (.one, rest)

/-- Reads a pattern of at most `fuel` items. -/
def parseItems : Nat → List Char → Option (List Item)
  | _, [] => some []
  | 0, _ :: _ => none
  | fuel + 1, c :: cs =>
    match parseAtom (c :: cs) with
    | none => none
    | some (cls, afterAtom) =>
      match parseItems fuel (parseQuant afterAtom).2 with
      | none => none
      | some items => some ({ cls := cls, quant := (parseQuant afterAtom).1 } :: items)

/-- Reads a pattern; every item takes at least one character. -/
def parsePattern (re : String) : Option (List Item) :=
  parseItems re.length re.toList

/-- Whether a text splits into a run of characters of the class and a rest that
`k` accepts. -/
def starLoop (cls : CharClass) (k : List Char → Bool) : List Char → Bool
  | [] => k []
  | c :: cs => k (c :: cs) || (cls.test c && starLoop cls k cs)

/-- Whether the items match a text from its start (the text may go on after
the match). -/
def matchItems : List Item → List Char → Bool
  | [], _ => true
  | { cls := cls, quant := .one } :: rest, s =>
    match s with
    | [] => false
    | c :: cs => cls.test c && matchItems rest cs
  | { cls := cls, quant := .plus } :: rest, s =>
    match s with
    | [] => false
    | c :: cs => cls.test c && starLoop cls (matchItems rest) cs
  | { cls := cls, quant := .star } :: rest, s => starLoop cls (matchItems rest) s

/-- Whether the items match a text from any position. -/
def searchItems (items : List Item) : List Char → Bool
  | [] => matchItems items []
  | c :: cs => matchItems items (c :: cs) || searchItems items cs

/-- The function `regexp.MatchString` on the patterns read by `parsePattern`. -/
def regexpMatchString (re line : String) : Bool × error :=
  match parsePattern re with
  | some items => (searchItems items line.toList, none)
  | none => (false, some (GoError.errorf ("error parsing regexp: " ++ re)))

/-! ## Size conversions (`pkg/util/utils.go`)

The types `int` and `int64` are 64 bits wide here, and a `uint64` is a natural
number below `2 ^ 64`. -/

/-- The constant `units.MiB` of the package `go-units`, `1024 * 1024`. -/
def unitsMiB : Nat := 1048576

/-- The conversion `uint64(x)` of a 64-bit signed integer: its value modulo `2 ^ 64`. -/
def toUint64 (x : Int) : Nat :=
  (x % 2 ^ 64).toNat

/-- Embeds `ConvertMBToBytes`: `int64(mbSize) * units.MiB`, in 64 bits. -/
def ConvertMBToBytes (mbSize : Int) : Int :=
  wrapInt64 (wrapInt64 mbSize * (unitsMiB : Int))

/-- Embeds `ConvertUnsignedBytesToMB`: `int64(byteSize / units.MiB)`. -/
def ConvertUnsignedBytesToMB (byteSize : Nat) : Int :=
  wrapInt64 ((byteSize / unitsMiB : Nat) : Int)

/-- Embeds `ConvertBytesToMB`: `int(ConvertUnsignedBytesToMB(uint64(byteSize)))`. -/
def ConvertBytesToMB (byteSize : Int) : Int :=
  wrapInt64 (ConvertUnsignedBytesToMB (toUint64 byteSize))

/-! ## Reasoning about computations -/

/-- Every call a computation adds to the history satisfies `P`. -/
def emits {α : Type} (P : Event → Prop) (m : Go α) : Prop :=
  ∀ t, ∃ l, (m t).2 = t ++ l ∧ ∀ ev ∈ l, P ev

/-- Started at history `t`, the computation ends with a result and a history
that satisfy `Q`. -/
@[irreducible]
def post {α : Type} (m : Go α) (t : Trace) (Q : α → Trace → Prop) : Prop :=
  Q (m t).1 (m t).2

/-- The history after one failed readiness attempt started at `h`: the attempt,
then the three-second delay. -/
def pollRound (lib : Lib) (p : Provisioner) (dockerPort : Int) (h : Trace) : Trace :=
  (Sleep 3 (checkDaemonUp lib p dockerPort h).2).2

/-- The history after `i` failed readiness attempts started at `t`. -/
def afterFailedAttempts (lib : Lib) (p : Provisioner) (dockerPort : Int) (t : Trace) :
    Nat → Trace
  | 0 => t
  | i + 1 => pollRound lib p dockerPort (afterFailedAttempts lib p dockerPort t i)

/-- The number of readiness attempts in a list of events: the runs of the
socket-listing command. -/
def attempts (evs : Trace) : Nat :=
  evs.countP (fun ev => decide (ev.call = Call.sshCommand netstatCommand))

/-- The number of three-second delays in a list of events. -/
def delays (evs : Trace) : Nat :=
  evs.countP (fun ev => decide (ev.call = Call.sleep 3))

/-- The history `t1` extends the history `t` by events that all satisfy `P`. -/
def allSince (P : Event → Prop) (t t1 : Trace) : Prop :=
  ∃ l, t1 = t ++ l ∧ ∀ ev ∈ l, P ev

/-- The value `a` is the answer `x` a collaborator gave. -/
@[irreducible]
def isAnswer {α : Type} (a x : α) : Prop :=
  a = x

/-! ## Sample provisioning collaborators -/

/-- Authentication options of the machine demo-node-2, with two extra names. -/
def sampleAuthOptions : AuthOptions where
  CertDir := "/home/u/.minikube/certs"
  CaCertPath := "/home/u/.minikube/certs/ca.pem"
  CaPrivateKeyPath := "/home/u/.minikube/certs/ca-key.pem"
  CaCertRemotePath := "/etc/docker/ca.pem"
  ServerCertPath := "/home/u/.minikube/machines/demo-node-2/server.pem"
  ServerKeyPath := "/home/u/.minikube/machines/demo-node-2/server-key.pem"
  ClientKeyPath := "/home/u/.minikube/certs/key.pem"
  ServerCertRemotePath := "/etc/docker/server.pem"
  ServerKeyRemotePath := "/etc/docker/server-key.pem"
  ClientCertPath := "/home/u/.minikube/certs/cert.pem"
  ServerCertSANs := ["demo.local", "demo.local"]
  StorePath := "/home/u/.minikube/machines/demo-node-2"

/-- The value of a string of decimal digits. -/
def digitsValue (cs : List Char) : Int :=
  cs.foldl (fun n c => 10 * n + ((c.toNat : Int) - 48)) 0

/-- The output of the socket-listing command when the daemon listens on 2376. -/
def listeningOutput : String :=
  "Proto Recv-Q Send-Q Local Address Foreign Address State\ntcp6 0 0 :::2376 :::* LISTEN\n"

/-- Sample library answers: every file operation succeeds; the two URLs used
below parse to the host part Go's `url.Parse` gives for them; a string of
decimal digits converts to its value; the listening pattern for port 2376
matches the line of `listeningOutput` that names port 2376, and nothing else
matches. -/
def sampleLib : Lib where
  GetUsername := "u"
  filepathJoin := fun dir name => dir ++ "/" ++ name
  pathDir := fun path => if path = "/etc/default/docker" then "/etc/default" else "."
  urlParse := fun rawurl =>
    if rawurl = "tcp://192.168.99.100:2376" then ({ Host := "192.168.99.100:2376" }, none)
    else if rawurl = "tcp://[::1]:2377" then ({ Host := "[::1]:2377" }, none)
    else ({ Host := "" }, some (GoError.errorf "parse: unsupported sample URL"))
  Atoi := fun s =>
    if s.toList ≠ [] ∧ s.toList.all Char.isDigit = true then (digitsValue s.toList, none)
    else (0, some (GoError.errorf "strconv.Atoi: invalid syntax"))
  MatchString := fun re line =>
    (decide (re = ":2376\\s+.*:.*" ∧ line = "tcp6 0 0 :::2376 :::* LISTEN"), none)
  DefaultPort := 2376
  ErrMaxRetries := fun n =>
    GoError.errorf ("Maximum number of retries (" ++ toString n ++ ") exceeded")
  onCopyFile := fun _ _ _ => none
  onGenerateCert := fun _ _ => none
  onReadFile := fun _ path =>
    if path = "/home/u/.minikube/certs/ca.pem" then ("CA", none)
    else if path = "/home/u/.minikube/machines/demo-node-2/server.pem" then ("CERT", none)
    else ("KEY", none)

/-- A provisioner on which every step succeeds at once. -/
def sampleProvisioner : Provisioner where
  GetDriver := sampleDriver state.Running
  GetAuthOptions := sampleAuthOptions
  GetSwarmOptions := { Master := false }
  onService := fun _ _ _ => none
  onSSHCommand := fun _ cmd => if cmd = netstatCommand then (listeningOutput, none) else ("", none)
  onGenerateDockerOptions := fun _ _ =>
    ({ EngineOptions := "DOCKER_OPTS=--tlsverify", EngineOptionsPath := "/etc/default/docker" },
     none)

/-- A provisioner whose socket listing fails twice with a command error and
shows the daemon listening from the third attempt on. -/
def slowProvisioner : Provisioner where
  GetDriver := sampleDriver state.Running
  GetAuthOptions := sampleAuthOptions
  GetSwarmOptions := { Master := false }
  onService := fun _ _ _ => none
  onSSHCommand := fun t cmd =>
    if cmd = netstatCommand then
      if attempts t < 2 then ("", some (GoError.errorf "ssh: connection refused"))
      else (listeningOutput, none)
    else ("", none)
  onGenerateDockerOptions := fun _ _ =>
    ({ EngineOptions := "DOCKER_OPTS=--tlsverify", EngineOptionsPath := "/etc/default/docker" },
     none)

/-- A driver whose daemon URL has an IPv6 literal host and the port 2377. -/
def ipv6Driver : DriverIface where
  GetMachineName := "demo-node-2"
  DriverName := "generic"
  onGetIP := fun _ => ("::1", none)
  onGetURL := fun _ => ("tcp://[::1]:2377", none)
  onGetState := fun _ => (state.Running, none)

/-- A provisioner over `ipv6Driver` on which every step succeeds. -/
def ipv6Provisioner : Provisioner where
  GetDriver := ipv6Driver
  GetAuthOptions := sampleAuthOptions
  GetSwarmOptions := { Master := false }
  onService := fun _ _ _ => none
  onSSHCommand := fun _ cmd => if cmd = netstatCommand then (listeningOutput, none) else ("", none)
  onGenerateDockerOptions := fun _ _ =>
    ({ EngineOptions := "DOCKER_OPTS=--tlsverify", EngineOptionsPath := "/etc/default/docker" },
     none)

/-! ## Sample inputs for the later sections -/

namespace host

/-- Auth options of which only the store path is set. -/
def authOptionsAt (storePath : String) : AuthOptions :=
  { zeroAuthOptions with StorePath := storePath }

/-- The upgrade of version-0 metadata used in the samples: it panics on a nil
pointer and carries the store path over into the auth options. -/
def sampleUpgrade : Option MetadataV0 → Option (Option Metadata)
  | none => none
  | some m =>
    some (some (Metadata.mk m.ConfigVersion m.DriverName
      (Options.mk (some (authOptionsAt m.StorePath)))))

/-- A JSON library for a malformed document: both decodes fail. -/
def brokenJSONLib : JSONLib where
  unmarshalMetadataV0 := fun _ => (none, some (GoError.errorf "unexpected end of JSON input"))
  MigrateHostMetadataV0ToHostMetadataV1 := sampleUpgrade
  filepathDir := filepathDirUnix
  unmarshalHost := fun _ _ => .failed (GoError.errorf "unexpected end of JSON input")

/-- The bytes of a text of ASCII characters. -/
def asciiBytes (s : String) : Bytes :=
  s.toList.map (fun c => UInt8.ofNat c.toNat)

/-- The document with the store path /a/b/c and the value `null` for `Driver`. -/
def nullDriverDocument : Bytes :=
  asciiBytes "\x7b\"StorePath\":\"/a/b/c\",\"Driver\":null\x7d"

/-- The document `null`. -/
def nullDocument : Bytes :=
  asciiBytes "null"

/-- A JSON library that knows the document `nullDriverDocument` and rejects
every other one: the metadata decode gives the store path /a/b/c, and the full
decode finds the value `null` for `Driver` and no other field of the host. -/
def nullDriverJSONLib : JSONLib where
  unmarshalMetadataV0 := fun data =>
    if data = nullDriverDocument then (some (MetadataV0.mk 0 "" "/a/b/c"), none)
    else (none, some (GoError.errorf "invalid character"))
  MigrateHostMetadataV0ToHostMetadataV1 := sampleUpgrade
  filepathDir := filepathDirUnix
  unmarshalHost := fun data h =>
    if data = nullDriverDocument then .decoded h .null
    else .failed (GoError.errorf "invalid character")

/-- A JSON library that knows the document `null` and rejects every other one,
for any upgrade function and any `filepath.Dir`: the metadata decode leaves the
pointer nil and returns no error, and the full decode sets the host pointer to
nil and returns no error. -/
def nullDocumentJSONLib (upgrade : Option MetadataV0 → Option (Option Metadata))
    (dir : String → String) : JSONLib where
  unmarshalMetadataV0 := fun data =>
    if data = nullDocument then (none, none)
    else (none, some (GoError.errorf "invalid character"))
  MigrateHostMetadataV0ToHostMetadataV1 := upgrade
  filepathDir := dir
  unmarshalHost := fun data _ =>
    if data = nullDocument then .null
    else .failed (GoError.errorf "invalid character")

/-- An upgrade function that accepts a nil pointer and answers with metadata
whose store path is /a/b/c. -/
def lenientUpgrade : Option MetadataV0 → Option (Option Metadata) :=
  fun _ => some (some (Metadata.mk 0 "" (Options.mk (some (authOptionsAt "/a/b/c")))))

/-- A host named m that is not bound to a driver yet. -/
def sampleHost : Host where
  ConfigVersion := 3
  Driver := none
  DriverName := ""
  HostOptions := none
  Name := "m"
  RawDriver := []

end host

/-- A node named demo-node-2 at 192.168.99.101 with a local runner. -/
def sampleWorkerNode : Node where
  MachineName := "demo-node-2"
  onIP := fun _ => ("192.168.99.101", none)
  onRunner := fun _ => (some CommandRunner.ExecRunner, none)

/-- A node whose runner cannot be had. -/
def noRunnerNode : Node where
  MachineName := "demo-node-2"
  onIP := fun _ => ("192.168.99.101", none)
  onRunner := fun _ => (none, some (GoError.errorf "loading host"))

/-- Bootstrappers whose certificate set-up fails and whose other steps succeed. -/
def certFailingKubeadm : Kubeadm String where
  onUpdateNode := fun _ _ _ _ _ => none
  onSetupCerts := fun _ _ _ _ _ => some (GoError.errorf "scp failed")
  onJoinNode := fun _ _ _ _ _ => none

/-- Bootstrappers all of whose steps succeed. -/
def sampleKubeadm : Kubeadm String where
  onUpdateNode := fun _ _ _ _ _ => none
  onSetupCerts := fun _ _ _ _ _ => none
  onJoinNode := fun _ _ _ _ _ => none

/-- A worker bootstrapper whose writer never fails. -/
def sampleWorkerBootstrapper : WorkerBootstrapper String where
  config := "v1.13.3"
  ui := { onWrite := fun _ _ => none }

/-- A machine whose `docker --version` prints a version line. -/
def sampleSSH : SSHCommander where
  onSSHCommand := fun _ _ => ("Docker version 1.12.1, build 7a86f89\n", none)

/-- A machine without docker. -/
def noDockerSSH : SSHCommander where
  onSSHCommand := fun _ _ => ("sh: docker: not found", none)

/-- A number parser for texts of decimal digits. -/
def sampleStrconv : Strconv where
  Atoi := fun s =>
    if s.toList.all Char.isDigit ∧ s ≠ "" then (digitsValue s.toList, none)
    else (0, some (GoError.errorf "invalid syntax"))
  ParseUint := fun s =>
    if s.toList.all Char.isDigit ∧ s ≠ "" then ((digitsValue s.toList).toNat, none)
    else (0, some (GoError.errorf "invalid syntax"))

/-- The sample library with the pattern matcher defined above. -/
def regexLib : Lib :=
  { sampleLib with MatchString := regexpMatchString }

/-- A provisioner whose socket listing shows the ports 23760 and 12376 only. -/
def otherPortsProvisioner : Provisioner :=
  { sampleProvisioner with
    onSSHCommand := fun _ _ =>
      ("tcp 0 0 0.0.0.0:23760 0.0.0.0:* LISTEN\ntcp 0 0 0.0.0.0:12376 0.0.0.0:* LISTEN\n", none) }

/-- A provisioner whose socket listing shows the port 2376. -/
def listeningProvisioner : Provisioner :=
  { sampleProvisioner with
    onSSHCommand := fun _ _ => ("tcp 0 0 0.0.0.0:22 0.0.0.0:* LISTEN\ntcp6 0 0 :::2376 :::* LISTEN\n", none) }
/-! ## Theorems: node manager -/

theorem go_bind_apply {α β : Type} (m : Go α) (f : α → Go β) (t : Trace) :
    (m >>= f) t = f (m t).1 (m t).2 := rfl

theorem go_pure_apply {α : Type} (a : α) (t : Trace) :
    (pure a : Go α) t = (a, t) := rfl

theorem perform_apply {α : Type} (c : Call) (errOf : α → error) (answer : Trace → α)
    (t : Trace) :
    perform c errOf answer t = (answer t, t ++ [{ call := c, err := errOf (answer t) }]) := rfl

theorem go_ite_apply {α : Type} (c : Prop) [Decidable c] (a b : Go α) (t : Trace) :
    (if c then a else b) t = if c then a t else b t := by
  split <;> rfl

/-- C1: when the machine exists, loads without error and the driver reports state
`s` without error, `node.status` answers Running for Starting, Running and
Stopping, Stopped for Stopped, Saved and Paused, and the empty status with an
error for every other value of `s` (Error, Timeout, None and unnamed values). -/
theorem node_status_mapping (n : node) (t : Trace) (s : State)
    (hexists : n.api.onExists t n.MachineName = (true, none))
    (hload : (n.api.onLoad (t ++ [⟨Call.apiExists n.MachineName, none⟩]) n.MachineName).2 = none)
    (hstate : (n.api.onLoad (t ++ [⟨Call.apiExists n.MachineName, none⟩]) n.MachineName).1.Driver.onGetState
        (t ++ [⟨Call.apiExists n.MachineName, none⟩] ++ [⟨Call.apiLoad n.MachineName, none⟩])
        = (s, none)) :
    ((s = state.Starting ∨ s = state.Running ∨ s = state.Stopping) →
        (node.status n t).1 = (StatusRunning, none)) ∧
    ((s = state.Stopped ∨ s = state.Saved ∨ s = state.Paused) →
        (node.status n t).1 = (StatusStopped, none)) ∧
    (¬ (s = state.Starting ∨ s = state.Running ∨ s = state.Stopping ∨
        s = state.Stopped ∨ s = state.Saved ∨ s = state.Paused) →
        ∃ e, (node.status n t).1 = (⟨""⟩, some e)) := by
  simp only [node.status, go_bind_apply, go_pure_apply, go_ite_apply, perform_apply,
    API.Exists, API.Load, DriverIface.GetState, DriverIface.GetIP, Cluster.StartHost,
    Cluster.NewSSHClient, Cluster.CheckIfApiExistsAndLoadByName, hexists,
    hload, hstate]
  simp only [state.Starting, state.Running, state.Stopping, state.Stopped, state.Saved,
    state.Paused, state.Error, state.Timeout]
  refine ⟨?_, ?_, ?_⟩
  · rintro (h | h | h) <;> subst h <;> simp
  · rintro (h | h | h) <;> subst h <;> simp
  · intro h
    simp only [not_or] at h
    obtain ⟨h1, h2, h3, h4, h5, h6⟩ := h
    simp [h1, h2, h3, h4, h5, h6]
    split_ifs <;> simp

/-- C1 witness: a machine that exists, loads and reports Paused has status Stopped. -/
theorem node_status_mapping_witness :
    (node.status (sampleNode (sampleAPI state.Paused)) []).1 = (StatusStopped, none) :=
  (node_status_mapping (sampleNode (sampleAPI state.Paused)) [] state.Paused rfl rfl rfl).2.1
    (Or.inr (Or.inr rfl))

theorem status_ne_empty :
    StatusNotCreated ≠ StatusRunning ∧ StatusNotCreated ≠ StatusStopped ∧
    StatusNotCreated ≠ (⟨""⟩ : NodeStatus) ∧ StatusRunning ≠ (⟨""⟩ : NodeStatus) ∧
    StatusStopped ≠ (⟨""⟩ : NodeStatus) ∧ StatusRunning ≠ StatusNotCreated ∧
    StatusStopped ≠ StatusNotCreated ∧ (⟨""⟩ : NodeStatus) ≠ StatusNotCreated ∧
    (⟨""⟩ : NodeStatus) ≠ StatusRunning ∧ (⟨""⟩ : NodeStatus) ≠ StatusStopped := by
  decide

theorem node_Status_fst (n : node) (t : Trace) :
    (node.Status n t).1 =
      ((node.status n t).1.1, errorsWrap (node.status n t).1.2 "getting node status") := rfl

theorem node_status_absent (n : node) (t : Trace)
    (h : n.api.onExists t n.MachineName = (false, none)) :
    (node.status n t).1 = (StatusNotCreated, none) := by
  simp [node.status, go_bind_apply, go_pure_apply, go_ite_apply, perform_apply,
    API.Exists, API.Load, DriverIface.GetState, DriverIface.GetIP, Cluster.StartHost,
    Cluster.NewSSHClient, Cluster.CheckIfApiExistsAndLoadByName, h]

theorem node_status_exists_err (n : node) (t : Trace) (e : GoError)
    (h : (n.api.onExists t n.MachineName).2 = some e) :
    (node.status n t).1 = (⟨""⟩, some e) := by
  simp [node.status, go_bind_apply, go_pure_apply, go_ite_apply, perform_apply,
    API.Exists, API.Load, DriverIface.GetState, DriverIface.GetIP, Cluster.StartHost,
    Cluster.NewSSHClient, Cluster.CheckIfApiExistsAndLoadByName, h]

theorem node_status_load_err (n : node) (t : Trace) (e : GoError)
    (h : n.api.onExists t n.MachineName = (true, none))
    (hl : (n.api.onLoad (t ++ [⟨Call.apiExists n.MachineName, none⟩]) n.MachineName).2 = some e) :
    (node.status n t).1 = (⟨""⟩, some e) := by
  simp [node.status, go_bind_apply, go_pure_apply, go_ite_apply, perform_apply,
    API.Exists, API.Load, DriverIface.GetState, DriverIface.GetIP, Cluster.StartHost,
    Cluster.NewSSHClient, Cluster.CheckIfApiExistsAndLoadByName, h, hl]

theorem node_status_state_err (n : node) (t : Trace) (e : GoError)
    (h : n.api.onExists t n.MachineName = (true, none))
    (hl : (n.api.onLoad (t ++ [⟨Call.apiExists n.MachineName, none⟩]) n.MachineName).2 = none)
    (hs : ((n.api.onLoad (t ++ [⟨Call.apiExists n.MachineName, none⟩]) n.MachineName).1.Driver.onGetState
        (t ++ [⟨Call.apiExists n.MachineName, none⟩, ⟨Call.apiLoad n.MachineName, none⟩])).2
        = some e) :
    (node.status n t).1 = (⟨""⟩, some e) := by
  simp [node.status, go_bind_apply, go_pure_apply, go_ite_apply, perform_apply,
    API.Exists, API.Load, DriverIface.GetState, DriverIface.GetIP, Cluster.StartHost,
    Cluster.NewSSHClient, Cluster.CheckIfApiExistsAndLoadByName, h, hl, hs]

theorem node_status_state_ok (n : node) (t : Trace)
    (h : n.api.onExists t n.MachineName = (true, none))
    (hl : (n.api.onLoad (t ++ [⟨Call.apiExists n.MachineName, none⟩]) n.MachineName).2 = none)
    (hs : ((n.api.onLoad (t ++ [⟨Call.apiExists n.MachineName, none⟩]) n.MachineName).1.Driver.onGetState
        (t ++ [⟨Call.apiExists n.MachineName, none⟩, ⟨Call.apiLoad n.MachineName, none⟩])).2
        = none) :
    (node.status n t).1 = (StatusRunning, none) ∨ (node.status n t).1 = (StatusStopped, none) ∨
      ∃ e, (node.status n t).1 = (⟨""⟩, some e) := by
  simp only [node.status, go_bind_apply, go_pure_apply, go_ite_apply, perform_apply,
    API.Exists, API.Load, DriverIface.GetState, DriverIface.GetIP, Cluster.StartHost,
    Cluster.NewSSHClient, Cluster.CheckIfApiExistsAndLoadByName, h, hl,
    List.append_assoc, List.singleton_append, hs]
  simp only [ne_eq, not_true_eq_false, and_false, if_false, Bool.true_eq_false]
  generalize ((n.api.onLoad (t ++ [⟨Call.apiExists n.MachineName, none⟩])
    n.MachineName).1.Driver.onGetState _).1 = s
  split_ifs <;>
    first
      | exact Or.inl rfl
      | exact Or.inr (Or.inl rfl)
      | exact Or.inr (Or.inr ⟨_, rfl⟩)

/-- C2: `node.Status` answers (NotCreated, nil) exactly when `api.Exists` answers
(false, nil); an error from `api.Exists`, `api.Load` or `Driver.GetState` gives
the empty status with that error wrapped; and a result carrying one of the
named statuses has a nil error, while a result with an error has the empty
status. -/
theorem node_Status_not_created_and_errors (n : node) (t : Trace) :
    ((node.Status n t).1 = (StatusNotCreated, none) ↔
        n.api.onExists t n.MachineName = (false, none)) ∧
    (∀ e, (n.api.onExists t n.MachineName).2 = some e →
        (node.Status n t).1 = (⟨""⟩, some (GoError.wrap e "getting node status"))) ∧
    (∀ e, n.api.onExists t n.MachineName = (true, none) →
        (n.api.onLoad (t ++ [⟨Call.apiExists n.MachineName, none⟩]) n.MachineName).2 = some e →
        (node.Status n t).1 = (⟨""⟩, some (GoError.wrap e "getting node status"))) ∧
    (∀ e, n.api.onExists t n.MachineName = (true, none) →
        (n.api.onLoad (t ++ [⟨Call.apiExists n.MachineName, none⟩]) n.MachineName).2 = none →
        ((n.api.onLoad (t ++ [⟨Call.apiExists n.MachineName, none⟩]) n.MachineName).1.Driver.onGetState
          (t ++ [⟨Call.apiExists n.MachineName, none⟩, ⟨Call.apiLoad n.MachineName, none⟩])).2
          = some e →
        (node.Status n t).1 = (⟨""⟩, some (GoError.wrap e "getting node status"))) ∧
    (((node.Status n t).1.1 = StatusNotCreated ∨ (node.Status n t).1.1 = StatusRunning ∨
        (node.Status n t).1.1 = StatusStopped) → (node.Status n t).1.2 = none) ∧
    ((node.Status n t).1.2 ≠ none → (node.Status n t).1.1 = ⟨""⟩) := by
  rw [node_Status_fst]
  rcases hex : n.api.onExists t n.MachineName with ⟨ex, exerr⟩
  cases exerr with
  | some e0 =>
    have h0 := node_status_exists_err n t e0 (by rw [hex])
    rw [h0]
    simp [errorsWrap, status_ne_empty]
  | none =>
    cases ex with
    | false =>
      have h0 := node_status_absent n t hex
      rw [h0]
      simp [errorsWrap]
    | true =>
      rcases hld : (n.api.onLoad (t ++ [⟨Call.apiExists n.MachineName, none⟩]) n.MachineName).2
        with _ | e1
      · rcases hst : ((n.api.onLoad (t ++ [⟨Call.apiExists n.MachineName, none⟩])
          n.MachineName).1.Driver.onGetState
          (t ++ [⟨Call.apiExists n.MachineName, none⟩, ⟨Call.apiLoad n.MachineName, none⟩])).2
          with _ | e2
        · rcases node_status_state_ok n t hex hld hst with h0 | h0 | ⟨e, h0⟩ <;>
            rw [h0] <;> simp [errorsWrap, status_ne_empty, hld, hst]
        · have h0 := node_status_state_err n t e2 hex hld hst
          rw [h0]
          simp [errorsWrap, status_ne_empty, hld, hst]
      · have h0 := node_status_load_err n t e1 hex hld
        rw [h0]
        simp [errorsWrap, status_ne_empty, hld]

/-- C2 witness: a node over an API without machine records is NotCreated, and a
failing existence check surfaces as a wrapped error with the empty status. -/
theorem node_Status_not_created_and_errors_witness :
    (node.Status (sampleNode emptyAPI) []).1 = (StatusNotCreated, none) ∧
    (node.Status (sampleNode brokenAPI) []).1 =
      (⟨""⟩, some (GoError.wrap (GoError.errorf "store unreadable") "getting node status")) :=
  ⟨(node_Status_not_created_and_errors (sampleNode emptyAPI) []).1.2 rfl,
   (node_Status_not_created_and_errors (sampleNode brokenAPI) []).2.1 _ rfl⟩

theorem eventsSince_append (t l : Trace) : eventsSince t (t ++ l) = l := by
  simp [eventsSince]

theorem eventsSince_append_two (t l m : Trace) : eventsSince t (t ++ l ++ m) = l ++ m := by
  simp [eventsSince, List.append_assoc]

theorem emits_pure {α : Type} (P : Event → Prop) (a : α) : emits P (pure a : Go α) :=
  fun t => ⟨[], by simp [go_pure_apply], by simp⟩

theorem emits_perform {α : Type} (P : Event → Prop) (c : Call) (errOf : α → error)
    (answer : Trace → α) (h : ∀ e, P ⟨c, e⟩) : emits P (perform c errOf answer) :=
  fun t => ⟨[⟨c, errOf (answer t)⟩], rfl, by simpa using h _⟩

theorem emits_bind {α β : Type} (P : Event → Prop) (m : Go α) (f : α → Go β)
    (hm : emits P m) (hf : ∀ a, emits P (f a)) : emits P (m >>= f) := by
  intro t
  obtain ⟨l, hl, hP⟩ := hm t
  obtain ⟨l2, hl2, hP2⟩ := hf (m t).1 (m t).2
  refine ⟨l ++ l2, ?_, ?_⟩
  · rw [go_bind_apply, hl2, hl, List.append_assoc]
  · intro ev hev
    rcases List.mem_append.1 hev with h | h
    · exact hP ev h
    · exact hP2 ev h

theorem emits_ite {α : Type} (P : Event → Prop) (c : Prop) [Decidable c] (a b : Go α)
    (ha : c → emits P a) (hb : ¬ c → emits P b) : emits P (if c then a else b) := by
  split
  · exact ha ‹_›
  · exact hb ‹_›

theorem emits_head {α β : Type} (P : Event → Prop) (c : Call) (errOf : α → error)
    (answer : Trace → α) (f : α → Go β) (hf : ∀ a, emits P (f a)) (t : Trace) :
    ∃ e rest, eventsSince t ((perform c errOf answer >>= f) t).2 = ⟨c, e⟩ :: rest ∧
      ∀ ev ∈ rest, P ev := by
  obtain ⟨l, hl, hP⟩ := hf (answer t) (t ++ [⟨c, errOf (answer t)⟩])
  refine ⟨errOf (answer t), l, ?_, hP⟩
  rw [go_bind_apply, perform_apply, hl, eventsSince_append_two]
  rfl

/-- C3: the machine name of a node is cluster name, "-", node name; the
configuration `Start` uses carries that name; and `Status`, `IP`, `Runner` and
`Start` each open with a call on exactly that name (`Exists`, load by name,
`Load`, `StartHost`), every later call of the same operation that names a
machine naming the same one. -/
theorem machine_name_derivation (cl : Cluster) (n : node) (t : Trace) :
    node.MachineName n = n.clusterName ++ "-" ++ n.config.Name ∧
    (∀ api baseConfig, node.MachineName ⟨api, ⟨"node-2"⟩, baseConfig, "demo"⟩ = "demo-node-2") ∧
    (node.machineConfig n).MachineName = n.clusterName ++ "-" ++ n.config.Name ∧
    (∃ e rest, eventsSince t (node.Status n t).2 =
        ⟨Call.apiExists (n.clusterName ++ "-" ++ n.config.Name), e⟩ :: rest ∧
      ∀ ev ∈ rest, ∀ m, ev.call.machineName = some m →
        m = n.clusterName ++ "-" ++ n.config.Name) ∧
    (∃ e rest, eventsSince t (node.IP cl n t).2 =
        ⟨Call.checkIfApiExistsAndLoadByName (n.clusterName ++ "-" ++ n.config.Name), e⟩ :: rest ∧
      ∀ ev ∈ rest, ∀ m, ev.call.machineName = some m →
        m = n.clusterName ++ "-" ++ n.config.Name) ∧
    (∃ e rest, eventsSince t (node.Runner cl n t).2 =
        ⟨Call.apiLoad (n.clusterName ++ "-" ++ n.config.Name), e⟩ :: rest ∧
      ∀ ev ∈ rest, ∀ m, ev.call.machineName = some m →
        m = n.clusterName ++ "-" ++ n.config.Name) ∧
    (∃ e, eventsSince t (node.Start cl n t).2 = [⟨Call.startHost (node.machineConfig n), e⟩]) := by
  refine ⟨rfl, fun _ _ => by simp only [node.MachineName]; decide, rfl, ?_, ?_, ?_, ?_⟩
  · unfold node.Status node.status
    simp only [bind_assoc]
    apply emits_head
    intro a
    repeat' first
      | apply emits_pure
      | apply emits_ite
      | apply emits_bind
      | (apply emits_perform
         intro e m hm
         simp [Call.machineName, node.MachineName] at hm
         try exact hm.symm)
      | intro _
  · unfold node.IP
    apply emits_head
    intro a
    repeat' first
      | apply emits_pure
      | apply emits_ite
      | apply emits_bind
      | (apply emits_perform
         intro e m hm
         simp [Call.machineName, node.MachineName] at hm
         try exact hm.symm)
      | intro _
  · unfold node.Runner
    apply emits_head
    intro a
    repeat' first
      | apply emits_pure
      | apply emits_ite
      | apply emits_bind
      | (apply emits_perform
         intro e m hm
         simp [Call.machineName, node.MachineName] at hm
         try exact hm.symm)
      | intro _
  · simp only [node.Start, go_bind_apply, go_pure_apply, go_ite_apply, perform_apply,
    API.Exists, API.Load, DriverIface.GetState, DriverIface.GetIP, Cluster.StartHost,
    Cluster.NewSSHClient, Cluster.CheckIfApiExistsAndLoadByName]
    split_ifs <;> simp only [eventsSince_append] <;> exact ⟨_, rfl⟩

/-! ## Theorems: bulk node start -/

theorem startedTrace_zero (baseConfig : Config) (t : Trace) (i0 : Nat) :
    startedTrace baseConfig t i0 0 = t := by
  simp [startedTrace]

theorem startedTrace_succ (baseConfig : Config) (t : Trace) (i0 k : Nat) :
    startedTrace baseConfig t i0 (k + 1) =
      startedTrace baseConfig
        (t ++ [{ call := Call.startHost (nodeConfigAt baseConfig i0), err := none }]) (i0 + 1) k := by
  simp only [startedTrace, List.range_succ_eq_map, List.map_cons, List.map_map, List.append_assoc,
    List.singleton_append, Nat.add_zero]
  congr 2
  apply List.map_congr_left
  intro i _
  simp only [Function.comp_apply]
  congr 3
  omega

theorem startNodesLoop_succ (cl : Cluster) (api : API) (baseConfig : Config) (remaining i0 : Nat)
    (t : Trace) :
    startNodesLoop cl api baseConfig (remaining + 1) (i0 : Int) t =
      if (cl.onStartHost t api (nodeConfigAt baseConfig i0)).2 ≠ none then
        ((cl.onStartHost t api (nodeConfigAt baseConfig i0)).2,
          t ++ [{ call := Call.startHost (nodeConfigAt baseConfig i0),
                  err := (cl.onStartHost t api (nodeConfigAt baseConfig i0)).2 }])
      else
        startNodesLoop cl api baseConfig remaining ((i0 + 1 : Nat) : Int)
          (t ++ [{ call := Call.startHost (nodeConfigAt baseConfig i0),
                   err := (cl.onStartHost t api (nodeConfigAt baseConfig i0)).2 }]) := by
  simp only [startNodesLoop, go_bind_apply, go_pure_apply, go_ite_apply, perform_apply,
    Cluster.StartHost,
    nodeConfigAt, Nat.cast_add, Nat.cast_one]

theorem startNodesLoop_all_ok (cl : Cluster) (api : API) (baseConfig : Config) :
    ∀ (remaining i0 : Nat) (t : Trace),
      (∀ k, k < remaining →
        (cl.onStartHost (startedTrace baseConfig t i0 k) api (nodeConfigAt baseConfig (i0 + k))).2
          = none) →
      startNodesLoop cl api baseConfig remaining (i0 : Int) t =
        (none, startedTrace baseConfig t i0 remaining) := by
  intro remaining
  induction remaining with
  | zero =>
    intro i0 t _
    simp [startNodesLoop, go_pure_apply, startedTrace_zero]
  | succ r ih =>
    intro i0 t h
    have h0 := h 0 (Nat.succ_pos r)
    rw [startedTrace_zero, Nat.add_zero] at h0
    rw [startNodesLoop_succ, h0, startedTrace_succ]
    simp only [ne_eq, not_true_eq_false, if_false]
    apply ih
    intro k hk
    have hk1 := h (k + 1) (Nat.succ_lt_succ hk)
    rw [startedTrace_succ] at hk1
    have hidx : i0 + 1 + k = i0 + (k + 1) := by omega
    rw [hidx]
    exact hk1

theorem startNodesLoop_first_failure (cl : Cluster) (api : API) (baseConfig : Config) :
    ∀ (remaining i0 : Nat) (t : Trace) (j : Nat) (e : GoError), j < remaining →
      (∀ k, k < j →
        (cl.onStartHost (startedTrace baseConfig t i0 k) api (nodeConfigAt baseConfig (i0 + k))).2
          = none) →
      (cl.onStartHost (startedTrace baseConfig t i0 j) api (nodeConfigAt baseConfig (i0 + j))).2
          = some e →
      startNodesLoop cl api baseConfig remaining (i0 : Int) t =
        (some e, startedTrace baseConfig t i0 j ++
          [{ call := Call.startHost (nodeConfigAt baseConfig (i0 + j)), err := some e }]) := by
  intro remaining
  induction remaining with
  | zero =>
    intro i0 t j e hj
    omega
  | succ r ih =>
    intro i0 t j e hj hok hfail
    cases j with
    | zero =>
      rw [startedTrace_zero, Nat.add_zero] at hfail
      rw [startNodesLoop_succ, hfail, startedTrace_zero]
      simp
    | succ j =>
      have h0 := hok 0 (Nat.succ_pos j)
      rw [startedTrace_zero, Nat.add_zero] at h0
      rw [startNodesLoop_succ, h0, startedTrace_succ]
      simp only [ne_eq, not_true_eq_false, if_false]
      have hidx : i0 + (j + 1) = i0 + 1 + j := by omega
      rw [hidx]
      apply ih (i0 + 1) _ j e (by omega)
      · intro k hk
        have hk1 := hok (k + 1) (Nat.succ_lt_succ hk)
        rw [startedTrace_succ] at hk1
        have hidx2 : i0 + 1 + k = i0 + (k + 1) := by omega
        rw [hidx2]
        exact hk1
      · rw [startedTrace_succ, hidx] at hfail
        exact hfail

/-- C4: for a count `N`, if the `StartHost` call of iteration `j` (counted from 0,
so the call number `j + 1`) is the first that fails, with error `e`, then
`startNodes` makes exactly the calls for the machines 1, ..., `j + 1` in that
order and returns `e`; if none of the `N` calls fails it makes the calls for the
machines 1, ..., `N` in that order and returns nil. -/
theorem startNodes_stops_at_first_failure (cl : Cluster) (api : API) (masterIP : String)
    (baseConfig : Config) (N : Nat) (t : Trace) :
    (∀ j e, j < N →
      (∀ k, k < j →
        (cl.onStartHost (startedTrace baseConfig t 0 k) api (nodeConfigAt baseConfig k)).2 = none) →
      (cl.onStartHost (startedTrace baseConfig t 0 j) api (nodeConfigAt baseConfig j)).2 = some e →
      startNodes cl api masterIP baseConfig (N : Int) t =
        (some e, startedTrace baseConfig t 0 j ++
          [{ call := Call.startHost (nodeConfigAt baseConfig j), err := some e }]) ∧
      (eventsSince t (startNodes cl api masterIP baseConfig (N : Int) t).2).length = j + 1) ∧
    ((∀ k, k < N →
        (cl.onStartHost (startedTrace baseConfig t 0 k) api (nodeConfigAt baseConfig k)).2 = none) →
      startNodes cl api masterIP baseConfig (N : Int) t = (none, startedTrace baseConfig t 0 N) ∧
      (eventsSince t (startNodes cl api masterIP baseConfig (N : Int) t).2).length = N) := by
  constructor
  · intro j e hj hok hfail
    have h := startNodesLoop_first_failure cl api baseConfig N 0 t j e hj
      (by simpa using hok) (by simpa using hfail)
    simp only [Nat.zero_add, Nat.cast_zero] at h
    have hrun : startNodes cl api masterIP baseConfig (N : Int) t =
        (some e, startedTrace baseConfig t 0 j ++
          [{ call := Call.startHost (nodeConfigAt baseConfig j), err := some e }]) := by
      simp only [startNodes, Int.toNat_ofNat]
      exact h
    refine ⟨hrun, ?_⟩
    rw [hrun]
    simp [startedTrace, eventsSince, List.append_assoc]
  · intro hok
    have h := startNodesLoop_all_ok cl api baseConfig N 0 t (by simpa using hok)
    simp only [Nat.cast_zero] at h
    have hrun : startNodes cl api masterIP baseConfig (N : Int) t =
        (none, startedTrace baseConfig t 0 N) := by
      simp only [startNodes, Int.toNat_ofNat]
      exact h
    refine ⟨hrun, ?_⟩
    rw [hrun]
    simp [startedTrace, eventsSince]

/-- C4 witness: of three requested machines the second fails to start; exactly
two `StartHost` calls are made and the second call's error is returned. -/
theorem startNodes_stops_at_first_failure_witness :
    startNodes sampleCluster (sampleAPI state.Running) "192.168.99.100"
        { MachineConfig := sampleMachineConfig } ((3 : Nat) : Int) [] =
      (some (GoError.errorf "start of demo-2 failed"),
        [{ call := Call.startHost (newConfig sampleMachineConfig "demo-1"), err := none },
         { call := Call.startHost (newConfig sampleMachineConfig "demo-2"),
           err := some (GoError.errorf "start of demo-2 failed") }]) ∧
    (eventsSince [] (startNodes sampleCluster (sampleAPI state.Running) "192.168.99.100"
        { MachineConfig := sampleMachineConfig } ((3 : Nat) : Int) []).2).length = 2 :=
  (startNodes_stops_at_first_failure sampleCluster (sampleAPI state.Running) "192.168.99.100"
      { MachineConfig := sampleMachineConfig } 3 []).1 1
    (GoError.errorf "start of demo-2 failed") (by decide)
    (fun k hk => by
      have hk0 : k = 0 := by omega
      subst hk0
      decide)
    (by decide)

/-! ## Theorems: provisioning -/

theorem post_iff {α : Type} (m : Go α) (t : Trace) (Q : α → Trace → Prop) :
    post m t Q ↔ Q (m t).1 (m t).2 := by
  unfold post
  exact Iff.rfl

theorem post_mono {α : Type} (m : Go α) (t : Trace) (Q R : α → Trace → Prop)
    (h : post m t Q) (hQR : ∀ a t1, Q a t1 → R a t1) : post m t R :=
  (post_iff _ _ _).2 (hQR _ _ ((post_iff _ _ _).1 h))

theorem go_pure_bind {α β : Type} (a : α) (f : α → Go β) : (pure a >>= f) = f a := rfl

/-! ### Readiness polling -/

theorem checkDaemonUp_apply (lib : Lib) (p : Provisioner) (dockerPort : Int) (h : Trace) :
    checkDaemonUp lib p dockerPort h =
      (if (p.onSSHCommand h netstatCommand).2 ≠ none then false
        else matchNetstatOut lib (":" ++ toString dockerPort ++ "\\s+.*:.*")
          (p.onSSHCommand h netstatCommand).1,
       h ++ [⟨Call.sshCommand netstatCommand, (p.onSSHCommand h netstatCommand).2⟩]) := by
  simp only [checkDaemonUp, Provisioner.SSHCommand, go_bind_apply, go_pure_apply, go_ite_apply,
    perform_apply]
  split <;> rfl

theorem pollRound_apply (lib : Lib) (p : Provisioner) (dockerPort : Int) (h : Trace) :
    pollRound lib p dockerPort h =
      h ++ [⟨Call.sshCommand netstatCommand, (p.onSSHCommand h netstatCommand).2⟩,
            ⟨Call.sleep 3, none⟩] := by
  simp [pollRound, checkDaemonUp_apply, Sleep, perform_apply]

theorem afterFailedAttempts_succ_front (lib : Lib) (p : Provisioner) (dockerPort : Int)
    (t : Trace) (i : Nat) :
    afterFailedAttempts lib p dockerPort t (i + 1) =
      afterFailedAttempts lib p dockerPort (pollRound lib p dockerPort t) i := by
  induction i with
  | zero => rfl
  | succ i ih =>
    show pollRound lib p dockerPort (afterFailedAttempts lib p dockerPort t (i + 1)) = _
    rw [ih]
    rfl

theorem WaitForSpecificLoop_succ (lib : Lib) (p : Provisioner) (dockerPort : Int)
    (maxAttempts remaining : Nat) (t : Trace) :
    WaitForSpecificLoop lib (checkDaemonUp lib p dockerPort) maxAttempts 3 (remaining + 1) t =
      if (checkDaemonUp lib p dockerPort t).1 = true then
        (none, (checkDaemonUp lib p dockerPort t).2)
      else
        WaitForSpecificLoop lib (checkDaemonUp lib p dockerPort) maxAttempts 3 remaining
          (pollRound lib p dockerPort t) := by
  simp only [WaitForSpecificLoop, go_bind_apply, go_pure_apply, go_ite_apply, pollRound]

theorem WaitForSpecificLoop_exhausted (lib : Lib) (p : Provisioner) (dockerPort : Int)
    (maxAttempts : Nat) :
    ∀ (remaining : Nat) (t : Trace),
      (∀ i, i < remaining →
        (checkDaemonUp lib p dockerPort (afterFailedAttempts lib p dockerPort t i)).1 = false) →
      WaitForSpecificLoop lib (checkDaemonUp lib p dockerPort) maxAttempts 3 remaining t =
        (some (lib.ErrMaxRetries maxAttempts), afterFailedAttempts lib p dockerPort t remaining) := by
  intro remaining
  induction remaining with
  | zero =>
    intro t _
    rfl
  | succ r ih =>
    intro t h
    have h0 := h 0 (Nat.succ_pos r)
    rw [WaitForSpecificLoop_succ]
    simp only [afterFailedAttempts] at h0
    rw [h0]
    simp only [Bool.false_eq_true, if_false]
    rw [afterFailedAttempts_succ_front]
    apply ih
    intro i hi
    have := h (i + 1) (Nat.succ_lt_succ hi)
    rw [afterFailedAttempts_succ_front] at this
    exact this

theorem WaitForSpecificLoop_success (lib : Lib) (p : Provisioner) (dockerPort : Int)
    (maxAttempts : Nat) :
    ∀ (remaining : Nat) (t : Trace) (k : Nat), k < remaining →
      (∀ i, i < k →
        (checkDaemonUp lib p dockerPort (afterFailedAttempts lib p dockerPort t i)).1 = false) →
      (checkDaemonUp lib p dockerPort (afterFailedAttempts lib p dockerPort t k)).1 = true →
      WaitForSpecificLoop lib (checkDaemonUp lib p dockerPort) maxAttempts 3 remaining t =
        (none, (checkDaemonUp lib p dockerPort (afterFailedAttempts lib p dockerPort t k)).2) := by
  intro remaining
  induction remaining with
  | zero =>
    intro t k hk
    omega
  | succ r ih =>
    intro t k hk hfail hok
    cases k with
    | zero =>
      simp only [afterFailedAttempts] at hok
      rw [WaitForSpecificLoop_succ, hok]
      simp [afterFailedAttempts]
    | succ k =>
      have h0 := hfail 0 (Nat.succ_pos k)
      simp only [afterFailedAttempts] at h0
      rw [WaitForSpecificLoop_succ, h0]
      simp only [Bool.false_eq_true, if_false]
      rw [afterFailedAttempts_succ_front]
      apply ih _ k (by omega)
      · intro i hi
        have := hfail (i + 1) (Nat.succ_lt_succ hi)
        rw [afterFailedAttempts_succ_front] at this
        exact this
      · rw [afterFailedAttempts_succ_front] at hok
        exact hok

theorem afterFailedAttempts_events (lib : Lib) (p : Provisioner) (dockerPort : Int) (t : Trace) :
    ∀ i, ∃ evs, afterFailedAttempts lib p dockerPort t i = t ++ evs ∧
      attempts evs = i ∧ delays evs = i ∧ evs.length = 2 * i ∧
      (∀ j, j < i → ∃ e, evs[2 * j]? = some ⟨Call.sshCommand netstatCommand, e⟩ ∧
        evs[2 * j + 1]? = some ⟨Call.sleep 3, none⟩) := by
  intro i
  induction i with
  | zero => exact ⟨[], by simp [afterFailedAttempts, attempts, delays]⟩
  | succ i ih =>
    obtain ⟨evs, hevs, hatt, hdel, hlen, hshape⟩ := ih
    refine ⟨evs ++ [⟨Call.sshCommand netstatCommand,
      (p.onSSHCommand (t ++ evs) netstatCommand).2⟩, ⟨Call.sleep 3, none⟩], ?_, ?_, ?_, ?_, ?_⟩
    · simp only [afterFailedAttempts, hevs, pollRound_apply, List.append_assoc]
    · simp only [attempts] at hatt ⊢
      rw [List.countP_append, hatt]
      simp [List.countP_cons]
    · simp only [delays] at hdel ⊢
      rw [List.countP_append, hdel]
      simp [List.countP_cons]
    · simp [hlen]
      omega
    · intro j hj
      by_cases hji : j < i
      · obtain ⟨e, h1, h2⟩ := hshape j hji
        refine ⟨e, ?_, ?_⟩
        · rw [List.getElem?_append_left (by omega)]
          exact h1
        · rw [List.getElem?_append_left (by omega)]
          exact h2
      · have hji2 : j = i := by omega
        subst hji2
        refine ⟨(p.onSSHCommand (t ++ evs) netstatCommand).2, ?_, ?_⟩
        · rw [List.getElem?_append_right (by omega)]
          simp [hlen]
        · rw [List.getElem?_append_right (by omega)]
          simp [hlen]

theorem WaitForDocker_apply (lib : Lib) (p : Provisioner) (dockerPort : Int) (t : Trace) :
    WaitForDocker lib p dockerPort t =
      (match (WaitForSpecificLoop lib (checkDaemonUp lib p dockerPort) 10 3 10 t).1 with
        | some e => some (NewErrDaemonAvailable e)
        | none => none,
       (WaitForSpecificLoop lib (checkDaemonUp lib p dockerPort) 10 3 10 t).2) := by
  simp only [WaitForDocker, WaitForSpecific, go_bind_apply]
  split <;> simp_all [go_pure_apply]

/-- C8: if the readiness check fails on the first `k < 10` attempts and succeeds on
the next, `WaitForDocker` returns nil after exactly `k + 1` attempts, each failed
attempt being followed by a delay of three seconds; if the check fails on all
of the first ten attempts it stops after exactly ten attempts and returns the
daemon-not-available error around the retry error.  A check fails exactly when
the command returns an error or no line of its output matches. -/
theorem WaitForDocker_attempts (lib : Lib) (p : Provisioner) (dockerPort : Int) (t : Trace) :
    (∀ k, k < 10 →
      (∀ i, i < k →
        (checkDaemonUp lib p dockerPort (afterFailedAttempts lib p dockerPort t i)).1 = false) →
      (checkDaemonUp lib p dockerPort (afterFailedAttempts lib p dockerPort t k)).1 = true →
      (WaitForDocker lib p dockerPort t).1 = none ∧
      ∃ evs, (WaitForDocker lib p dockerPort t).2 = t ++ evs ∧
        attempts evs = k + 1 ∧ delays evs = k ∧ evs.length = 2 * k + 1 ∧
        (∀ j, j < k → ∃ e, evs[2 * j]? = some ⟨Call.sshCommand netstatCommand, e⟩ ∧
          evs[2 * j + 1]? = some ⟨Call.sleep 3, none⟩) ∧
        evs[2 * k]? = some ⟨Call.sshCommand netstatCommand, none⟩) ∧
    ((∀ i, i < 10 →
        (checkDaemonUp lib p dockerPort (afterFailedAttempts lib p dockerPort t i)).1 = false) →
      (WaitForDocker lib p dockerPort t).1 =
        some (NewErrDaemonAvailable (lib.ErrMaxRetries 10)) ∧
      ∃ evs, (WaitForDocker lib p dockerPort t).2 = t ++ evs ∧
        attempts evs = 10 ∧ delays evs = 10 ∧ evs.length = 20 ∧
        (∀ j, j < 10 → ∃ e, evs[2 * j]? = some ⟨Call.sshCommand netstatCommand, e⟩ ∧
          evs[2 * j + 1]? = some ⟨Call.sleep 3, none⟩)) ∧
    (∀ h, (checkDaemonUp lib p dockerPort h).1 = false ↔
      ((p.onSSHCommand h netstatCommand).2 ≠ none ∨
        matchNetstatOut lib (":" ++ toString dockerPort ++ "\\s+.*:.*")
          (p.onSSHCommand h netstatCommand).1 = false)) := by
  refine ⟨?_, ?_, ?_⟩
  · intro k hk hfail hok
    have hrun := WaitForSpecificLoop_success lib p dockerPort 10 10 t k hk hfail hok
    obtain ⟨evs, hevs, hatt, hdel, hlen, hshape⟩ :=
      afterFailedAttempts_events lib p dockerPort t k
    have herr : (p.onSSHCommand (afterFailedAttempts lib p dockerPort t k) netstatCommand).2
        = none := by
      rw [checkDaemonUp_apply] at hok
      by_contra hne
      simp [hne] at hok
    rw [WaitForDocker_apply, hrun]
    refine ⟨rfl, evs ++ [⟨Call.sshCommand netstatCommand, none⟩], ?_, ?_, ?_, ?_, ?_, ?_⟩
    · rw [hevs] at herr
      simp only [checkDaemonUp_apply, herr, hevs, List.append_assoc]
    · simp only [attempts] at hatt ⊢
      rw [List.countP_append, hatt]
      simp [List.countP_cons]
    · simp only [delays] at hdel ⊢
      rw [List.countP_append, hdel]
      simp [List.countP_cons]
    · simp [hlen]
    · intro j hj
      obtain ⟨e, h1, h2⟩ := hshape j hj
      refine ⟨e, ?_, ?_⟩
      · rw [List.getElem?_append_left (by omega)]
        exact h1
      · rw [List.getElem?_append_left (by omega)]
        exact h2
    · rw [List.getElem?_append_right (by omega)]
      simp [hlen]
  · intro hfail
    have hrun := WaitForSpecificLoop_exhausted lib p dockerPort 10 10 t hfail
    obtain ⟨evs, hevs, hatt, hdel, hlen, hshape⟩ :=
      afterFailedAttempts_events lib p dockerPort t 10
    rw [WaitForDocker_apply, hrun]
    exact ⟨rfl, evs, hevs, hatt, hdel, hlen, hshape⟩
  · intro h
    rw [checkDaemonUp_apply]
    by_cases hne : (p.onSSHCommand h netstatCommand).2 = none
    · simp [hne]
    · simp [hne]


/-- C8 witness: the socket listing fails twice and then shows the daemon
listening; `WaitForDocker` returns nil after exactly three attempts and two
delays. -/
theorem WaitForDocker_attempts_witness :
    (WaitForDocker sampleLib slowProvisioner 2376 []).1 = none ∧
    ∃ evs, (WaitForDocker sampleLib slowProvisioner 2376 []).2 = [] ++ evs ∧
      attempts evs = 2 + 1 ∧ delays evs = 2 ∧ evs.length = 2 * 2 + 1 ∧
      (∀ j, j < 2 → ∃ e, evs[2 * j]? = some ⟨Call.sshCommand netstatCommand, e⟩ ∧
        evs[2 * j + 1]? = some ⟨Call.sleep 3, none⟩) ∧
      evs[2 * 2]? = some ⟨Call.sshCommand netstatCommand, none⟩ :=
  (WaitForDocker_attempts sampleLib slowProvisioner 2376 []).1 2 (by decide)
    (fun i hi => by
      have hcases : i = 0 ∨ i = 1 := by omega
      rcases hcases with h | h <;> subst h <;> decide)
    (by decide)

/-! ### The steps of `ConfigureAuth` -/

theorem WaitForSpecificLoop_events (lib : Lib) (p : Provisioner) (dockerPort : Int)
    (maxAttempts : Nat) :
    ∀ (remaining : Nat) (t : Trace),
      allSince (fun ev => ev.call = Call.sshCommand netstatCommand ∨ ev.call = Call.sleep 3) t
        (WaitForSpecificLoop lib (checkDaemonUp lib p dockerPort) maxAttempts 3 remaining t).2 := by
  intro remaining
  induction remaining with
  | zero =>
    intro t
    exact ⟨[], by simp [WaitForSpecificLoop, go_pure_apply], by simp⟩
  | succ r ih =>
    intro t
    rw [WaitForSpecificLoop_succ]
    split
    · exact ⟨[⟨Call.sshCommand netstatCommand, (p.onSSHCommand t netstatCommand).2⟩],
        by rw [checkDaemonUp_apply], by simp⟩
    · obtain ⟨l, hl, hP⟩ := ih (pollRound lib p dockerPort t)
      refine ⟨[⟨Call.sshCommand netstatCommand, (p.onSSHCommand t netstatCommand).2⟩,
        ⟨Call.sleep 3, none⟩] ++ l, ?_, ?_⟩
      · rw [hl, pollRound_apply, List.append_assoc]
      · intro ev hev
        rcases List.mem_append.1 hev with h | h
        · simp at h
          rcases h with h | h <;> simp [h]
        · exact hP ev h

theorem WaitForDocker_post (lib : Lib) (p : Provisioner) (dockerPort : Int) (t : Trace) :
    post (WaitForDocker lib p dockerPort) t (fun _ t1 =>
      ∃ e rest, t1 = t ++ ⟨Call.sshCommand netstatCommand, e⟩ :: rest ∧
        ∀ ev ∈ rest, ev.call = Call.sshCommand netstatCommand ∨ ev.call = Call.sleep 3) := by
  rw [post_iff, WaitForDocker_apply]
  show ∃ e rest, (WaitForSpecificLoop lib (checkDaemonUp lib p dockerPort) 10 3 (9 + 1) t).2 = _ ∧ _
  rw [WaitForSpecificLoop_succ]
  split
  · exact ⟨(p.onSSHCommand t netstatCommand).2, [], by rw [checkDaemonUp_apply], by simp⟩
  · obtain ⟨l, hl, hP⟩ := WaitForSpecificLoop_events lib p dockerPort 10 9
      (pollRound lib p dockerPort t)
    refine ⟨(p.onSSHCommand t netstatCommand).2, ⟨Call.sleep 3, none⟩ :: l, ?_, ?_⟩
    · rw [hl, pollRound_apply]
      simp
    · intro ev hev
      rcases List.mem_cons.1 hev with h | h
      · simp [h]
      · exact hP ev h


theorem post_bind_iff {α β : Type} (m : Go α) (f : α → Go β) (t : Trace) (Q : β → Trace → Prop) :
    post (m >>= f) t Q ↔ post m t (fun a t1 => post (f a) t1 Q) := by
  simp only [post_iff]
  exact Iff.rfl

theorem post_pure_iff {α : Type} (a : α) (t : Trace) (Q : α → Trace → Prop) :
    post (pure a : Go α) t Q ↔ Q a t := by
  simp only [post_iff]
  exact Iff.rfl

theorem isAnswer_iff {α : Type} (a x : α) : isAnswer a x ↔ a = x := by
  unfold isAnswer
  exact Iff.rfl

theorem post_perform_pair_iff {β : Type} (c : Call) (answer : Trace → β × error) (t : Trace)
    (Q : β × error → Trace → Prop) :
    post (perform c Prod.snd answer) t Q ↔
      ∀ v err, isAnswer (v, err) (answer t) → Q (v, err) (t ++ [⟨c, err⟩]) := by
  simp only [post_iff, perform_apply, isAnswer_iff]
  constructor
  · intro h v err htie
    rw [← htie] at h
    exact h
  · intro h
    exact h _ _ rfl

theorem post_perform_err_iff (c : Call) (answer : Trace → error) (t : Trace)
    (Q : error → Trace → Prop) :
    post (perform c id answer) t Q ↔
      ∀ err, isAnswer err (answer t) → Q err (t ++ [⟨c, err⟩]) := by
  simp only [post_iff, perform_apply, isAnswer_iff]
  constructor
  · intro h err htie
    rw [htie]
    exact h
  · intro h
    exact h _ rfl

theorem post_ite_err_iff {α : Type} (err : error) (a b : Go α) (t : Trace)
    (Q : α → Trace → Prop) :
    post (if err ≠ none then a else b) t Q ↔
      (∀ e, err = some e → post a t Q) ∧ (err = none → post b t Q) := by
  cases err <;> simp

theorem post_ite_len_iff {α β : Type} (l : List β) (n : Nat) (a b : Go α) (t : Trace)
    (Q : α → Trace → Prop) :
    post (if l.length = n then a else b) t Q ↔
      (l.length = n → post a t Q) ∧ (¬ l.length = n → post b t Q) := by
  split <;> simp [*]

theorem post_intro_pred {α : Type} (m : Go α) (t : Trace) (Q : α → Trace → Prop)
    (h : ∀ R : α → Trace → Prop, (∀ a t1, Q a t1 → R a t1) → post m t R) : post m t Q :=
  h Q (fun _ _ hq => hq)

theorem allSince_refl (P : Event → Prop) (t : Trace) : allSince P t t :=
  ⟨[], by simp, by simp⟩

theorem allSince_snoc (P : Event → Prop) (t T : Trace) (x : Event) (hT : allSince P t T)
    (hx : P x) : allSince P t (T ++ [x]) := by
  obtain ⟨l, hl, hP⟩ := hT
  refine ⟨l ++ [x], by rw [hl, List.append_assoc], ?_⟩
  intro ev hev
  rcases List.mem_append.1 hev with h | h
  · exact hP ev h
  · rw [List.mem_singleton.1 h]
    exact hx

theorem allSince_append (P : Event → Prop) (t T m : Trace) (hT : allSince P t T)
    (hm : ∀ ev ∈ m, P ev) : allSince P t (T ++ m) := by
  obtain ⟨l, hl, hP⟩ := hT
  refine ⟨l ++ m, by rw [hl, List.append_assoc], ?_⟩
  intro ev hev
  rcases List.mem_append.1 hev with h | h
  · exact hP ev h
  · exact hm ev h

set_option maxHeartbeats 1000000 in
theorem ConfigureAuth_success_trace (lib : Lib) (p : Provisioner) (t : Trace) :
    post (ConfigureAuth lib p) t (fun r t1 => r = none →
      ∃ (caCert serverCert serverKey dockerURL : String) (portEvents : Trace) (dockerPort : Int)
        (dkrcfg : DockerOptions) (e : error) (rest : Trace),
        t1 = t ++ ([
          ⟨Call.driverGetIP, none⟩,
          ⟨Call.copyFile p.GetAuthOptions.CaCertPath
            (lib.filepathJoin p.GetAuthOptions.StorePath "ca.pem"), none⟩,
          ⟨Call.copyFile p.GetAuthOptions.ClientCertPath
            (lib.filepathJoin p.GetAuthOptions.StorePath "cert.pem"), none⟩,
          ⟨Call.copyFile p.GetAuthOptions.ClientKeyPath
            (lib.filepathJoin p.GetAuthOptions.StorePath "key.pem"), none⟩,
          ⟨Call.generateCert {
            Hosts := p.GetAuthOptions.ServerCertSANs ++
              [(p.GetDriver.onGetIP t).1, "localhost", "127.0.0.1"]
            CertFile := p.GetAuthOptions.ServerCertPath
            KeyFile := p.GetAuthOptions.ServerKeyPath
            CAFile := p.GetAuthOptions.CaCertPath
            CAKeyFile := p.GetAuthOptions.CaPrivateKeyPath
            Org := lib.GetUsername ++ "." ++ p.GetDriver.GetMachineName
            Bits := 2048
            SwarmMaster := p.GetSwarmOptions.Master }, none⟩,
          ⟨Call.service "docker" ServiceAction.Stop, none⟩,
          ⟨Call.sshCommand bridgeRemovalCommand, none⟩,
          ⟨Call.readFile p.GetAuthOptions.CaCertPath, none⟩,
          ⟨Call.readFile p.GetAuthOptions.ServerCertPath, none⟩,
          ⟨Call.readFile p.GetAuthOptions.ServerKeyPath, none⟩,
          ⟨Call.sshCommand (certTransferCmd caCert p.GetAuthOptions.CaCertRemotePath), none⟩,
          ⟨Call.sshCommand (certTransferCmd serverCert p.GetAuthOptions.ServerCertRemotePath),
            none⟩,
          ⟨Call.sshCommand (certTransferCmd serverKey p.GetAuthOptions.ServerKeyRemotePath),
            none⟩,
          ⟨Call.driverGetURL, none⟩,
          ⟨Call.urlParse dockerURL, none⟩] ++ portEvents ++ [
          ⟨Call.generateDockerOptions dockerPort, none⟩,
          ⟨Call.sshCommand (engineOptionsCmd (lib.pathDir dkrcfg.EngineOptionsPath)
            dkrcfg.EngineOptions dkrcfg.EngineOptionsPath), none⟩,
          ⟨Call.service "docker" ServiceAction.Start, none⟩,
          ⟨Call.sshCommand netstatCommand, e⟩] ++ rest) ∧
        (portEvents = [] ∨ ∃ s, portEvents = [⟨Call.atoi s, none⟩]) ∧
        ∀ ev ∈ rest, ev.call = Call.sshCommand netstatCommand ∨ ev.call = Call.sleep 3) := by
  apply post_intro_pred
  intro R hR
  unfold ConfigureAuth
  generalize hW : WaitForDocker lib p = W
  simp only [go_pure_bind, DriverIface.GetIP, DriverIface.GetURL, Lib.CopyFile, Lib.GenerateCert,
    Lib.ReadFile, Lib.Parse, Lib.AtoiCall, Provisioner.Service, Provisioner.SSHCommand,
    Provisioner.GenerateDockerOptions, post_bind_iff, post_pure_iff, post_perform_pair_iff,
    post_perform_err_iff, post_ite_err_iff, post_ite_len_iff]
  intro ip err htie
  rw [isAnswer_iff] at htie
  have hip : (p.GetDriver.onGetIP t).1 = ip := by rw [← htie]
  clear htie
  repeat' first
    | apply And.intro
    | (intro e he; subst he)
    | (intro he; subst he)
    | (intro v err htie; clear htie)
    | (intro err htie; clear htie)
    | intro hc
  all_goals first
    | (apply hR
       intro h
       cases h)
    | (rw [← hW]
       refine post_mono _ _ _ _ (WaitForDocker_post lib p _ _) ?_
       rintro r t1 ⟨e, rest, ht1, hrest⟩
       apply hR
       intro _
       rw [ht1, hip]
       first
         | exact ⟨_, _, _, _, [], _, _, e, rest,
             by simp only [List.append_assoc, List.singleton_append, List.cons_append,
                  List.nil_append, List.append_nil]; rfl,
             Or.inl rfl, hrest⟩
         | exact ⟨_, _, _, _, [⟨Call.atoi _, none⟩], _, _, e, rest,
             by simp only [List.append_assoc, List.singleton_append, List.cons_append,
                  List.nil_append, List.append_nil]; rfl,
             Or.inr ⟨_, rfl⟩, hrest⟩)

/-! ### The values a successful run passes on -/

/-- The rule for a call that returns a value and an error, with the value and
the error tied to the answer separately. -/
theorem post_perform_pair_ties {β : Type} (c : Call) (answer : Trace → β × error) (t : Trace)
    (Q : β × error → Trace → Prop) :
    post (perform c Prod.snd answer) t Q ↔
      ∀ v err, isAnswer v (answer t).1 → isAnswer err (answer t).2 →
        Q (v, err) (t ++ [⟨c, err⟩]) := by
  simp only [post_iff, perform_apply, isAnswer_iff]
  constructor
  · intro h v err hv he
    rw [hv, he]
    exact h
  · intro h
    exact h _ _ rfl rfl

/-- The readiness poll starts with a socket listing and goes on with listings
and delays; its result and final history are those of the run. -/
theorem WaitForDocker_post_run (lib : Lib) (p : Provisioner) (dockerPort : Int) (t : Trace) :
    post (WaitForDocker lib p dockerPort) t (fun r t1 =>
      ∃ e rest, t1 = t ++ ⟨Call.sshCommand netstatCommand, e⟩ :: rest ∧
        (∀ ev ∈ rest, ev.call = Call.sshCommand netstatCommand ∨ ev.call = Call.sleep 3) ∧
        WaitForDocker lib p dockerPort t = (r, t1)) := by
  have h := (post_iff _ _ _).1 (WaitForDocker_post lib p dockerPort t)
  obtain ⟨e, rest, h1, h2⟩ := h
  rw [post_iff]
  exact ⟨e, rest, h1, h2, rfl⟩

set_option maxHeartbeats 4000000 in
/-- The calls of a run of `ConfigureAuth` that returns nil, with every value the
run passes on tied to the answer it came from. -/
theorem ConfigureAuth_success_answers (lib : Lib) (p : Provisioner) (t : Trace) :
    post (ConfigureAuth lib p) t (fun r t1 => r = none →
      ∃ (caCert serverCert serverKey dockerURL : String) (u : URL) (portEvents : Trace)
        (dockerPort : Int) (dkrcfg : DockerOptions) (e : error) (rest : Trace),
        t1 = t ++ ([
          ⟨Call.driverGetIP, none⟩,
          ⟨Call.copyFile p.GetAuthOptions.CaCertPath
            (lib.filepathJoin p.GetAuthOptions.StorePath "ca.pem"), none⟩,
          ⟨Call.copyFile p.GetAuthOptions.ClientCertPath
            (lib.filepathJoin p.GetAuthOptions.StorePath "cert.pem"), none⟩,
          ⟨Call.copyFile p.GetAuthOptions.ClientKeyPath
            (lib.filepathJoin p.GetAuthOptions.StorePath "key.pem"), none⟩,
          ⟨Call.generateCert {
            Hosts := p.GetAuthOptions.ServerCertSANs ++
              [(p.GetDriver.onGetIP t).1, "localhost", "127.0.0.1"]
            CertFile := p.GetAuthOptions.ServerCertPath
            KeyFile := p.GetAuthOptions.ServerKeyPath
            CAFile := p.GetAuthOptions.CaCertPath
            CAKeyFile := p.GetAuthOptions.CaPrivateKeyPath
            Org := lib.GetUsername ++ "." ++ p.GetDriver.GetMachineName
            Bits := 2048
            SwarmMaster := p.GetSwarmOptions.Master }, none⟩,
          ⟨Call.service "docker" ServiceAction.Stop, none⟩,
          ⟨Call.sshCommand bridgeRemovalCommand, none⟩,
          ⟨Call.readFile p.GetAuthOptions.CaCertPath, none⟩,
          ⟨Call.readFile p.GetAuthOptions.ServerCertPath, none⟩,
          ⟨Call.readFile p.GetAuthOptions.ServerKeyPath, none⟩,
          ⟨Call.sshCommand (certTransferCmd caCert p.GetAuthOptions.CaCertRemotePath), none⟩,
          ⟨Call.sshCommand (certTransferCmd serverCert p.GetAuthOptions.ServerCertRemotePath),
            none⟩,
          ⟨Call.sshCommand (certTransferCmd serverKey p.GetAuthOptions.ServerKeyRemotePath),
            none⟩,
          ⟨Call.driverGetURL, none⟩,
          ⟨Call.urlParse dockerURL, none⟩] ++ portEvents ++ [
          ⟨Call.generateDockerOptions dockerPort, none⟩,
          ⟨Call.sshCommand (engineOptionsCmd (lib.pathDir dkrcfg.EngineOptionsPath)
            dkrcfg.EngineOptions dkrcfg.EngineOptionsPath), none⟩,
          ⟨Call.service "docker" ServiceAction.Start, none⟩,
          ⟨Call.sshCommand netstatCommand, e⟩] ++ rest) ∧
        (∀ ev ∈ rest, ev.call = Call.sshCommand netstatCommand ∨ ev.call = Call.sleep 3) ∧
        caCert = (lib.onReadFile (t1.take (t.length + 7)) p.GetAuthOptions.CaCertPath).1 ∧
        serverCert = (lib.onReadFile (t1.take (t.length + 8)) p.GetAuthOptions.ServerCertPath).1 ∧
        serverKey = (lib.onReadFile (t1.take (t.length + 9)) p.GetAuthOptions.ServerKeyPath).1 ∧
        dockerURL = (p.GetDriver.onGetURL (t1.take (t.length + 13))).1 ∧
        u = (lib.urlParse dockerURL).1 ∧
        (((stringsSplit u.Host ':').length ≠ 2 ∧ portEvents = [] ∧ dockerPort = lib.DefaultPort) ∨
         ((stringsSplit u.Host ':').length = 2 ∧
          portEvents = [⟨Call.atoi ((stringsSplit u.Host ':').getD 1 ""), none⟩] ∧
          dockerPort = (lib.Atoi ((stringsSplit u.Host ':').getD 1 "")).1)) ∧
        dkrcfg = (p.onGenerateDockerOptions (t1.take (t.length + 15 + portEvents.length))
          dockerPort).1 ∧
        WaitForDocker lib p dockerPort (t1.take (t.length + 18 + portEvents.length)) =
          (none, t1)) := by
  apply post_intro_pred
  intro R hR
  unfold ConfigureAuth
  generalize hW : WaitForDocker lib p = W
  simp only [go_pure_bind, DriverIface.GetIP, DriverIface.GetURL, Lib.CopyFile, Lib.GenerateCert,
    Lib.ReadFile, Lib.Parse, Lib.AtoiCall, Provisioner.Service, Provisioner.SSHCommand,
    Provisioner.GenerateDockerOptions, post_bind_iff, post_pure_iff, post_perform_pair_ties,
    post_perform_err_iff, post_ite_err_iff, post_ite_len_iff]
  intro ip err htie hte
  rw [isAnswer_iff] at htie
  subst htie
  clear hte
  repeat' first
    | apply And.intro
    | (intro e he; subst he)
    | (intro he; subst he)
    | (intro v err htie hte; rw [isAnswer_iff] at htie; clear hte)
    | (intro err htie; clear htie)
    | intro hc
  all_goals first
    | (apply hR
       intro h
       cases h)
    | (rw [← hW]
       refine post_mono _ _ _ _ (WaitForDocker_post_run lib p _ _) ?_
       rintro r t1 ⟨e, rest, ht1, hrest, hrun⟩
       apply hR
       intro hr
       rw [hr] at hrun
       simp only [List.append_assoc, List.singleton_append, List.cons_append,
         List.nil_append] at *
       first
         | (refine ⟨_, _, _, _, _, [], _, _, e, rest, ht1, hrest, ?_, ?_, ?_, ?_, ?_,
              Or.inl ⟨hc, rfl, rfl⟩, ?_, ?_⟩ <;>
            first
              | assumption
              | (rw [ht1]
                 simp only [List.take_append, List.take_succ_cons, List.take_zero,
                   List.length_nil, Nat.add_zero]
                 assumption)
              | (nth_rewrite 1 [ht1]
                 simp only [List.take_append, List.take_succ_cons, List.take_zero,
                   List.length_nil, Nat.add_zero]
                 exact hrun))
         | (refine ⟨_, _, _, _, _, [⟨Call.atoi _, none⟩], _, _, e, rest, ht1, hrest,
              ?_, ?_, ?_, ?_, ?_, Or.inr ⟨hc, rfl, by assumption⟩, ?_, ?_⟩ <;>
            first
              | assumption
              | (rw [ht1]
                 simp only [List.take_append, List.take_succ_cons, List.take_zero,
                   List.length_cons, List.length_nil, Nat.add_assoc, Nat.reduceAdd]
                 assumption)
              | (nth_rewrite 1 [ht1]
                 simp only [List.take_append, List.take_succ_cons, List.take_zero,
                   List.length_cons, List.length_nil, Nat.add_assoc, Nat.reduceAdd]
                 exact hrun)))

/-! ### Order of effects -/

/-- C5 (as amended): when `ConfigureAuth` returns nil, the calls it has made are,
in this order: `GetIP`; the copies of ca.pem, cert.pem and key.pem into the store
directory; the generation of the server certificate; the stop of the docker
service; the removal of the docker0 bridge; the reads of the three credential
files; their three transfers to the remote paths; `GetURL`, its parsing and,
where the host has two parts, the conversion of the port; the generation of the
engine options; the remote write of the options file; the start of the docker
service; and the readiness poll.  Every call before the poll has returned nil.
Each transfer sends what the read of that credential answered, to that
credential's remote path; the URL parsed is the one `GetURL` answered; the port
is the default port, or the converted second part of the host when the host has
two parts; the engine options are generated for that port, the options file
written is the one the generation answered, and the poll is the run of
`WaitForDocker` for that port that returns nil.  Each answer is taken at the
history reached when the call is made, a prefix of the final history. -/
theorem ConfigureAuth_effect_order (lib : Lib) (p : Provisioner) (t : Trace)
    (h : (ConfigureAuth lib p t).1 = none) :
    ∃ (caCert serverCert serverKey dockerURL : String) (u : URL) (portEvents : Trace)
      (dockerPort : Int) (dkrcfg : DockerOptions) (e : error) (rest : Trace),
      (ConfigureAuth lib p t).2 = t ++ ([
        ⟨Call.driverGetIP, none⟩,
        ⟨Call.copyFile p.GetAuthOptions.CaCertPath
          (lib.filepathJoin p.GetAuthOptions.StorePath "ca.pem"), none⟩,
        ⟨Call.copyFile p.GetAuthOptions.ClientCertPath
          (lib.filepathJoin p.GetAuthOptions.StorePath "cert.pem"), none⟩,
        ⟨Call.copyFile p.GetAuthOptions.ClientKeyPath
          (lib.filepathJoin p.GetAuthOptions.StorePath "key.pem"), none⟩,
        ⟨Call.generateCert {
          Hosts := p.GetAuthOptions.ServerCertSANs ++
            [(p.GetDriver.onGetIP t).1, "localhost", "127.0.0.1"]
          CertFile := p.GetAuthOptions.ServerCertPath
          KeyFile := p.GetAuthOptions.ServerKeyPath
          CAFile := p.GetAuthOptions.CaCertPath
          CAKeyFile := p.GetAuthOptions.CaPrivateKeyPath
          Org := lib.GetUsername ++ "." ++ p.GetDriver.GetMachineName
          Bits := 2048
          SwarmMaster := p.GetSwarmOptions.Master }, none⟩,
        ⟨Call.service "docker" ServiceAction.Stop, none⟩,
        ⟨Call.sshCommand bridgeRemovalCommand, none⟩,
        ⟨Call.readFile p.GetAuthOptions.CaCertPath, none⟩,
        ⟨Call.readFile p.GetAuthOptions.ServerCertPath, none⟩,
        ⟨Call.readFile p.GetAuthOptions.ServerKeyPath, none⟩,
        ⟨Call.sshCommand (certTransferCmd caCert p.GetAuthOptions.CaCertRemotePath), none⟩,
        ⟨Call.sshCommand (certTransferCmd serverCert p.GetAuthOptions.ServerCertRemotePath),
          none⟩,
        ⟨Call.sshCommand (certTransferCmd serverKey p.GetAuthOptions.ServerKeyRemotePath),
          none⟩,
        ⟨Call.driverGetURL, none⟩,
        ⟨Call.urlParse dockerURL, none⟩] ++ portEvents ++ [
        ⟨Call.generateDockerOptions dockerPort, none⟩,
        ⟨Call.sshCommand (engineOptionsCmd (lib.pathDir dkrcfg.EngineOptionsPath)
          dkrcfg.EngineOptions dkrcfg.EngineOptionsPath), none⟩,
        ⟨Call.service "docker" ServiceAction.Start, none⟩,
        ⟨Call.sshCommand netstatCommand, e⟩] ++ rest) ∧
      (∀ ev ∈ rest, ev.call = Call.sshCommand netstatCommand ∨ ev.call = Call.sleep 3) ∧
      caCert = (lib.onReadFile ((ConfigureAuth lib p t).2.take (t.length + 7))
        p.GetAuthOptions.CaCertPath).1 ∧
      serverCert = (lib.onReadFile ((ConfigureAuth lib p t).2.take (t.length + 8))
        p.GetAuthOptions.ServerCertPath).1 ∧
      serverKey = (lib.onReadFile ((ConfigureAuth lib p t).2.take (t.length + 9))
        p.GetAuthOptions.ServerKeyPath).1 ∧
      dockerURL = (p.GetDriver.onGetURL ((ConfigureAuth lib p t).2.take (t.length + 13))).1 ∧
      u = (lib.urlParse dockerURL).1 ∧
      (((stringsSplit u.Host ':').length ≠ 2 ∧ portEvents = [] ∧
          dockerPort = lib.DefaultPort) ∨
       ((stringsSplit u.Host ':').length = 2 ∧
        portEvents = [⟨Call.atoi ((stringsSplit u.Host ':').getD 1 ""), none⟩] ∧
        dockerPort = (lib.Atoi ((stringsSplit u.Host ':').getD 1 "")).1)) ∧
      dkrcfg = (p.onGenerateDockerOptions
        ((ConfigureAuth lib p t).2.take (t.length + 15 + portEvents.length)) dockerPort).1 ∧
      WaitForDocker lib p dockerPort
        ((ConfigureAuth lib p t).2.take (t.length + 18 + portEvents.length)) =
          (none, (ConfigureAuth lib p t).2) :=
  (post_iff _ _ _).1 (ConfigureAuth_success_answers lib p t) h

/-- C5 witness: on the sample provisioner `ConfigureAuth` returns nil, the
sixth call of the run is the stop of the docker service, and the first transfer
sends the content the sample library gives for the CA certificate. -/
theorem ConfigureAuth_effect_order_witness :
    (ConfigureAuth sampleLib sampleProvisioner []).1 = none ∧
    (ConfigureAuth sampleLib sampleProvisioner []).2[5]? =
      some ⟨Call.service "docker" ServiceAction.Stop, none⟩ ∧
    (ConfigureAuth sampleLib sampleProvisioner []).2[10]? =
      some ⟨Call.sshCommand (certTransferCmd
        (sampleLib.onReadFile ((ConfigureAuth sampleLib sampleProvisioner []).2.take 7)
          sampleProvisioner.GetAuthOptions.CaCertPath).1
        sampleProvisioner.GetAuthOptions.CaCertRemotePath), none⟩ := by
  have hnil : (ConfigureAuth sampleLib sampleProvisioner []).1 = none := by decide
  obtain ⟨_, _, _, _, _, _, _, _, _, _, hrun, _, hca, _⟩ :=
    ConfigureAuth_effect_order sampleLib sampleProvisioner [] hnil
  refine ⟨hnil, ?_, ?_⟩
  · rw [hrun]
    rfl
  · have hca7 : (ConfigureAuth sampleLib sampleProvisioner []).2.take 7 =
        (ConfigureAuth sampleLib sampleProvisioner []).2.take (([] : Trace).length + 7) := rfl
    rw [hca7, ← hca, hrun]
    rfl

/-- C5 counterexample: a run of `ConfigureAuth` in which every step succeeds and
whose first six calls are `GetIP`, the three local copies, the generation of the
server certificate and only then the stop of the docker service; the stop
precedes neither the certificate generation nor the local copies. -/
theorem ConfigureAuth_stop_follows_cert_generation :
    (ConfigureAuth sampleLib sampleProvisioner []).1 = none ∧
    (∀ ev ∈ (ConfigureAuth sampleLib sampleProvisioner []).2, ev.err = none) ∧
    ((ConfigureAuth sampleLib sampleProvisioner []).2.map Event.call).take 6 =
      [Call.driverGetIP,
       Call.copyFile "/home/u/.minikube/certs/ca.pem" "/home/u/.minikube/machines/demo-node-2/ca.pem",
       Call.copyFile "/home/u/.minikube/certs/cert.pem"
         "/home/u/.minikube/machines/demo-node-2/cert.pem",
       Call.copyFile "/home/u/.minikube/certs/key.pem"
         "/home/u/.minikube/machines/demo-node-2/key.pem",
       Call.generateCert {
         Hosts := ["demo.local", "demo.local", "192.168.99.100", "localhost", "127.0.0.1"]
         CertFile := "/home/u/.minikube/machines/demo-node-2/server.pem"
         KeyFile := "/home/u/.minikube/machines/demo-node-2/server-key.pem"
         CAFile := "/home/u/.minikube/certs/ca.pem"
         CAKeyFile := "/home/u/.minikube/certs/ca-key.pem"
         Org := "u.demo-node-2"
         Bits := 2048
         SwarmMaster := false },
       Call.service "docker" ServiceAction.Stop] ∧
    ¬ (((ConfigureAuth sampleLib sampleProvisioner []).2.map Event.call).indexOf
        (Call.service "docker" ServiceAction.Stop) <
      ((ConfigureAuth sampleLib sampleProvisioner []).2.map Event.call).indexOf
        (Call.copyFile "/home/u/.minikube/certs/ca.pem"
          "/home/u/.minikube/machines/demo-node-2/ca.pem")) := by
  decide

/-! ### Failure of a step -/

theorem poll_events_no_cert (P : CertOptions → Prop) (e : error) (rest : Trace)
    (hrest : ∀ ev ∈ rest, ev.call = Call.sshCommand netstatCommand ∨ ev.call = Call.sleep 3) :
    ∀ ev ∈ (⟨Call.sshCommand netstatCommand, e⟩ : Event) :: rest,
      ∀ o, ev.call = Call.generateCert o → P o := by
  intro ev hev o ho
  rcases List.mem_cons.1 hev with h | h
  · rw [h] at ho
    cases ho
  · rcases hrest ev h with h1 | h1
    · rw [h1] at ho
      cases ho
    · rw [h1] at ho
      cases ho

set_option maxHeartbeats 1000000 in
theorem ConfigureAuth_hosts_post (lib : Lib) (p : Provisioner) (t : Trace) :
    post (ConfigureAuth lib p) t (fun _ t1 =>
      allSince (fun ev => ∀ o, ev.call = Call.generateCert o →
        o.Hosts = p.GetAuthOptions.ServerCertSANs ++
          [(p.GetDriver.onGetIP t).1, "localhost", "127.0.0.1"]) t t1) := by
  apply post_intro_pred
  intro R hR
  unfold ConfigureAuth
  generalize hW : WaitForDocker lib p = W
  simp only [go_pure_bind, DriverIface.GetIP, DriverIface.GetURL, Lib.CopyFile, Lib.GenerateCert,
    Lib.ReadFile, Lib.Parse, Lib.AtoiCall, Provisioner.Service, Provisioner.SSHCommand,
    Provisioner.GenerateDockerOptions, post_bind_iff, post_pure_iff, post_perform_pair_iff,
    post_perform_err_iff, post_ite_err_iff, post_ite_len_iff]
  intro ip err htie
  rw [isAnswer_iff] at htie
  have hip : (p.GetDriver.onGetIP t).1 = ip := by rw [← htie]
  clear htie
  repeat' first
    | apply And.intro
    | (intro e he; subst he)
    | (intro he; subst he)
    | (intro v err htie; clear htie)
    | (intro err htie; clear htie)
    | intro hc
  all_goals first
    | (apply hR
       repeat' first
         | refine allSince_snoc _ _ _ _ ?_ ?_
         | exact allSince_refl _ _
         | (intro o ho
            cases ho
            try (rw [hip])))
    | (rw [← hW]
       refine post_mono _ _ _ _ (WaitForDocker_post lib p _ _) ?_
       rintro r t1 ⟨e, rest, ht1, hrest⟩
       apply hR
       rw [ht1]
       refine allSince_append _ _ _ _ ?_ (poll_events_no_cert _ e rest hrest)
       repeat' first
         | refine allSince_snoc _ _ _ _ ?_ ?_
         | exact allSince_refl _ _
         | (intro o ho
            cases ho
            try (rw [hip])))

/-- C7: every certificate generation `ConfigureAuth` requests has as its Hosts
list the caller's SAN list followed by the driver-reported IP, "localhost" and
"127.0.0.1": the list has three more entries than the SAN list, begins with the
SAN list unchanged (order and repetitions kept) and contains the three added
names; and a run that returns nil has requested the generation. -/
theorem ConfigureAuth_cert_hosts (lib : Lib) (p : Provisioner) (t : Trace) :
    (∀ ev ∈ eventsSince t (ConfigureAuth lib p t).2, ∀ o, ev.call = Call.generateCert o →
      o.Hosts = p.GetAuthOptions.ServerCertSANs ++
        [(p.GetDriver.onGetIP t).1, "localhost", "127.0.0.1"] ∧
      o.Hosts.length = p.GetAuthOptions.ServerCertSANs.length + 3 ∧
      o.Hosts.take p.GetAuthOptions.ServerCertSANs.length = p.GetAuthOptions.ServerCertSANs ∧
      (∀ s, p.GetAuthOptions.ServerCertSANs.count s ≤ o.Hosts.count s) ∧
      (p.GetDriver.onGetIP t).1 ∈ o.Hosts ∧ "localhost" ∈ o.Hosts ∧ "127.0.0.1" ∈ o.Hosts) ∧
    ((ConfigureAuth lib p t).1 = none →
      ∃ ev ∈ eventsSince t (ConfigureAuth lib p t).2, ∃ o, ev.call = Call.generateCert o) := by
  constructor
  · obtain ⟨l, hl, hP⟩ := (post_iff _ _ _).1 (ConfigureAuth_hosts_post lib p t)
    rw [hl, eventsSince_append]
    intro ev hev o ho
    have hhosts := hP ev hev o ho
    rw [hhosts]
    refine ⟨rfl, by simp, by simp, ?_, by simp, by simp, by simp⟩
    intro s
    rw [List.count_append]
    exact Nat.le_add_right _ _
  · intro h
    obtain ⟨_, _, _, _, _, _, _, _, _, hrun, _, _⟩ :=
      (post_iff _ _ _).1 (ConfigureAuth_success_trace lib p t) h
    rw [hrun, eventsSince_append]
    exact ⟨_, by simp [List.append_assoc]; exact Or.inr (Or.inr (Or.inr (Or.inr (Or.inl rfl)))),
      _, rfl⟩

/-- C7 witness: on the sample provisioner, whose SAN list repeats one name, the
generated certificate names the two copies, the driver's address and the two
loopback names. -/
theorem ConfigureAuth_cert_hosts_witness :
    ∃ ev ∈ eventsSince [] (ConfigureAuth sampleLib sampleProvisioner []).2,
      ∃ o, ev.call = Call.generateCert o ∧
        o.Hosts = ["demo.local", "demo.local", "192.168.99.100", "localhost", "127.0.0.1"] := by
  obtain ⟨ev, hev, o, ho⟩ :=
    (ConfigureAuth_cert_hosts sampleLib sampleProvisioner []).2 (by decide)
  exact ⟨ev, hev, o, ho,
    ((ConfigureAuth_cert_hosts sampleLib sampleProvisioner []).1 ev hev o ho).1⟩

/-! ### The daemon port -/

/-- C9 (failing input): the driver reports the URL tcp://[::1]:2377, whose host
part is [::1]:2377.  Split at ":" the host has four parts, so no port is
converted and `ConfigureAuth` passes the default port 2376 to
`GenerateDockerOptions` and polls on it, although the URL names port 2377. -/
theorem ConfigureAuth_ipv6_url_uses_default_port :
    (ConfigureAuth sampleLib ipv6Provisioner []).1 = none ∧
    stringsSplit "[::1]:2377" ':' = ["[", "", "1]", "2377"] ∧
    sampleLib.DefaultPort = 2376 ∧
    ((ConfigureAuth sampleLib ipv6Provisioner []).2.map Event.call).drop 13 =
      [Call.driverGetURL,
       Call.urlParse "tcp://[::1]:2377",
       Call.generateDockerOptions 2376,
       Call.sshCommand (engineOptionsCmd "/etc/default" "DOCKER_OPTS=--tlsverify"
         "/etc/default/docker"),
       Call.service "docker" ServiceAction.Start,
       Call.sshCommand netstatCommand] := by
  decide

/-! ## Theorems: the driver used when no driver is selected -/

/-- C10: for every value of the driver, `GetState` answers (Running, nil); `Start`,
`Stop`, `Restart` and `Kill` each return a non-nil error and leave the driver
as it was; the SSH host name, key path and user name are empty and the SSH
port is 0, all without error; and `DriverName` answers "none". -/
theorem none_driver_contract (d : host.Driver) :
    d.GetState = (state.Running, none) ∧
    ((d.Start).1 ≠ none ∧ (d.Start).2 = d) ∧
    ((d.Stop).1 ≠ none ∧ (d.Stop).2 = d) ∧
    ((d.Restart).1 ≠ none ∧ (d.Restart).2 = d) ∧
    ((d.Kill).1 ≠ none ∧ (d.Kill).2 = d) ∧
    d.GetSSHHostname = ("", none) ∧
    d.GetSSHKeyPath = "" ∧
    d.GetSSHPort = (0, none) ∧
    d.GetSSHUsername = "" ∧
    d.DriverName = "none" := by
  refine ⟨rfl, ⟨?_, rfl⟩, ⟨?_, rfl⟩, ⟨?_, rfl⟩, ⟨?_, rfl⟩, rfl, rfl, rfl, rfl, rfl⟩ <;>
    simp [host.Driver.Start, host.Driver.Stop, host.Driver.Restart, host.Driver.Kill]

/-! ## Theorems: host migration -/

namespace host

/-- A failing metadata decode is returned as it is. -/
theorem MigrateHost_metadata_error (lib : JSONLib) (h : Host) (data : Bytes) (e : GoError)
    (h1 : (lib.unmarshalMetadataV0 data).2 = some e) :
    MigrateHost lib h data = some (none, false, some e) := by
  unfold MigrateHost getMigratedHostMetadata
  rcases hm : lib.unmarshalMetadataV0 data with ⟨mv0, err⟩
  rw [hm] at h1
  simp only at h1
  subst h1
  simp

/-- Without a store path to read after a successful metadata decode, the
migration panics. -/
theorem MigrateHost_no_store_path (lib : JSONLib) (h : Host) (data : Bytes)
    (h1 : (lib.unmarshalMetadataV0 data).2 = none) (h2 : migratedStorePath lib data = none) :
    MigrateHost lib h data = none := by
  unfold migratedStorePath at h2
  unfold MigrateHost
  revert h2
  unfold getMigratedHostMetadata
  rcases hm : lib.unmarshalMetadataV0 data with ⟨mv0, err⟩
  rw [hm] at h1
  simp only at h1
  subst h1
  simp only [ne_eq, not_true_eq_false, if_false]
  rcases hu : lib.MigrateHostMetadataV0ToHostMetadataV1 mv0 with _ | _ | m
  · simp
  · simp
  · rcases ha : m.HostOptions.AuthOptions with _ | ao
    · simp [ha]
    · simp [ha]

/-- With the store path `p` read from the migrated metadata, the migration ends
as the full decode into the host bound to the placeholder driver does. -/
theorem MigrateHost_with_store_path (lib : JSONLib) (h : Host) (data : Bytes) (p : String)
    (hp : migratedStorePath lib data = some p) :
    (lib.unmarshalMetadataV0 data).2 = none ∧
    MigrateHost lib h data =
      match lib.unmarshalHost data (boundHost lib h p) with
      | .failed err =>
        some (none, false, some (GoError.errorf
          ("Error unmarshalling most recent host version: " ++ errorString (some err))))
      | .null => none
      | .decoded d .absent =>
        some (some { d with Driver := some (placeholderDriver lib h p), RawDriver := [] },
          false, none)
      | .decoded d .null => some (some { d with Driver := none, RawDriver := [] }, false, none)
      | .decoded d (.value raw) =>
        some (some { d with
          Driver := some { placeholderDriver lib h p with Data := raw }, RawDriver := raw },
          false, none) := by
  unfold migratedStorePath at hp
  unfold MigrateHost
  revert hp
  unfold getMigratedHostMetadata
  rcases hm : lib.unmarshalMetadataV0 data with ⟨mv0, err⟩
  cases err with
  | some e => simp
  | none =>
    simp only [ne_eq, not_true_eq_false, if_false]
    rcases hu : lib.MigrateHostMetadataV0ToHostMetadataV1 mv0 with _ | _ | m
    · simp
    · simp
    · rcases ha : m.HostOptions.AuthOptions with _ | ao
      · simp [ha]
      · simp only [ha, Option.some.injEq, true_and]
        intro hpe
        subst hpe
        unfold jsonUnmarshalHost
        simp only [boundHost, placeholderDriver]
        generalize lib.unmarshalHost data _ = r
        rcases r with e | _ | ⟨d, dv⟩
        · simp [errorString]
        · simp
        · cases dv with
          | absent => simp
          | null => simp
          | value raw => simp [RawDataDriver.UnmarshalJSON]

/-- What `MigrateHost` returns when it returns: the flag is false; the error is
non-nil exactly when the metadata decode or the full decode fails, and then the
host is nil; without an error the host is returned. -/
theorem MigrateHost_returns (lib : JSONLib) (h : Host) (data : Bytes) (ho : Option Host)
    (flag : Bool) (err : error) (hret : MigrateHost lib h data = some (ho, flag, err)) :
    flag = false ∧ (err ≠ none → ho = none) ∧ (err = none → ∃ h1, ho = some h1) ∧
    (err ≠ none ↔ ((lib.unmarshalMetadataV0 data).2 ≠ none ∨
      ∃ p e, migratedStorePath lib data = some p ∧
        lib.unmarshalHost data (boundHost lib h p) = .failed e)) := by
  cases he : (lib.unmarshalMetadataV0 data).2 with
  | some e =>
    rw [MigrateHost_metadata_error lib h data e he] at hret
    simp only [Option.some.injEq, Prod.mk.injEq] at hret
    obtain ⟨h1, h2, h3⟩ := hret
    subst h1 h2 h3
    simp
  | none =>
    cases hp : migratedStorePath lib data with
    | none =>
      rw [MigrateHost_no_store_path lib h data he hp] at hret
      simp at hret
    | some p =>
      have hrun := (MigrateHost_with_store_path lib h data p hp).2
      rw [hrun] at hret
      rcases hd : lib.unmarshalHost data (boundHost lib h p) with e | _ | ⟨d, dv⟩
      · rw [hd] at hret
        simp only [Option.some.injEq, Prod.mk.injEq] at hret
        obtain ⟨h1, h2, h3⟩ := hret
        subst h1 h2 h3
        simp [hd]
      · rw [hd] at hret; simp at hret
      · rw [hd] at hret
        cases dv <;>
        · simp only [Option.some.injEq, Prod.mk.injEq] at hret
          obtain ⟨h1, h2, h3⟩ := hret
          subst h1 h2 h3
          simp [hd, he]

/-- C12 (failing input): on the document `{"StorePath":"/a/b/c","Driver":null}`
both decodes succeed, the store path /a/b/c is read from the migrated metadata,
and `MigrateHost` returns the host without an error and with no driver bound to
it: the value `null` has cleared the placeholder. -/
theorem MigrateHost_null_driver_leaves_host_unbound :
    migratedStorePath nullDriverJSONLib nullDriverDocument = some "/a/b/c" ∧
    nullDriverJSONLib.unmarshalHost nullDriverDocument
      (boundHost nullDriverJSONLib sampleHost "/a/b/c") =
      .decoded (boundHost nullDriverJSONLib sampleHost "/a/b/c") .null ∧
    MigrateHost nullDriverJSONLib sampleHost nullDriverDocument =
      some (some sampleHost, false, none) ∧
    sampleHost.Driver = none := by
  decide

/-- C13 (failing input): on the document `null`, whatever the upgrade function
and `filepath.Dir` do, neither decode reports an error and `MigrateHost` does
not return: it panics. -/
theorem MigrateHost_null_document_panics
    (upgrade : Option MetadataV0 → Option (Option Metadata)) (dir : String → String) (h : Host) :
    ((nullDocumentJSONLib upgrade dir).unmarshalMetadataV0 nullDocument).2 = none ∧
    (∀ h0, (nullDocumentJSONLib upgrade dir).unmarshalHost nullDocument h0 = .null) ∧
    MigrateHost (nullDocumentJSONLib upgrade dir) h nullDocument = none := by
  have h1 : ((nullDocumentJSONLib upgrade dir).unmarshalMetadataV0 nullDocument).2 = none := by
    simp [nullDocumentJSONLib]
  have h2 : ∀ h0, (nullDocumentJSONLib upgrade dir).unmarshalHost nullDocument h0 = .null := by
    intro h0
    simp [nullDocumentJSONLib]
  refine ⟨h1, h2, ?_⟩
  cases hp : migratedStorePath (nullDocumentJSONLib upgrade dir) nullDocument with
  | none => exact MigrateHost_no_store_path _ h _ h1 hp
  | some p =>
    rw [(MigrateHost_with_store_path _ h _ p hp).2, h2]

/-- The same on a sample: with an upgrade function that accepts a nil pointer,
the panic is the assignment to `h.RawDriver` after the full decode has set `h`
to nil; with one that panics on a nil pointer, it is that panic. -/
theorem MigrateHost_null_document_example :
    MigrateHost (nullDocumentJSONLib lenientUpgrade filepathDirUnix) sampleHost nullDocument =
      none ∧
    migratedStorePath (nullDocumentJSONLib lenientUpgrade filepathDirUnix) nullDocument =
      some "/a/b/c" ∧
    MigrateHost (nullDocumentJSONLib sampleUpgrade filepathDirUnix) sampleHost nullDocument =
      none ∧
    migratedStorePath (nullDocumentJSONLib sampleUpgrade filepathDirUnix) nullDocument = none := by
  decide

end host

/-! ## Theorems: stopping a node, and machine names that coincide -/

/-- Two lists that agree after a separator the fronts do not contain have equal
fronts and equal rests. -/
theorem append_sep_inj (sep : Char) :
    ∀ (a a1 b b1 : List Char), sep ∉ a → sep ∉ a1 →
      a ++ sep :: b = a1 ++ sep :: b1 → a = a1 ∧ b = b1
  | [], [], b, b1, _, _, h => by
    simp only [List.nil_append, List.cons.injEq, true_and] at h
    exact ⟨rfl, h⟩
  | [], c :: as1, b, b1, _, h1, h => by
    simp only [List.nil_append, List.cons_append, List.cons.injEq] at h
    exact absurd (h.1 ▸ List.mem_cons_self _ _) h1
  | x :: as, [], b, b1, h0, _, h => by
    simp only [List.nil_append, List.cons_append, List.cons.injEq] at h
    exact absurd (h.1 ▸ List.mem_cons_self _ _) h0
  | x :: as, c :: as1, b, b1, h0, h1, h => by
    simp only [List.cons_append, List.cons.injEq] at h
    have ih := append_sep_inj sep as as1 b b1
      (fun hm => h0 (List.mem_cons_of_mem _ hm)) (fun hm => h1 (List.mem_cons_of_mem _ hm)) h.2
    exact ⟨by rw [h.1, ih.1], ih.2⟩

/-- The characters of a machine name: the cluster name, a dash, the node name. -/
theorem MachineName_toList (n : node) :
    n.MachineName.toList = n.clusterName.toList ++ '-' :: n.config.Name.toList := by
  simp [node.MachineName, String.toList, String.data_append]

/-- C15, as the code has it: the node demo-node-2, whose machine exists and is
running, is not stopped: `Stop` returns an error and calls neither the API nor
the driver. -/
theorem node_Stop_fails_on_existing_machine :
    (node.Stop (sampleNode (sampleAPI state.Running)) []).1 =
      some (GoError.errorf "Not implemented yet") ∧
    (node.Stop (sampleNode (sampleAPI state.Running)) []).2 = [] := by
  decide

/-- C15, amended: for every node and every history, `Stop` returns the error
"Not implemented yet" and makes no call at all, so it addresses no machine. -/
theorem node_Stop_not_implemented (n : node) (t : Trace) :
    node.Stop n t = (some (GoError.errorf "Not implemented yet"), t) ∧
    eventsSince t (node.Stop n t).2 = [] := by
  have h : node.Stop n t = (some (GoError.errorf "Not implemented yet"), t) := rfl
  refine ⟨h, ?_⟩
  rw [h]
  simp [eventsSince]

/-- C19: the machine-name derivation is not injective.  The pairs (a-b, c) and
(a, b-c) are distinct and give the same machine name; two nodes over the same
API with the same machine name make the same `Status`, `IP` and `Runner`
lookups, with the same calls and results; and two nodes whose cluster names
contain no dash and whose machine names agree have the same cluster name and
the same node name. -/
theorem MachineName_injective_only_without_dash :
    (∀ (api : API) (baseConfig : MachineConfig),
      node.MachineName ⟨api, ⟨"c"⟩, baseConfig, "a-b"⟩ =
        node.MachineName ⟨api, ⟨"b-c"⟩, baseConfig, "a"⟩) ∧
    (("a-b", "c") : String × String) ≠ ("a", "b-c") ∧
    (∀ (cl : Cluster) (n1 n2 : node) (t : Trace), n1.api = n2.api →
      n1.MachineName = n2.MachineName →
      node.Status n1 t = node.Status n2 t ∧ node.IP cl n1 t = node.IP cl n2 t ∧
      node.Runner cl n1 t = node.Runner cl n2 t) ∧
    (∀ n1 n2 : node, '-' ∉ n1.clusterName.toList → '-' ∉ n2.clusterName.toList →
      n1.MachineName = n2.MachineName →
      n1.clusterName = n2.clusterName ∧ n1.config.Name = n2.config.Name) := by
  refine ⟨fun _ _ => by simp only [node.MachineName]; decide, by decide, ?_, ?_⟩
  · intro cl n1 n2 t hapi hname
    refine ⟨?_, ?_, ?_⟩
    · simp only [node.Status, node.status, hapi, hname]
    · simp only [node.IP, hapi, hname]
    · simp only [node.Runner, hapi, hname]
  · intro n1 n2 h1 h2 hname
    have hl := congrArg String.toList hname
    rw [MachineName_toList, MachineName_toList] at hl
    have := append_sep_inj '-' _ _ _ _ h1 h2 hl
    exact ⟨String.ext this.1, String.ext this.2⟩

/-- C19, on samples: the nodes c of cluster a-b and b-c of cluster a have the
same status lookup, and two nodes of a cluster named demo with the machine name
demo-node-2 are both named node-2. -/
theorem MachineName_injective_only_without_dash_witness :
    (node.Status ⟨sampleAPI state.Running, ⟨"c"⟩, sampleMachineConfig, "a-b"⟩ [] =
      node.Status ⟨sampleAPI state.Running, ⟨"b-c"⟩, sampleMachineConfig, "a"⟩ []) ∧
    ((sampleNode emptyAPI).clusterName = (sampleNode brokenAPI).clusterName ∧
      (sampleNode emptyAPI).config.Name = (sampleNode brokenAPI).config.Name) :=
  ⟨((MachineName_injective_only_without_dash.2.2.1 sampleCluster
      ⟨sampleAPI state.Running, ⟨"c"⟩, sampleMachineConfig, "a-b"⟩
      ⟨sampleAPI state.Running, ⟨"b-c"⟩, sampleMachineConfig, "a"⟩ [] rfl (by decide))).1,
   MachineName_injective_only_without_dash.2.2.2 (sampleNode emptyAPI) (sampleNode brokenAPI)
     (by decide) (by decide) (by decide)⟩

/-! ## Theorems: worker bootstrap -/

/-- A run of `Bootstrap` makes its five calls in order and stops at the first
one that fails. -/
theorem Bootstrap_eq {κ : Type} (k : Kubeadm κ) (nb : WorkerBootstrapper κ) (n : Node)
    (t : Trace) :
    nb.Bootstrap k n t =
      if (ipStage n t).1.2 ≠ none then
        (errorsWrap (ipStage n t).1.2 "Error getting node\x27s IP", (ipStage n t).2)
      else if (runnerStage n t).1.2 ≠ none then
        (errorsWrap (runnerStage n t).1.2 "Error getting node\x27s runner", (runnerStage n t).2)
      else if (updateStage k nb n t).1 ≠ none then
        (errorsWrap (updateStage k nb n t).1 "Error updating node", (updateStage k nb n t).2)
      else if (certsStage k nb n t).1 ≠ none then
        (errorsWrap (certsStage k nb n t).1 "Error configuring authentication",
          (certsStage k nb n t).2)
      else if (joinStage k nb n t).1 ≠ none then
        (errorsWrap (joinStage k nb n t).1 "Error joining node to cluster",
          (joinStage k nb n t).2)
      else (none, (joinStage k nb n t).2) := by
  simp only [WorkerBootstrapper.Bootstrap, go_bind_apply, go_pure_apply, go_ite_apply,
    ipStage, runnerStage, updateStage, certsStage, joinStage, bootstrapperFor]

/-- The calls of a run are answered by the collaborators: the node answers
`IP()` and `Runner()`, and the bootstrapper built for the machine name, that
address and that runner answers the three steps for the configuration of the
worker bootstrapper, each at the history reached when it is called. -/
theorem Bootstrap_answers {κ : Type} (k : Kubeadm κ) (nb : WorkerBootstrapper κ) (n : Node)
    (t : Trace) :
    (ipStage n t).1 = n.onIP t ∧
    (runnerStage n t).1 = n.onRunner (ipStage n t).2 ∧
    (updateStage k nb n t).1 =
      k.onUpdateNode n.MachineName (n.onIP t).1 (n.onRunner (ipStage n t).2).1
        (updateStage k nb n t).2.dropLast nb.config ∧
    (certsStage k nb n t).1 =
      k.onSetupCerts n.MachineName (n.onIP t).1 (n.onRunner (ipStage n t).2).1
        (certsStage k nb n t).2.dropLast nb.config ∧
    (joinStage k nb n t).1 =
      k.onJoinNode n.MachineName (n.onIP t).1 (n.onRunner (ipStage n t).2).1
        (joinStage k nb n t).2.dropLast nb.config := by
  simp only [ipStage, runnerStage, updateStage, certsStage, joinStage, bootstrapperFor,
    perform_apply, Node.IP, Node.Runner, Writer.Fprintln, KubeadmBootstrapper.UpdateNode,
    KubeadmBootstrapper.SetupCerts, KubeadmBootstrapper.JoinNode,
    Kubeadm.NewKubeadmBootstrapperForRunner, id, List.dropLast_concat, and_self]

/-- The histories of a run: each call adds one event, and each step of the
bootstrapper comes right after its progress line. -/
theorem Bootstrap_histories {κ : Type} (k : Kubeadm κ) (nb : WorkerBootstrapper κ) (n : Node)
    (t : Trace) :
    (ipStage n t).2 = t ++ [⟨Call.nodeIP, (ipStage n t).1.2⟩] ∧
    (runnerStage n t).2 = (ipStage n t).2 ++ [⟨Call.nodeRunner, (runnerStage n t).1.2⟩] ∧
    (updateStage k nb n t).2 = (runnerStage n t).2 ++
      [⟨Call.fprintln "Moving assets into node...",
          nb.ui.onWrite (runnerStage n t).2 "Moving assets into node..."⟩,
       ⟨Call.updateNode n.MachineName (n.onIP t).1, (updateStage k nb n t).1⟩] ∧
    (certsStage k nb n t).2 = (updateStage k nb n t).2 ++
      [⟨Call.fprintln "Setting up certs...",
          nb.ui.onWrite (updateStage k nb n t).2 "Setting up certs..."⟩,
       ⟨Call.setupCerts n.MachineName (n.onIP t).1, (certsStage k nb n t).1⟩] ∧
    (joinStage k nb n t).2 = (certsStage k nb n t).2 ++
      [⟨Call.fprintln "Joining node to cluster...",
          nb.ui.onWrite (certsStage k nb n t).2 "Joining node to cluster..."⟩,
       ⟨Call.joinNode n.MachineName (n.onIP t).1, (joinStage k nb n t).1⟩] := by
  refine ⟨rfl, rfl, ?_, ?_, ?_⟩
  · show _ ++ [_] ++ [_] = _
    rw [List.append_assoc]
    rfl
  · show _ ++ [_] ++ [_] = _
    rw [List.append_assoc]
    rfl
  · show _ ++ [_] ++ [_] = _
    rw [List.append_assoc]
    rfl

/-- C14: for every node and every behaviour of the collaborators, a run of
`Bootstrap` calls `IP()`, `Runner()`, `UpdateNode`, `SetupCerts` and `JoinNode`
in that order, each at most once, the three steps on the bootstrapper built for
the node\x27s machine name and the address and runner just obtained, each right
after its progress line.  The first call that fails is the last call of the
run, and the result is its error wrapped with the message of its stage; when
`IP()` or `Runner()` fails, none of the three steps is called.  The result is
nil exactly when all five calls succeed, and then all five have been made. -/
theorem Bootstrap_steps_in_order {κ : Type} (k : Kubeadm κ) (nb : WorkerBootstrapper κ)
    (n : Node) (t : Trace) :
    ((ipStage n t).1 = n.onIP t ∧
     (runnerStage n t).1 = n.onRunner (ipStage n t).2 ∧
     (updateStage k nb n t).1 =
       k.onUpdateNode n.MachineName (n.onIP t).1 (n.onRunner (ipStage n t).2).1
         (updateStage k nb n t).2.dropLast nb.config ∧
     (certsStage k nb n t).1 =
       k.onSetupCerts n.MachineName (n.onIP t).1 (n.onRunner (ipStage n t).2).1
         (certsStage k nb n t).2.dropLast nb.config ∧
     (joinStage k nb n t).1 =
       k.onJoinNode n.MachineName (n.onIP t).1 (n.onRunner (ipStage n t).2).1
         (joinStage k nb n t).2.dropLast nb.config) ∧
    ((ipStage n t).2 = t ++ [⟨Call.nodeIP, (ipStage n t).1.2⟩] ∧
     (runnerStage n t).2 = (ipStage n t).2 ++ [⟨Call.nodeRunner, (runnerStage n t).1.2⟩] ∧
     (updateStage k nb n t).2 = (runnerStage n t).2 ++
       [⟨Call.fprintln "Moving assets into node...",
           nb.ui.onWrite (runnerStage n t).2 "Moving assets into node..."⟩,
        ⟨Call.updateNode n.MachineName (n.onIP t).1, (updateStage k nb n t).1⟩] ∧
     (certsStage k nb n t).2 = (updateStage k nb n t).2 ++
       [⟨Call.fprintln "Setting up certs...",
           nb.ui.onWrite (updateStage k nb n t).2 "Setting up certs..."⟩,
        ⟨Call.setupCerts n.MachineName (n.onIP t).1, (certsStage k nb n t).1⟩] ∧
     (joinStage k nb n t).2 = (certsStage k nb n t).2 ++
       [⟨Call.fprintln "Joining node to cluster...",
           nb.ui.onWrite (certsStage k nb n t).2 "Joining node to cluster..."⟩,
        ⟨Call.joinNode n.MachineName (n.onIP t).1, (joinStage k nb n t).1⟩]) ∧
    (∀ e, (ipStage n t).1.2 = some e →
      nb.Bootstrap k n t =
        (some (GoError.wrap e "Error getting node\x27s IP"), (ipStage n t).2)) ∧
    ((ipStage n t).1.2 = none → ∀ e, (runnerStage n t).1.2 = some e →
      nb.Bootstrap k n t =
        (some (GoError.wrap e "Error getting node\x27s runner"), (runnerStage n t).2)) ∧
    ((ipStage n t).1.2 = none → (runnerStage n t).1.2 = none →
      ∀ e, (updateStage k nb n t).1 = some e →
      nb.Bootstrap k n t =
        (some (GoError.wrap e "Error updating node"), (updateStage k nb n t).2)) ∧
    ((ipStage n t).1.2 = none → (runnerStage n t).1.2 = none →
      (updateStage k nb n t).1 = none → ∀ e, (certsStage k nb n t).1 = some e →
      nb.Bootstrap k n t =
        (some (GoError.wrap e "Error configuring authentication"), (certsStage k nb n t).2)) ∧
    ((ipStage n t).1.2 = none → (runnerStage n t).1.2 = none →
      (updateStage k nb n t).1 = none → (certsStage k nb n t).1 = none →
      ∀ e, (joinStage k nb n t).1 = some e →
      nb.Bootstrap k n t =
        (some (GoError.wrap e "Error joining node to cluster"), (joinStage k nb n t).2)) ∧
    ((ipStage n t).1.2 = none → (runnerStage n t).1.2 = none →
      (updateStage k nb n t).1 = none → (certsStage k nb n t).1 = none →
      (joinStage k nb n t).1 = none →
      nb.Bootstrap k n t = (none, (joinStage k nb n t).2)) ∧
    ((nb.Bootstrap k n t).1 = none ↔
      ((ipStage n t).1.2 = none ∧ (runnerStage n t).1.2 = none ∧
       (updateStage k nb n t).1 = none ∧ (certsStage k nb n t).1 = none ∧
       (joinStage k nb n t).1 = none)) := by
  refine ⟨Bootstrap_answers k nb n t, Bootstrap_histories k nb n t, ?_, ?_, ?_, ?_, ?_, ?_, ?_⟩
  · intro e h1
    rw [Bootstrap_eq, h1]
    rfl
  · intro h1 e h2
    rw [Bootstrap_eq, h1, h2]
    rfl
  · intro h1 h2 e h3
    rw [Bootstrap_eq, h1, h2, h3]
    rfl
  · intro h1 h2 h3 e h4
    rw [Bootstrap_eq, h1, h2, h3, h4]
    rfl
  · intro h1 h2 h3 h4 e h5
    rw [Bootstrap_eq, h1, h2, h3, h4, h5]
    rfl
  · intro h1 h2 h3 h4 h5
    rw [Bootstrap_eq, h1, h2, h3, h4, h5]
    rfl
  · rw [Bootstrap_eq]
    cases h1 : (ipStage n t).1.2 with
    | some e => simp [errorsWrap]
    | none =>
      cases h2 : (runnerStage n t).1.2 with
      | some e => simp [errorsWrap]
      | none =>
        cases h3 : (updateStage k nb n t).1 with
        | some e => simp [errorsWrap]
        | none =>
          cases h4 : (certsStage k nb n t).1 with
          | some e => simp [errorsWrap]
          | none =>
            cases h5 : (joinStage k nb n t).1 with
            | some e => simp [errorsWrap]
            | none => simp

/-- C14, on samples: when the certificate set-up fails the run ends with that
call, `JoinNode` is never called and the error carries the stage message; when
every call succeeds the result is nil. -/
theorem Bootstrap_steps_in_order_witness :
    sampleWorkerBootstrapper.Bootstrap certFailingKubeadm sampleWorkerNode [] =
      (some (GoError.wrap (GoError.errorf "scp failed") "Error configuring authentication"),
        (certsStage certFailingKubeadm sampleWorkerBootstrapper sampleWorkerNode []).2) ∧
    sampleWorkerBootstrapper.Bootstrap sampleKubeadm sampleWorkerNode [] =
      (none, (joinStage sampleKubeadm sampleWorkerBootstrapper sampleWorkerNode []).2) :=
  ⟨(Bootstrap_steps_in_order certFailingKubeadm sampleWorkerBootstrapper sampleWorkerNode
      []).2.2.2.2.2.1 rfl rfl rfl (GoError.errorf "scp failed") rfl,
   (Bootstrap_steps_in_order sampleKubeadm sampleWorkerBootstrapper sampleWorkerNode
      []).2.2.2.2.2.2.2.1 rfl rfl rfl rfl rfl⟩

/-- A run in which the certificate set-up fails: `JoinNode` is never called. -/
theorem Bootstrap_cert_failure_example :
    sampleWorkerBootstrapper.Bootstrap certFailingKubeadm sampleWorkerNode [] =
      (some (GoError.wrap (GoError.errorf "scp failed") "Error configuring authentication"),
        [⟨Call.nodeIP, none⟩, ⟨Call.nodeRunner, none⟩,
          ⟨Call.fprintln "Moving assets into node...", none⟩,
          ⟨Call.updateNode "demo-node-2" "192.168.99.101", none⟩,
          ⟨Call.fprintln "Setting up certs...", none⟩,
          ⟨Call.setupCerts "demo-node-2" "192.168.99.101", some (GoError.errorf "scp failed")⟩]) := by
  decide

/-- A run in which the runner cannot be had: no step is called. -/
theorem Bootstrap_no_runner_example :
    sampleWorkerBootstrapper.Bootstrap sampleKubeadm noRunnerNode [] =
      (some (GoError.wrap (GoError.errorf "loading host") "Error getting node\x27s runner"),
        [⟨Call.nodeIP, none⟩, ⟨Call.nodeRunner, some (GoError.errorf "loading host")⟩]) := by
  decide

/-! ## Theorems: saving a profile -/

/-- What `strings.TrimRight` with the cutset "," leaves: the text is the result
followed by commas only, and the result does not end in a comma. -/
theorem stringsTrimRight_comma (w : String) :
    (∃ k, w.toList = (stringsTrimRight w ",").toList ++ List.replicate k ',') ∧
    (stringsTrimRight w ",").toList.getLast? ≠ some ',' := by
  have hp : ∀ c : Char, (",".toList.contains c) = true ↔ c = ',' := by
    intro c
    simp [List.contains]
  constructor
  · refine ⟨(w.toList.reverse.takeWhile (fun c => ",".toList.contains c)).length, ?_⟩
    have h := List.takeWhile_append_dropWhile (fun c => ",".toList.contains c) w.toList.reverse
    have h2 := congrArg List.reverse h
    rw [List.reverse_append, List.reverse_reverse] at h2
    have h3 : (w.toList.reverse.takeWhile (fun c => ",".toList.contains c)).reverse =
        List.replicate (w.toList.reverse.takeWhile (fun c => ",".toList.contains c)).length ',' := by
      rw [List.eq_replicate_iff]
      refine ⟨by simp, ?_⟩
      intro b hb
      rw [List.mem_reverse] at hb
      exact (hp b).1 (List.mem_takeWhile_imp hb)
    rw [← h3]
    exact h2.symm
  · show (w.toList.reverse.dropWhile (fun c => ",".toList.contains c)).reverse.getLast? ≠ some ','
    rw [List.getLast?_reverse]
    intro hc
    have h := List.head?_dropWhile_not (fun c => ",".toList.contains c) w.toList.reverse
    rw [hc] at h
    simp at h

/-- C17: `DockerClientVersion` runs `docker --version` once.  When the command
fails, the result is the empty text and the command's error.  When it succeeds
and the white-space separated fields of the output are "Docker", "version", a
third field and possibly more, the result is the third field without its
trailing commas (the field is the result followed by commas only, and the
result does not end in a comma) and no error.  When it succeeds with any other
output, the result is the empty text and a parse error that quotes the output.
The output "Docker version 1.12.1, build 7a86f89" has the fields Docker,
version, "1.12.1,", build, 7a86f89. -/
theorem DockerClientVersion_result (quote : String → String) (ssh : SSHCommander) (t : Trace) :
    (DockerClientVersion quote ssh t).2 =
      t ++ [⟨Call.sshCommand "docker --version", (ssh.onSSHCommand t "docker --version").2⟩] ∧
    (∀ e, (ssh.onSSHCommand t "docker --version").2 = some e →
      (DockerClientVersion quote ssh t).1 = ("", some e)) ∧
    ((ssh.onSSHCommand t "docker --version").2 = none →
      ∀ w rest, stringsFields (ssh.onSSHCommand t "docker --version").1 =
          "Docker" :: "version" :: w :: rest →
        (DockerClientVersion quote ssh t).1 = (stringsTrimRight w ",", none) ∧
        (∃ k, w.toList = (stringsTrimRight w ",").toList ++ List.replicate k ',') ∧
        (stringsTrimRight w ",").toList.getLast? ≠ some ',') ∧
    ((ssh.onSSHCommand t "docker --version").2 = none →
      (¬ ∃ w rest, stringsFields (ssh.onSSHCommand t "docker --version").1 =
          "Docker" :: "version" :: w :: rest) →
      (DockerClientVersion quote ssh t).1 =
        ("", some (GoError.errorf ("DockerClientVersion: cannot parse version string from " ++
          quote (ssh.onSSHCommand t "docker --version").1)))) ∧
    stringsFields "Docker version 1.12.1, build 7a86f89" =
      ["Docker", "version", "1.12.1,", "build", "7a86f89"] := by
  simp only [DockerClientVersion, go_bind_apply, go_pure_apply, go_ite_apply, perform_apply,
    SSHCommander.SSHCommand]
  rcases hr : ssh.onSSHCommand t "docker --version" with ⟨out, err⟩
  simp only [hr]
  refine ⟨?_, ?_, ?_, ?_, by decide⟩
  · split_ifs <;> rfl
  · intro e he
    subst he
    simp
  · intro he w rest hw
    subst he
    simp only [hw]
    exact ⟨by rw [if_neg (by simp)]; rfl, stringsTrimRight_comma w⟩
  · intro he hno
    subst he
    simp only [ne_eq, not_true_eq_false, if_false]
    rw [if_pos]
    by_contra hc
    apply hno
    simp only [not_or, not_lt, not_not] at hc
    obtain ⟨h3, h0, h1⟩ := hc
    match hf : stringsFields out, h3, h0, h1 with
    | a :: b :: c :: rest, _, h0, h1 =>
      simp only [List.getElem?_cons_zero, List.getElem?_cons_succ, Option.some.injEq] at h0 h1
      exact ⟨c, rest, by rw [h0, h1]⟩

/-- C17, on a sample: the output "Docker version 1.12.1, build 7a86f89" gives
the version 1.12.1. -/
theorem DockerClientVersion_result_witness :
    (DockerClientVersion (fun s => "\"" ++ s ++ "\"") sampleSSH []).1 = ("1.12.1", none) ∧
    (DockerClientVersion (fun s => "\"" ++ s ++ "\"") noDockerSSH []).1 =
      ("", some (GoError.errorf
        "DockerClientVersion: cannot parse version string from \"sh: docker: not found\"")) :=
  ⟨((DockerClientVersion_result (fun s => "\"" ++ s ++ "\"") sampleSSH []).2.2.1 rfl
      "1.12.1," ["build", "7a86f89"] (by decide)).1,
   (DockerClientVersion_result (fun s => "\"" ++ s ++ "\"") noDockerSSH []).2.2.2.1 rfl
     (by
       rintro ⟨w, rest, h⟩
       have h0 : (stringsFields (noDockerSSH.onSSHCommand [] "docker --version").1).head? =
           some "sh:" := by decide
       rw [h] at h0
       simp at h0)⟩

/-! ## Theorems: parsers of command output -/

/-- Splitting gives one piece more than there are separators. -/
theorem splitChars_length (sep : Char) (cs : List Char) :
    (splitChars sep cs).length = cs.count sep + 1 := by
  induction cs with
  | nil => rfl
  | cons c cs ih =>
    simp only [splitChars]
    by_cases h : c = sep
    · subst h
      simp [ih]
    · rw [if_neg h]
      have hc : (c == sep) = false := by simpa using h
      cases hs : splitChars sep cs with
      | nil => rw [hs] at ih; simp at ih
      | cons piece pieces =>
        rw [hs] at ih
        simp only [List.length_cons] at ih ⊢
        rw [List.count_cons, hc]
        simpa using ih

/-- The number of lines of a text is the number of its newlines plus one. -/
theorem stringsSplit_length (out : String) :
    (stringsSplit out '\n').length = out.toList.count '\n' + 1 := by
  simp [stringsSplit, splitChars_length]

/-- An index below the length does not panic. -/
theorem goIndex_lt {α : Type} (xs : List α) (i : Nat) (h : i < xs.length) :
    ∃ x, goIndex xs i = some x :=
  ⟨xs[i], by simp [goIndex, List.getElem?_eq_getElem h]⟩

/-- The loop of `ParseVMStat` returns for every list of lines. -/
theorem ParseVMStatLines_isSome (sc : Strconv) (lines : List String) :
    (ParseVMStatLines sc lines).isSome = true := by
  induction lines with
  | nil => rfl
  | cons line lines ih =>
    simp only [ParseVMStatLines]
    split_ifs with h
    · exact ih
    · obtain ⟨x12, h12⟩ := goIndex_lt (stringsFields line) 12 (by omega)
      obtain ⟨x13, h13⟩ := goIndex_lt (stringsFields line) 13 (by omega)
      obtain ⟨x14, h14⟩ := goIndex_lt (stringsFields line) 14 (by omega)
      obtain ⟨x15, h15⟩ := goIndex_lt (stringsFields line) 15 (by omega)
      obtain ⟨x16, h16⟩ := goIndex_lt (stringsFields line) 16 (by omega)
      simp only [h12, h13, h14, h15, h16, Option.bind_eq_bind, Option.some_bind, Option.pure_def,
        bind_pure_comp, pure_bind]
      split_ifs <;> simp

/-- The loop of `ParseMemFree` returns for every list of lines. -/
theorem ParseMemFreeLines_isSome (sc : Strconv) (lines : List String) :
    (ParseMemFreeLines sc lines).isSome = true := by
  induction lines with
  | nil => rfl
  | cons line lines ih =>
    simp only [ParseMemFreeLines]
    split_ifs with h
    · exact ih
    · obtain ⟨x0, h0⟩ := goIndex_lt (stringsFields line) 0 (by omega)
      obtain ⟨x1, h1⟩ := goIndex_lt (stringsFields line) 1 (by omega)
      obtain ⟨x6, h6⟩ := goIndex_lt (stringsFields line) 6 (by omega)
      simp only [h0, h1, h6, Option.bind_eq_bind, Option.some_bind, Option.pure_def,
        bind_pure_comp, pure_bind]
      split_ifs <;> simp [ih]

/-- The loop of `ParseDiskFree` returns for every list of lines. -/
theorem ParseDiskFreeLines_isSome (sc : Strconv) (mountpoint : String) (lines : List String) :
    (ParseDiskFreeLines sc mountpoint lines).isSome = true := by
  induction lines with
  | nil => rfl
  | cons line lines ih =>
    simp only [ParseDiskFreeLines]
    split_ifs with h
    · exact ih
    · obtain ⟨x1, h1⟩ := goIndex_lt (stringsFields line) 1 (by omega)
      obtain ⟨x3, h3⟩ := goIndex_lt (stringsFields line) 3 (by omega)
      obtain ⟨x5, h5⟩ := goIndex_lt (stringsFields line) 5 (by omega)
      simp only [h1, h3, h5, Option.bind_eq_bind, Option.some_bind, Option.pure_def,
        bind_pure_comp, pure_bind]
      split_ifs <;> simp [ih]

/-- The two slices the parsers take are in range exactly when there are at
least two lines. -/
theorem goSlice_lines {α : Type} (xs : List α) :
    ((goSlice xs ((xs.length : Int) - 2) ((xs.length : Int) - 1)).isSome = true ↔
      2 ≤ xs.length) ∧
    ((goSlice xs 1 ((xs.length : Int) - 1)).isSome = true ↔ 2 ≤ xs.length) := by
  constructor
  · unfold goSlice
    split_ifs with h
    · simp only [Option.isSome_some, true_iff]; omega
    · simp only [Option.isSome_none, Bool.false_eq_true, false_iff]; omega
  · unfold goSlice
    split_ifs with h
    · simp only [Option.isSome_some, true_iff]; omega
    · simp only [Option.isSome_none, Bool.false_eq_true, false_iff]; omega

/-- C20: each of `ParseVMStat`, `ParseMemFree` and `ParseDiskFree` returns (a
result or an error value) exactly when its input contains a newline.  Without a
newline there is one line, and both line slices, `outlines[l-2:l-1]` and
`outlines[1:l-1]` with `l = 1`, are out of range; with a newline the slice and
every field index used are in range, so the function returns. -/
theorem parsers_return_iff_newline (sc : Strconv) (out mountpoint : String) :
    ((ParseVMStat sc out).isSome = true ↔ '\n' ∈ out.toList) ∧
    ((ParseMemFree sc out).isSome = true ↔ '\n' ∈ out.toList) ∧
    ((ParseDiskFree sc out mountpoint).isSome = true ↔ '\n' ∈ out.toList) ∧
    ('\n' ∉ out.toList →
      (stringsSplit out '\n').length = 1 ∧
      goSlice (stringsSplit out '\n') (1 - 2) (1 - 1) = none ∧
      goSlice (stringsSplit out '\n') 1 (1 - 1) = none) := by
  have hlen := stringsSplit_length out
  have hcount : 2 ≤ (stringsSplit out '\n').length ↔ '\n' ∈ out.toList := by
    rw [hlen, ← List.count_pos_iff]
    omega
  have hs := goSlice_lines (stringsSplit out '\n')
  refine ⟨?_, ?_, ?_, ?_⟩
  · rw [← hcount, ← hs.1]
    unfold ParseVMStat
    cases hg : goSlice (stringsSplit out '\n') (((stringsSplit out '\n').length : Int) - 2)
        (((stringsSplit out '\n').length : Int) - 1) with
    | none => simp [hg]
    | some lines => simp [hg, ParseVMStatLines_isSome]
  · rw [← hcount, ← hs.2]
    unfold ParseMemFree
    cases hg : goSlice (stringsSplit out '\n') 1
        (((stringsSplit out '\n').length : Int) - 1) with
    | none => simp [hg]
    | some lines => simp [hg, ParseMemFreeLines_isSome]
  · rw [← hcount, ← hs.2]
    unfold ParseDiskFree
    cases hg : goSlice (stringsSplit out '\n') 1
        (((stringsSplit out '\n').length : Int) - 1) with
    | none => simp [hg]
    | some lines => simp [hg, ParseDiskFreeLines_isSome]
  · intro hno
    have h1 : (stringsSplit out '\n').length = 1 := by
      rw [hlen, List.count_eq_zero.2 hno]
    refine ⟨h1, ?_, ?_⟩
    · unfold goSlice
      rw [if_neg]
      omega
    · unfold goSlice
      rw [if_neg]
      omega

/-- C20, on samples: a text without a newline makes each parser panic, and the
usual outputs of `vmstat`, `free -m` and `df -m` parse. -/
theorem parsers_return_iff_newline_witness :
    ((stringsSplit "0 1 2" '\n').length = 1 ∧
      goSlice (stringsSplit "0 1 2" '\n') (1 - 2) (1 - 1) = none ∧
      goSlice (stringsSplit "0 1 2" '\n') 1 (1 - 1) = none) ∧
    ParseVMStat sampleStrconv "0 1 2" = none ∧
    ParseVMStat sampleStrconv
      "r b swpd free buff cache si so bi bo in cs us sy id wa st\n0 0 0 24 66 34 0 0 53 40 279 222 6 4 90 0 0\n"
      = some (10, 90, none) ∧
    ParseMemFree sampleStrconv
      "total used free shared buff/cache available\nMem: 1987 706 194 1 1086 1173\nSwap: 0 0 0\n"
      = some (1987, 1173, none) ∧
    ParseDiskFree sampleStrconv
      "Filesystem 1M-blocks Used Available Use% Mounted on\n/dev/sda1 39643 3705 35922 10% /\n" "/"
      = some (39643, 35922, none) :=
  ⟨(parsers_return_iff_newline sampleStrconv "0 1 2" "/").2.2.2 (by decide),
   by decide, by decide, by decide, by decide⟩

/-! ## Theorems: the readiness pattern -/

/-- A decimal digit has no special meaning in a pattern. -/
theorem digitChar_not_meta (n : Nat) (h : n < 10) : isMeta (Nat.digitChar n) = false := by
  interval_cases n <;> decide

/-- The decimal digits of a number have no special meaning in a pattern. -/
theorem toDigitsCore_not_meta :
    ∀ (fuel n : Nat) (acc : List Char), (∀ c ∈ acc, isMeta c = false) →
      ∀ c ∈ Nat.toDigitsCore 10 fuel n acc, isMeta c = false
  | 0, _, acc, hacc => by simpa [Nat.toDigitsCore] using hacc
  | fuel + 1, n, acc, hacc => by
    have hd : isMeta (Nat.digitChar (n % 10)) = false :=
      digitChar_not_meta _ (Nat.mod_lt _ (by decide))
    have hacc1 : ∀ c ∈ Nat.digitChar (n % 10) :: acc, isMeta c = false := by
      intro c hc
      rcases List.mem_cons.1 hc with h | h
      · rw [h]; exact hd
      · exact hacc c h
    unfold Nat.toDigitsCore
    simp only
    split_ifs
    · exact hacc1
    · exact toDigitsCore_not_meta fuel (n / 10) _ hacc1

/-- The text of a natural number has no character with a special meaning. -/
theorem toString_nat_not_meta (n : Nat) : ∀ c ∈ (toString n).toList, isMeta c = false := by
  show ∀ c ∈ Nat.toDigitsCore 10 (n + 1) n [], isMeta c = false
  exact toDigitsCore_not_meta _ _ _ (by simp)

/-- The text of an integer has no character with a special meaning. -/
theorem toString_int_not_meta (P : Int) : ∀ c ∈ (toString P).toList, isMeta c = false := by
  cases P with
  | ofNat m => exact toString_nat_not_meta m
  | negSucc m =>
    show ∀ c ∈ ("-" ++ toString (Nat.succ m)).toList, isMeta c = false
    intro c hc
    simp only [String.toList, String.data_append, List.mem_append] at hc
    rcases hc with h | h
    · have : c = '-' := by simpa using h
      rw [this]; decide
    · exact toString_nat_not_meta _ c h

/-- A character without special meaning is read as a literal. -/
theorem parseAtom_lit (c : Char) (rest : List Char) (h : isMeta c = false) :
    parseAtom (c :: rest) = some (.lit c, rest) := by
  have h1 : c ≠ '\\' := by rintro rfl; revert h; decide
  have h2 : c ≠ '.' := by rintro rfl; revert h; decide
  unfold parseAtom
  split
  · simp_all
  · simp_all
  · simp_all
  · rename_i c1 rest1 _ _ heq
    simp only [List.cons.injEq] at heq
    obtain ⟨rfl, rfl⟩ := heq
    simp [h]

/-- No repetition mark is read where the text goes on with a character without
special meaning. -/
theorem parseQuant_lit (c : Char) (rest : List Char) (h : isMeta c = false) :
    parseQuant (c :: rest) = (.one, c :: rest) := by
  have h1 : c ≠ '+' := by rintro rfl; revert h; decide
  have h2 : c ≠ '*' := by rintro rfl; revert h; decide
  unfold parseQuant
  split
  · simp_all
  · simp_all
  · rfl

/-- Literal characters in front of a pattern are read as literal items. -/
theorem parseItems_lits (tail : List Char) (items : List Item) (fuel : Nat)
    (htail : parseItems fuel tail = some items) (hq : parseQuant tail = (.one, tail)) :
    ∀ L : List Char, (∀ c ∈ L, isMeta c = false) →
      parseItems (fuel + L.length) (L ++ tail) =
        some (L.map (fun c => { cls := .lit c, quant := .one }) ++ items) ∧
      parseQuant (L ++ tail) = (.one, L ++ tail)
  | [], _ => ⟨by simpa using htail, by simpa using hq⟩
  | c :: L, hL => by
    have hc : isMeta c = false := hL c (List.mem_cons_self _ _)
    have ih := parseItems_lits tail items fuel htail hq L
      (fun x hx => hL x (List.mem_cons_of_mem _ hx))
    refine ⟨?_, parseQuant_lit c _ hc⟩
    show parseItems (fuel + L.length + 1) (c :: (L ++ tail)) = _
    unfold parseItems
    simp only [parseAtom_lit c _ hc, ih.2, ih.1, List.map_cons, List.cons_append]

/-- The pattern `checkDaemonUp` builds for the port `P` reads as: a colon, the
characters of the number, white space once or more, anything, a colon, anything. -/
theorem parsePattern_port (P : Int) :
    parsePattern (":" ++ toString P ++ "\\s+.*:.*") =
      some ((':' :: (toString P).toList).map (fun c => { cls := .lit c, quant := .one }) ++
        [{ cls := .space, quant := .plus }, { cls := .anyNotNL, quant := .star },
         { cls := .lit ':', quant := .one }, { cls := .anyNotNL, quant := .star }]) := by
  have hL : ∀ c ∈ ':' :: (toString P).toList, isMeta c = false := by
    intro c hc
    rcases List.mem_cons.1 hc with h | h
    · rw [h]; decide
    · exact toString_int_not_meta P c h
  have htail : parseItems 8 "\\s+.*:.*".toList =
      some [{ cls := .space, quant := .plus }, { cls := .anyNotNL, quant := .star },
        { cls := .lit ':', quant := .one }, { cls := .anyNotNL, quant := .star }] := by decide
  have h := (parseItems_lits "\\s+.*:.*".toList _ 8 htail (by decide) _ hL).1
  unfold parsePattern
  have hlen : (":" ++ toString P ++ "\\s+.*:.*").length = 8 + (':' :: (toString P).toList).length := by
    simp only [String.length_append, List.length_cons]
    have h2 : (toString P).toList.length = (toString P).length := rfl
    have h1 : ":".length = 1 := by decide
    have h8 : "\\s+.*:.*".length = 8 := by decide
    omega
  have hlist : (":" ++ toString P ++ "\\s+.*:.*").toList =
      (':' :: (toString P).toList) ++ "\\s+.*:.*".toList := by
    simp [String.toList, String.data_append]
  rw [hlen, hlist]
  exact h

/-- A repeated class followed by `k` accepts exactly the texts that split into
characters of the class and a rest that `k` accepts. -/
theorem starLoop_iff (cls : CharClass) (k : List Char → Bool) :
    ∀ s : List Char, starLoop cls k s = true ↔
      ∃ a b, s = a ++ b ∧ (∀ c ∈ a, cls.test c = true) ∧ k b = true
  | [] => by
    constructor
    · intro h
      exact ⟨[], [], rfl, by simp, h⟩
    · rintro ⟨a, b, hs, _, hk⟩
      have hb : b = [] := (List.append_eq_nil.1 hs.symm).2
      rw [hb] at hk
      exact hk
  | c :: cs => by
    have ih := starLoop_iff cls k cs
    simp only [starLoop, Bool.or_eq_true, Bool.and_eq_true]
    constructor
    · rintro (h | ⟨hc, h⟩)
      · exact ⟨[], c :: cs, rfl, by simp, h⟩
      · obtain ⟨a, b, hs, ha, hk⟩ := ih.1 h
        refine ⟨c :: a, b, by rw [hs]; rfl, ?_, hk⟩
        intro x hx
        rcases List.mem_cons.1 hx with h1 | h1
        · rw [h1]; exact hc
        · exact ha x h1
    · rintro ⟨a, b, hs, ha, hk⟩
      cases a with
      | nil =>
        left
        simp only [List.nil_append] at hs
        rw [hs]; exact hk
      | cons x a =>
        right
        simp only [List.cons_append, List.cons.injEq] at hs
        obtain ⟨hx, hcs⟩ := hs
        refine ⟨by rw [hx]; exact ha x (List.mem_cons_self _ _), ih.2 ⟨a, b, hcs, ?_, hk⟩⟩
        exact fun y hy => ha y (List.mem_cons_of_mem _ hy)

/-- Literal items in front of a pattern match exactly their characters. -/
theorem matchItems_lits (rest : List Item) :
    ∀ (L s : List Char),
      matchItems (L.map (fun c => { cls := .lit c, quant := .one }) ++ rest) s = true ↔
        ∃ b, s = L ++ b ∧ matchItems rest b = true
  | [], s => by simp
  | a :: L, [] => by simp [matchItems]
  | a :: L, c :: cs => by
    have ih := matchItems_lits rest L cs
    show (CharClass.test (.lit a) c &&
      matchItems (L.map (fun c => { cls := .lit c, quant := .one }) ++ rest) cs) = true ↔ _
    rw [Bool.and_eq_true, ih]
    simp only [CharClass.test, decide_eq_true_eq, List.cons_append, List.cons.injEq]
    constructor
    · rintro ⟨hc, b, hb, hm⟩
      exact ⟨b, ⟨hc, hb⟩, hm⟩
    · rintro ⟨b, ⟨hc, hb⟩, hm⟩
      exact ⟨hc, b, hb, hm⟩

/-- The tail of the readiness pattern, `\s+.*:.*`, matches from the start
exactly the texts that begin with white space, followed after characters other
than the newline by a colon. -/
theorem matchItems_tail (s : List Char) :
    matchItems [{ cls := .space, quant := .plus }, { cls := .anyNotNL, quant := .star },
        { cls := .lit ':', quant := .one }, { cls := .anyNotNL, quant := .star }] s = true ↔
      ∃ ws mid post, s = ws ++ mid ++ ':' :: post ∧ ws ≠ [] ∧
        (∀ c ∈ ws, CharClass.space.test c = true) ∧
        (∀ c ∈ mid, CharClass.anyNotNL.test c = true) := by
  have hcolon : ∀ b : List Char,
      matchItems [{ cls := .lit ':', quant := .one }, { cls := .anyNotNL, quant := .star }] b
        = true ↔ ∃ post, b = ':' :: post := by
    intro b
    cases b with
    | nil => simp [matchItems]
    | cons c cs =>
      have hany : starLoop CharClass.anyNotNL (matchItems []) cs = true :=
        (starLoop_iff _ _ cs).2 ⟨[], cs, rfl, by simp, rfl⟩
      show (CharClass.test (.lit ':') c && starLoop CharClass.anyNotNL (matchItems []) cs) = true ↔ _
      rw [hany, Bool.and_true]
      simp [CharClass.test]
  have hmid : ∀ b : List Char,
      matchItems [{ cls := .anyNotNL, quant := .star },
          { cls := .lit ':', quant := .one }, { cls := .anyNotNL, quant := .star }] b = true ↔
        ∃ mid post, b = mid ++ ':' :: post ∧ ∀ c ∈ mid, CharClass.anyNotNL.test c = true := by
    intro b
    show starLoop _ _ b = true ↔ _
    rw [starLoop_iff]
    constructor
    · rintro ⟨a, b1, hs, ha, hk⟩
      obtain ⟨post, hp⟩ := (hcolon b1).1 hk
      exact ⟨a, post, by rw [hs, hp], ha⟩
    · rintro ⟨mid, post, hs, ha⟩
      exact ⟨mid, ':' :: post, hs, ha, (hcolon _).2 ⟨post, rfl⟩⟩
  cases s with
  | nil =>
    simp only [matchItems, Bool.false_eq_true, false_iff]
    rintro ⟨ws, mid, post, hs, _, _, _⟩
    have := congrArg List.length hs
    simp at this
    omega
  | cons c cs =>
    show (CharClass.space.test c && starLoop _ _ cs) = true ↔ _
    rw [Bool.and_eq_true, starLoop_iff]
    constructor
    · rintro ⟨hc, a, b, hs, ha, hk⟩
      obtain ⟨mid, post, hb, hm⟩ := (hmid b).1 hk
      refine ⟨c :: a, mid, post, by rw [hs, hb]; simp, by simp, ?_, hm⟩
      intro x hx
      rcases List.mem_cons.1 hx with h1 | h1
      · rw [h1]; exact hc
      · exact ha x h1
    · rintro ⟨ws, mid, post, hs, hne, hws, hm⟩
      cases ws with
      | nil => exact absurd rfl hne
      | cons x ws =>
        simp only [List.cons_append, List.cons.injEq] at hs
        obtain ⟨hx, hcs⟩ := hs
        refine ⟨by rw [hx]; exact hws x (List.mem_cons_self _ _), ws, mid ++ ':' :: post,
          by rw [hcs]; simp, fun y hy => hws y (List.mem_cons_of_mem _ hy), ?_⟩
        exact (hmid _).2 ⟨mid, post, rfl, hm⟩

/-- A search finds a match exactly when the items match some end piece of the text. -/
theorem searchItems_iff (items : List Item) :
    ∀ s : List Char, searchItems items s = true ↔
      ∃ pre suf, s = pre ++ suf ∧ matchItems items suf = true
  | [] => by
    simp only [searchItems]
    constructor
    · intro h
      exact ⟨[], [], rfl, h⟩
    · rintro ⟨pre, suf, hs, hm⟩
      have hb : suf = [] := (List.append_eq_nil.1 hs.symm).2
      rw [hb] at hm
      exact hm
  | c :: cs => by
    have ih := searchItems_iff items cs
    simp only [searchItems, Bool.or_eq_true, ih]
    constructor
    · rintro (h | ⟨pre, suf, hs, hm⟩)
      · exact ⟨[], c :: cs, rfl, h⟩
      · exact ⟨c :: pre, suf, by rw [hs]; rfl, hm⟩
    · rintro ⟨pre, suf, hs, hm⟩
      cases pre with
      | nil =>
        left
        simp only [List.nil_append] at hs
        rw [hs]; exact hm
      | cons x pre =>
        right
        simp only [List.cons_append, List.cons.injEq] at hs
        exact ⟨pre, suf, hs.2, hm⟩

/-- No piece of a split contains the separator. -/
theorem splitChars_no_sep (sep : Char) :
    ∀ cs : List Char, ∀ piece ∈ splitChars sep cs, sep ∉ piece
  | [] => by
    intro piece hp
    simp only [splitChars, List.mem_singleton] at hp
    rw [hp]; simp
  | c :: cs => by
    have ih := splitChars_no_sep sep cs
    intro piece hp
    simp only [splitChars] at hp
    split_ifs at hp with hc
    · rcases List.mem_cons.1 hp with h | h
      · rw [h]; simp
      · exact ih piece h
    · cases hs : splitChars sep cs with
      | nil =>
        rw [hs] at hp
        simp only [List.mem_singleton] at hp
        rw [hp]
        simpa using fun h => hc h.symm
      | cons p ps =>
        rw [hs] at hp ih
        rcases List.mem_cons.1 hp with h | h
        · rw [h]
          intro hm
          rcases List.mem_cons.1 hm with h1 | h1
          · exact hc h1.symm
          · exact ih p (List.mem_cons_self _ _) h1
        · exact ih piece (List.mem_cons_of_mem _ h)

/-- No line of a text contains a newline. -/
theorem stringsSplit_no_newline (out line : String) (h : line ∈ stringsSplit out '\n') :
    '\n' ∉ line.toList := by
  simp only [stringsSplit, List.mem_map] at h
  obtain ⟨piece, hp, rfl⟩ := h
  exact splitChars_no_sep '\n' _ piece hp

/-- The loop of `matchNetstatOut` answers true exactly when some line is not
empty and matches. -/
theorem matchNetstatLines_iff (lib : Lib) (re : String) :
    ∀ lines : List String, matchNetstatLines lib re lines = true ↔
      ∃ line ∈ lines, (lib.MatchString re line).1 = true ∧ line ≠ ""
  | [] => by simp [matchNetstatLines]
  | line :: rest => by
    have ih := matchNetstatLines_iff lib re rest
    simp only [matchNetstatLines]
    split_ifs with h
    · simp only [true_iff]
      exact ⟨line, List.mem_cons_self _ _, h⟩
    · rw [ih]
      constructor
      · rintro ⟨l, hl, hm⟩
        exact ⟨l, List.mem_cons_of_mem _ hl, hm⟩
      · rintro ⟨l, hl, hm⟩
        rcases List.mem_cons.1 hl with h1 | h1
        · rw [h1] at hm; exact absurd hm h
        · exact ⟨l, h1, hm⟩

/-- On a line, the readiness pattern for the port `P` finds a match exactly when
the line contains a colon, the characters of `P`, white space, and a later colon. -/
theorem searchItems_port_iff (P : Int) (line : List Char) (hnl : '\n' ∉ line) :
    searchItems ((':' :: (toString P).toList).map (fun c => { cls := .lit c, quant := .one }) ++
        [{ cls := .space, quant := .plus }, { cls := .anyNotNL, quant := .star },
         { cls := .lit ':', quant := .one }, { cls := .anyNotNL, quant := .star }]) line = true ↔
      ∃ pre ws mid post, line = pre ++ ':' :: (toString P).toList ++ ws ++ mid ++ ':' :: post ∧
        ws ≠ [] ∧ ∀ c ∈ ws, CharClass.space.test c = true := by
  rw [searchItems_iff]
  constructor
  · rintro ⟨pre, suf, hs, hm⟩
    obtain ⟨b, hb, hmb⟩ := (matchItems_lits _ _ _).1 hm
    obtain ⟨ws, mid, post, hws, hne, hsp, _⟩ := (matchItems_tail b).1 hmb
    exact ⟨pre, ws, mid, post, by rw [hs, hb, hws]; simp, hne, hsp⟩
  · rintro ⟨pre, ws, mid, post, hs, hne, hsp⟩
    refine ⟨pre, ':' :: (toString P).toList ++ (ws ++ mid ++ ':' :: post), by rw [hs]; simp, ?_⟩
    refine (matchItems_lits _ _ _).2 ⟨_, rfl, (matchItems_tail _).2 ⟨ws, mid, post, rfl, hne, hsp, ?_⟩⟩
    intro c hc
    have hcl : c ∈ line := by rw [hs]; simp [hc]
    simp only [CharClass.test, ne_eq, decide_eq_true_eq]
    rintro rfl
    exact hnl hcl

/-- C18: one readiness attempt for the port `P`, with a library whose
`regexp.MatchString` reads the pattern as defined above.  The attempt answers
true exactly when the socket-listing command succeeded and some non-empty line
of its output contains a colon followed by the decimal text of `P`, immediately
followed by at least one white space character, followed later on the line by a
colon.  So a command error gives false and an empty output gives false.  For the
port 2376, a line listing the port 23760 or the port 12376 does not match, and
a line listing the port 2376 does. -/
theorem checkDaemonUp_iff_listening (lib : Lib) (p : Provisioner) (P : Int) (t : Trace)
    (hlib : ∀ re line items, parsePattern re = some items →
      lib.MatchString re line = (searchItems items line.toList, none)) :
    ((checkDaemonUp lib p P t).1 = true ↔
      (p.onSSHCommand t netstatCommand).2 = none ∧
      ∃ line ∈ stringsSplit (p.onSSHCommand t netstatCommand).1 '\n', line ≠ "" ∧
        ∃ pre ws mid post,
          line.toList = pre ++ ':' :: (toString P).toList ++ ws ++ mid ++ ':' :: post ∧
          ws ≠ [] ∧ ∀ c ∈ ws, CharClass.space.test c = true) ∧
    ((p.onSSHCommand t netstatCommand).2 ≠ none → (checkDaemonUp lib p P t).1 = false) ∧
    ((p.onSSHCommand t netstatCommand).1 = "" → (checkDaemonUp lib p P t).1 = false) ∧
    (regexpMatchString ":2376\\s+.*:.*" "tcp 0 0 0.0.0.0:23760 0.0.0.0:* LISTEN").1 = false ∧
    (regexpMatchString ":2376\\s+.*:.*" "tcp 0 0 0.0.0.0:12376 0.0.0.0:* LISTEN").1 = false ∧
    (regexpMatchString ":2376\\s+.*:.*" "tcp6 0 0 :::2376 :::* LISTEN").1 = true := by
  have hrun : (checkDaemonUp lib p P t).1 =
      if (p.onSSHCommand t netstatCommand).2 ≠ none then false
      else matchNetstatOut lib (":" ++ toString P ++ "\\s+.*:.*")
        (p.onSSHCommand t netstatCommand).1 := by
    simp only [checkDaemonUp, go_bind_apply, go_pure_apply, go_ite_apply, perform_apply,
      Provisioner.SSHCommand]
    split_ifs <;> rfl
  have hmatch : ∀ out : String,
      matchNetstatOut lib (":" ++ toString P ++ "\\s+.*:.*") out = true ↔
        ∃ line ∈ stringsSplit out '\n', line ≠ "" ∧
          ∃ pre ws mid post,
            line.toList = pre ++ ':' :: (toString P).toList ++ ws ++ mid ++ ':' :: post ∧
            ws ≠ [] ∧ ∀ c ∈ ws, CharClass.space.test c = true := by
    intro out
    unfold matchNetstatOut
    rw [matchNetstatLines_iff]
    constructor
    · rintro ⟨line, hl, hm, hne⟩
      rw [hlib _ line _ (parsePattern_port P)] at hm
      exact ⟨line, hl, hne,
        (searchItems_port_iff P line.toList (stringsSplit_no_newline out line hl)).1 hm⟩
    · rintro ⟨line, hl, hne, hd⟩
      refine ⟨line, hl, ?_, hne⟩
      rw [hlib _ line _ (parsePattern_port P)]
      exact (searchItems_port_iff P line.toList (stringsSplit_no_newline out line hl)).2 hd
  have hiff : (checkDaemonUp lib p P t).1 = true ↔
      (p.onSSHCommand t netstatCommand).2 = none ∧
      ∃ line ∈ stringsSplit (p.onSSHCommand t netstatCommand).1 '\n', line ≠ "" ∧
        ∃ pre ws mid post,
          line.toList = pre ++ ':' :: (toString P).toList ++ ws ++ mid ++ ':' :: post ∧
          ws ≠ [] ∧ ∀ c ∈ ws, CharClass.space.test c = true := by
    rw [hrun]
    split_ifs with herr
    · simp only [Bool.false_eq_true, false_iff, not_and]
      intro h
      exact absurd h herr
    · rw [hmatch]
      simp only [ne_eq, not_not] at herr
      simp only [herr, true_and]
  refine ⟨hiff, ?_, ?_, by decide, by decide, by decide⟩
  · intro herr
    rw [hrun, if_pos herr]
  · intro hempty
    cases hres : (checkDaemonUp lib p P t).1 with
    | false => rfl
    | true =>
      obtain ⟨_, line, hl, hne, _⟩ := hiff.1 hres
      rw [hempty] at hl
      have hl1 : line = "" := by
        have : stringsSplit "" '\n' = [""] := by decide
        rw [this] at hl
        simpa using hl
      exact absurd hl1 hne

/-- C18, on samples: with the port 2376, a listing that shows the port 2376
gives true, and a listing that shows the ports 23760 and 12376 only gives false. -/
theorem checkDaemonUp_iff_listening_witness :
    (checkDaemonUp regexLib listeningProvisioner 2376 []).1 = true ∧
    (checkDaemonUp regexLib otherPortsProvisioner 2376 []).1 = false :=
  ⟨((checkDaemonUp_iff_listening regexLib listeningProvisioner 2376 []
      (fun re line items h => by simp [regexLib, regexpMatchString, h])).1).2
      ⟨rfl, "tcp6 0 0 :::2376 :::* LISTEN", by decide, by decide,
        "tcp6 0 0 ::".toList, [' '], [], "::* LISTEN".toList, by decide, by decide, by decide⟩,
   by decide⟩

/-! ## Theorems: size conversions -/

/-- The unsigned conversion to megabytes is the quotient by `2 ^ 20`. -/
theorem ConvertUnsignedBytesToMB_eq (b : Nat) (h : b < 2 ^ 64) :
    ConvertUnsignedBytesToMB b = ((b / 2 ^ 20 : Nat) : Int) := by
  simp only [ConvertUnsignedBytesToMB, wrapInt64, unitsMiB]
  norm_num at h ⊢
  omega

/-- The signed conversion to megabytes divides the unsigned reading of its argument. -/
theorem ConvertBytesToMB_eq (x : Int) :
    ConvertBytesToMB x = (((x % 2 ^ 64).toNat / 2 ^ 20 : Nat) : Int) := by
  have hlt : toUint64 x < 2 ^ 64 := by
    simp only [toUint64]
    norm_num
    omega
  simp only [ConvertBytesToMB, ConvertUnsignedBytesToMB_eq _ hlt]
  simp only [toUint64, wrapInt64]
  norm_num
  omega

/-- C21: with 64-bit integers, converting `n` megabytes to bytes and back gives
`n` for every `n` with `0 ≤ n < 2 ^ 43`; for every byte count `b` with
`0 ≤ b < 2 ^ 63`, `ConvertBytesToMB b` is the floor of `b / 2 ^ 20` and equals
`ConvertUnsignedBytesToMB b`; and for every negative `n` the round trip does not
give `n` back, since the result, computed from the unsigned reading of the byte
count, is never negative: for `n = -1` it is `2 ^ 44 - 1`. -/
theorem convert_round_trip :
    (∀ n : Int, 0 ≤ n → n < 2 ^ 43 → ConvertBytesToMB (ConvertMBToBytes n) = n) ∧
    (∀ b : Int, 0 ≤ b → b < 2 ^ 63 →
      ConvertBytesToMB b = b / 2 ^ 20 ∧
      ConvertBytesToMB b = ConvertUnsignedBytesToMB (toUint64 b) ∧
      ((toUint64 b : Nat) : Int) = b) ∧
    (∀ n : Int, -2 ^ 63 ≤ n → n < 0 →
      0 ≤ ConvertBytesToMB (ConvertMBToBytes n) ∧
      ConvertBytesToMB (ConvertMBToBytes n) ≠ n) ∧
    ConvertBytesToMB (ConvertMBToBytes (-1)) = 2 ^ 44 - 1 := by
  refine ⟨?_, ?_, ?_, by decide⟩
  · intro n h0 h1
    rw [ConvertBytesToMB_eq]
    simp only [ConvertMBToBytes, wrapInt64, unitsMiB]
    norm_num at h1 ⊢
    omega
  · intro b h0 h1
    have hu : ((toUint64 b : Nat) : Int) = b := by
      simp only [toUint64]
      norm_num at h1 ⊢
      omega
    have hlt : toUint64 b < 2 ^ 64 := by
      norm_num at h1 ⊢
      omega
    refine ⟨?_, ?_, hu⟩
    · rw [ConvertBytesToMB_eq]
      norm_num at h1 ⊢
      omega
    · rw [ConvertBytesToMB_eq, ConvertUnsignedBytesToMB_eq _ hlt]
      rfl
  · intro n _ h1
    have hnn : 0 ≤ ConvertBytesToMB (ConvertMBToBytes n) := by
      rw [ConvertBytesToMB_eq]
      exact Int.ofNat_nonneg _
    exact ⟨hnn, by omega⟩

/-- C21, on samples: 2048 megabytes survive the round trip, 3 GiB and 5 bytes
are 3072 megabytes, and -2048 megabytes do not survive it. -/
theorem convert_round_trip_witness :
    ConvertBytesToMB (ConvertMBToBytes 2048) = 2048 ∧
    (ConvertBytesToMB 3221225477 = 3221225477 / 2 ^ 20 ∧
      ConvertBytesToMB 3221225477 = ConvertUnsignedBytesToMB (toUint64 3221225477) ∧
      ((toUint64 3221225477 : Nat) : Int) = 3221225477) ∧
    (0 ≤ ConvertBytesToMB (ConvertMBToBytes (-2048)) ∧
      ConvertBytesToMB (ConvertMBToBytes (-2048)) ≠ -2048) :=
  ⟨convert_round_trip.1 2048 (by decide) (by decide),
   convert_round_trip.2.1 3221225477 (by decide) (by decide),
   convert_round_trip.2.2.1 (-2048) (by decide) (by decide)⟩

end Minikube
